import Mathlib

/-!
# simple-neural-net: forward pass, backpropagation and the learning-rate controller

A shallow embedding of `network.c`, `errorFunctions.c`, `activationFunctions.c` and
`outputFunctions.c`, followed by theorems about the embedded functions.

Modelling conventions.

* `double` is an arbitrary linear ordered field `α` (exact arithmetic; rounding, infinities and
  NaN are outside the model).  Every definition is computable, so it runs on `α = ℚ`.
* `int` sizes, counters and indices are `Nat` in the record of the globals (a negative bound and
  a zero bound both give a loop that does not run).  The iteration cap and the cycle counter of
  `train` and the dump interval are `Int`.
* The topology planner `calculateNumNodesAndWeights` and the sizing of the storage in
  `parseConfig` are modelled on the `int` globals themselves (`Layout`, fields of type `Int`,
  so that a layer count or a dimension may be zero or negative), with every `int` product and
  subtraction reduced to 32 bits by `wrapInt`.  `calculateNumNodesAndWeights.inRange` is the
  same planner on the `Nat` fields; the two agree when the products fit an `int`
  (`calculateNumNodesAndWeights_layout`).
* A `double *` block is a total map `Nat → α`; an element write is `Function.update`.
* The process-wide globals are the fields of one record, `Network α`, passed through every
  function.  The four function pointers are fields as well.
* A counting loop is `forUp`, a down-counting loop is `forDown`; loop bodies are the functions
  named `…Step` below and read the globals from the state they are handed, as the C does.
* Printing and file output do not change the globals and are left out.
* `exp` of the C math library is a parameter of `sigmoid` and `sigmoidDeriv`; the results that
  need its properties take `α = ℝ` and `exp = Real.exp`.
* `numLayers - 1` and `numLayers - 2` are truncated subtractions: on a state with fewer than two
  layers, where the C indexes `layerDimensions` below `0`, the model reads slot `0`.  The
  results about the backward pass assume at least two layers.

Layout: the definitions translated from the source come first, then the definitions used to
state results (frames, closed forms, invariants, concrete networks), then lemmas that need no
arithmetic, then the theorems.
-/

namespace SimpleNeuralNet

/-! ## Definitions -/

section Defs

variable {α : Type} [LinearOrderedField α]

/-- The C loop `for (int i = 0; i < n; i++) body`. -/
def forUp {σ : Type} (n : Nat) (body : Nat → σ → σ) (s : σ) : σ :=
  match n with
  | 0 => s
  | n + 1 => body n (forUp n body s)

/-- The C loop `for (int i = n - 1; i >= 0; i--) body`. -/
def forDown {σ : Type} (n : Nat) (body : Nat → σ → σ) (s : σ) : σ :=
  match n with
  | 0 => s
  | n + 1 => forDown n body (body n s)

/-- The globals of `network.c` that the numeric engine reads or writes. -/
structure Network (α : Type) where
  outputFunction : α → α
  outputDerivFunction : α → α
  activationFunction : α → α
  errorFunction : (Nat → α) → (Nat → α) → Nat → α
  numLayers : Nat
  numInputNodes : Nat
  layerDimensions : Nat → Nat
  numOutputNodes : Nat
  nodes : Nat → α
  weights : Nat → α
  expectedOutputs : Nat → α
  thetas : Nat → α
  psis : Nat → α
  totalWeights : Nat
  maxNodesInALayer : Nat
  maxWeightsInALayer : Nat
  numTrainingSets : Nat
  enableWeightRollback : Char
  trainingSets : Nat → α
  error : α
  learningFactor : α
  learningFactorScaler : α
  minLearningFactor : α
  maxLearningFactor : α
  dumpEveryIterations : Int

/-! ### activationFunctions.c, outputFunctions.c, errorFunctions.c -/

/-- `identity` of `activationFunctions.c`. -/
def identity (input : α) : α := input

/-- `relu` of `outputFunctions.c`: `fmax(0.0, value)`. -/
def relu (value : α) : α := max 0 value

/-- `reluDeriv` of `outputFunctions.c`. -/
def reluDeriv (value : α) : α := if value ≥ 0 then 1 else 0

/-- `quadraticLoss` of `errorFunctions.c`.  The loop body reads index `0` of both arrays on
every iteration, exactly as the source does. -/
def quadraticLoss (expectedOutput actualOutput : Nat → α) (arrayLength : Nat) : α :=
  let error := forUp arrayLength (fun _ error =>
    let deviation := expectedOutput 0 - actualOutput 0
    error + deviation * deviation) 0
  0.5 * error

/-! ### network.c -/

/-- The value an `int` operation leaves when its mathematical result is `z`: an `int` is 32
bits wide and the compiled program wraps around in two's complement. -/
def wrapInt (z : Int) : Int := (z + 2 ^ 31) % 2 ^ 32 - 2 ^ 31

/-- The `int` globals that describe the layout of the network.  `layerDimensions` is the `int`
array, read at the indices the loops visit. -/
@[ext] structure Layout where
  numLayers : Int
  numOutputNodes : Int
  layerDimensions : Nat → Int
  maxNodesInALayer : Int
  maxWeightsInALayer : Int
  totalWeights : Int

/-- Body of the loop of `calculateNumNodesAndWeights`: maintaining `maxNodesInALayer`. -/
def calculateNumNodesAndWeights.layerStep (layer : Nat) (g : Layout) : Layout :=
  if g.layerDimensions layer > g.maxNodesInALayer then
    { g with maxNodesInALayer := g.layerDimensions layer }
  else g

/-- `calculateNumNodesAndWeights`, on the `int` globals it reads and writes: the loop runs for
`layer = 0, …, numLayers - 1` (not at all when `numLayers ≤ 0`) and the two products and the
subtraction are `int` operations. -/
def calculateNumNodesAndWeights (g : Layout) : Layout :=
  let g := forUp g.numLayers.toNat calculateNumNodesAndWeights.layerStep g
  let g := { g with maxWeightsInALayer := wrapInt (g.maxNodesInALayer * g.maxNodesInALayer) }
  { g with totalWeights := wrapInt (g.maxWeightsInALayer * wrapInt (g.numLayers - 1)) }

/-- The planner written on the `Nat` fields of `Network`, for a state with at least one layer
whose products fit an `int`: there it agrees with `calculateNumNodesAndWeights`
(`calculateNumNodesAndWeights_layout`).  The concrete networks below take their strides from
it. -/
def calculateNumNodesAndWeights.inRange (s : Network α) : Network α :=
  let s := forUp s.numLayers (fun layer s =>
    if s.layerDimensions layer > s.maxNodesInALayer then
      { s with maxNodesInALayer := s.layerDimensions layer }
    else s) s
  let s := { s with maxWeightsInALayer := s.maxNodesInALayer * s.maxNodesInALayer }
  { s with totalWeights := s.maxWeightsInALayer * (s.numLayers - 1) }

/-- Body of the `k` loop of `runNetwork`: one source node's term is added to the theta of
destination `j` of layer `m + 1`. -/
def runNetwork.sourceStep (m j k : Nat) (s : Network α) : Network α :=
  let destNodeIndex := (m + 1) * s.maxNodesInALayer + j
  let sourceNodeIndex := m * s.maxNodesInALayer + k
  let currentWeightIndex :=
    m * s.maxNodesInALayer * s.maxNodesInALayer + k * s.maxNodesInALayer + j
  let term := s.activationFunction (s.weights currentWeightIndex * s.nodes sourceNodeIndex)
  { s with thetas := Function.update s.thetas destNodeIndex (s.thetas destNodeIndex + term) }

/-- Body of the `j` loop of `runNetwork`. -/
def runNetwork.destStep (m j : Nat) (s : Network α) : Network α :=
  let numSourceNodes := s.layerDimensions m
  let destNodeIndex := (m + 1) * s.maxNodesInALayer + j
  let s := { s with thetas := Function.update s.thetas destNodeIndex 0 }
  let s := forUp numSourceNodes (runNetwork.sourceStep m j) s
  let value := s.outputFunction (s.thetas destNodeIndex)
  { s with nodes := Function.update s.nodes destNodeIndex value }

/-- Body of the `m` loop of `runNetwork`. -/
def runNetwork.layerStep (m : Nat) (s : Network α) : Network α :=
  let numDestNodes := s.layerDimensions (m + 1)
  forUp numDestNodes (runNetwork.destStep m) s

/-- `runNetwork`. -/
def runNetwork (s : Network α) : Network α :=
  forUp (s.numLayers - 1) runNetwork.layerStep s

/-- `calculateError`: the output layer is copied into a zeroed scratch array and handed to the
error function together with the expected outputs. -/
def calculateError (s : Network α) : α :=
  let nodeIndex := (s.numLayers - 1) * s.maxNodesInALayer
  let actualOutputs : Nat → α :=
    forUp s.numOutputNodes (fun i a => Function.update a i (s.nodes (nodeIndex + i)))
      (fun _ => 0)
  s.errorFunction s.expectedOutputs actualOutputs s.numOutputNodes

/-- Locals of the record loop of a sweep, next to the globals. -/
structure Sweep (α : Type) where
  net : Network α
  index : Nat
  errorSum : α

/-- The two loops that copy one record out of `trainingSets`: the input vector into layer `0`
of `nodes`, the target vector into `expectedOutputs`.  The same two loops open the record loop
of `trainForAllTrainingSets` and of `runForAllTrainingSets`. -/
def loadRecord (p : Sweep α) : Sweep α :=
  let p := forUp p.net.numInputNodes (fun k p =>
    { p with
      net := { p.net with nodes := Function.update p.net.nodes k (p.net.trainingSets p.index) }
      index := p.index + 1 }) p
  forUp p.net.numOutputNodes (fun k p =>
    { p with
      net := { p.net with
        expectedOutputs := Function.update p.net.expectedOutputs k (p.net.trainingSets p.index) }
      index := p.index + 1 }) p

/-- Body of the `i` loop of the output-adjacent phase of `trainForAllTrainingSets`. -/
def trainForAllTrainingSets.outputStep (j i : Nat) (s : Network α) : Network α :=
  let sourceNodeIndex := s.maxNodesInALayer * (s.numLayers - 2) + j
  let destNodeIndex := s.maxNodesInALayer * (s.numLayers - 1) + i
  let weightJIIndex := s.maxWeightsInALayer * (s.numLayers - 2) + s.maxNodesInALayer * j + i
  let w := s.nodes destNodeIndex - s.expectedOutputs i
  let theta := s.thetas (s.maxNodesInALayer * (s.numLayers - 1) + i)
  let psiI := w * s.outputDerivFunction theta
  let s := { s with psis := Function.update s.psis destNodeIndex psiI }
  let psiJ := s.psis (s.maxNodesInALayer * (s.numLayers - 2) + j) + psiI * s.weights weightJIIndex
  let s := { s with psis := Function.update s.psis (s.maxNodesInALayer * (s.numLayers - 2) + j) psiJ }
  let weight := s.weights weightJIIndex - s.learningFactor * s.nodes sourceNodeIndex * psiI
  { s with weights := Function.update s.weights weightJIIndex weight }

/-- Body of the `j` loop of the output-adjacent phase. -/
def trainForAllTrainingSets.hiddenStep (j : Nat) (s : Network α) : Network α :=
  let s := forDown (s.layerDimensions (s.numLayers - 1))
    (trainForAllTrainingSets.outputStep j) s
  let thetaJ := s.thetas (s.maxNodesInALayer * (s.numLayers - 2) + j)
  let psiJ := s.psis (s.maxNodesInALayer * (s.numLayers - 2) + j) * s.outputDerivFunction thetaJ
  { s with psis := Function.update s.psis (s.maxNodesInALayer * (s.numLayers - 2) + j) psiJ }

/-- Body of the `k` loop of the interior phase. -/
def trainForAllTrainingSets.interiorSourceStep (m j k : Nat) (s : Network α) : Network α :=
  let destNodeIndex := s.maxNodesInALayer * (m + 1) + j
  let sourceNodeIndex := s.maxNodesInALayer * m + k
  let psiJ := s.psis destNodeIndex
  let weightKJIndex := s.maxWeightsInALayer * m + s.maxNodesInALayer * k + j
  let weight := s.weights weightKJIndex - s.learningFactor * s.nodes sourceNodeIndex * psiJ
  { s with weights := Function.update s.weights weightKJIndex weight }

/-- Body of the `j` loop of the interior phase. -/
def trainForAllTrainingSets.interiorDestStep (m j : Nat) (s : Network α) : Network α :=
  forDown (s.layerDimensions m) (trainForAllTrainingSets.interiorSourceStep m j) s

/-- Body of the `m` loop of the interior phase. -/
def trainForAllTrainingSets.interiorLayerStep (m : Nat) (s : Network α) : Network α :=
  forDown (s.layerDimensions (m + 1)) (trainForAllTrainingSets.interiorDestStep m) s

/-- The backward pass of one record: the output-adjacent phase (`j` from
`layerDimensions[numLayers - 2] - 1` down to `0`) and then the interior phase (`m` from
`numLayers - 3` down to `0`). -/
def trainForAllTrainingSets.backward (s : Network α) : Network α :=
  let s := forDown (s.layerDimensions (s.numLayers - 2)) trainForAllTrainingSets.hiddenStep s
  forDown (s.numLayers - 2) trainForAllTrainingSets.interiorLayerStep s

/-- Body of the record loop of `trainForAllTrainingSets`: load the record, run the network,
run the backward pass, add the squared error of the record to `errorSum`. -/
def trainForAllTrainingSets.recordStep (_t : Nat) (p : Sweep α) : Sweep α :=
  let p := loadRecord p
  let p := { p with net := runNetwork p.net }
  let p := { p with net := trainForAllTrainingSets.backward p.net }
  let err := calculateError p.net
  { p with errorSum := p.errorSum + err * err }

/-- The record loop of `trainForAllTrainingSets`, from `index = 0` and `errorSum = 0.0`. -/
def trainForAllTrainingSets.records (s : Network α) : Sweep α :=
  forUp s.numTrainingSets trainForAllTrainingSets.recordStep
    { net := s, index := 0, errorSum := 0 }

/-- The loss a sweep measures: `newError = 0.5 * errorSum`. -/
def trainForAllTrainingSets.newError (s : Network α) : α :=
  0.5 * (trainForAllTrainingSets.records s).errorSum

/-- The snapshot `oldWeights`: allocated and filled only when rollback and adaptation are both
enabled, otherwise the pointer is never set (`none`). -/
def trainForAllTrainingSets.snapshot (s : Network α) : Option (Nat → α) :=
  if s.enableWeightRollback = 'Y' ∧ s.learningFactorScaler ≠ 1 then
    some (forUp s.totalWeights (fun i oldWeights => Function.update oldWeights i (s.weights i))
      (fun _ => 0))
  else none

/-- The restore loop `weights[i] = oldWeights[i]`, `i < totalWeights`.  It runs only under
`enableWeightRollback == 'Y'` inside the adaptive branch, where the snapshot exists; the `none`
case cannot be reached there and leaves the weights alone. -/
def trainForAllTrainingSets.restore (oldWeights : Option (Nat → α)) (s : Network α) :
    Network α :=
  match oldWeights with
  | some old =>
    let restored :=
      forUp s.totalWeights (fun i weights => Function.update weights i (old i)) s.weights
    { s with weights := restored }
  | none => s

/-- The `if … else if …` that compares the measured loss with the accepted one. -/
def trainForAllTrainingSets.adjust (oldWeights : Option (Nat → α)) (newError : α)
    (s : Network α) : Network α :=
  if newError > s.error ∧ s.learningFactor > s.minLearningFactor then
    let s := { s with learningFactor := s.learningFactor / s.learningFactorScaler }
    if s.enableWeightRollback = 'Y' then trainForAllTrainingSets.restore oldWeights s else s
  else if newError < s.error then
    { s with error := newError, learningFactor := s.learningFactor * s.learningFactorScaler }
  else s

/-- Capping the learning factor at `maxLearningFactor`. -/
def trainForAllTrainingSets.cap (s : Network α) : Network α :=
  if s.learningFactor > s.maxLearningFactor then { s with learningFactor := s.maxLearningFactor }
  else s

/-- The learning-rate controller that closes `trainForAllTrainingSets`: `s` holds the globals
after the record loop. -/
def trainForAllTrainingSets.adapt (oldWeights : Option (Nat → α)) (newError : α)
    (s : Network α) : Network α :=
  if s.learningFactorScaler ≠ 1 then
    trainForAllTrainingSets.cap (trainForAllTrainingSets.adjust oldWeights newError s)
  else
    { s with error := newError }

/-- `trainForAllTrainingSets`: one sweep. -/
def trainForAllTrainingSets (s : Network α) : Network α :=
  let oldWeights := trainForAllTrainingSets.snapshot s
  let p := trainForAllTrainingSets.records s
  let newError := 0.5 * p.errorSum
  trainForAllTrainingSets.adapt oldWeights newError p.net

/-- Body of the record loop of `runForAllTrainingSets` (printing left out). -/
def runForAllTrainingSets.recordStep (_i : Nat) (p : Sweep α) : Sweep α :=
  let p := loadRecord p
  let p := { p with net := runNetwork p.net }
  let err := calculateError p.net
  { p with errorSum := p.errorSum + err * err }

/-- `runForAllTrainingSets`: the forward-only evaluation sweep. -/
def runForAllTrainingSets (s : Network α) : Network α :=
  let p := forUp s.numTrainingSets runForAllTrainingSets.recordStep
    { net := s, index := 0, errorSum := 0 }
  { p.net with error := p.errorSum * 0.5 }

/-- The `while` loop of `train`.  `cycles % dumpEveryIterations` is evaluated after every sweep,
so a zero dump interval stops the program there (`none`); the dump itself only writes files.
The result is the globals and the cycle counter at loop exit. -/
def train.loop (numTimes : Int) (targetError : α) (cycles : Int) (s : Network α) :
    Option (Network α × Int) :=
  if cycles < numTimes ∧ s.error > targetError then
    if (trainForAllTrainingSets s).dumpEveryIterations = 0 then none
    else train.loop numTimes targetError (cycles + 1) (trainForAllTrainingSets s)
  else some (s, cycles)
termination_by (numTimes - cycles).toNat
decreasing_by omega

/-- `train`: the loop from `cycles = 0`, then the evaluation sweep.  Returns the final globals
and the number of cycles run. -/
def train (numTimes : Int) (targetError : α) (s : Network α) : Option (Network α × Int) :=
  (train.loop numTimes targetError 0 s).map fun r => (runForAllTrainingSets r.1, r.2)

/-! ### Definitions used to state results: frames, closed forms, invariants -/

/-- A state that differs from `s` in its `thetas` and `nodes` blocks only. -/
def Network.withForward (s : Network α) (thetas nodes : Nat → α) : Network α :=
  { s with thetas := thetas, nodes := nodes }

/-- The sum the `k` loop of `runNetwork` accumulates for destination `j` of layer `m + 1`,
with the source layer read from `nodes`. -/
def layerTheta (s : Network α) (nodes : Nat → α) (m j : Nat) : α :=
  ∑ k in Finset.range (s.layerDimensions m),
    s.activationFunction
      (s.weights (m * s.maxNodesInALayer * s.maxNodesInALayer + k * s.maxNodesInALayer + j) *
        nodes (m * s.maxNodesInALayer + k))

/-- What `runNetwork` has established on `s'`, started from `s`, once the connectivity layers
below `M` are done. -/
structure ForwardInv (s s' : Network α) (M : Nat) : Prop where
  frame : ∃ T N, s' = s.withForward T N
  input : ∀ x, x < s.maxNodesInALayer → s'.nodes x = s.nodes x
  theta : ∀ m j, m < M → j < s.layerDimensions (m + 1) →
    s'.thetas ((m + 1) * s.maxNodesInALayer + j) = layerTheta s s'.nodes m j
  node : ∀ m j, m < M → j < s.layerDimensions (m + 1) →
    s'.nodes ((m + 1) * s.maxNodesInALayer + j) =
      s.outputFunction (s'.thetas ((m + 1) * s.maxNodesInALayer + j))

/-- A state that differs from `s` in its `psis` and `weights` blocks only. -/
def Network.withBackward (s : Network α) (psis weights : Nat → α) : Network α :=
  { s with psis := psis, weights := weights }

/-- The strides fit the topology: no layer is wider than `maxNodesInALayer` and one block of
weights holds `maxNodesInALayer²` entries.  `calculateNumNodesAndWeights` establishes both
when its products fit an `int` (`calculateNumNodesAndWeights_layout`). -/
structure Planned (s : Network α) : Prop where
  width : ∀ m, m < s.numLayers → s.layerDimensions m ≤ s.maxNodesInALayer
  block : s.maxWeightsInALayer = s.maxNodesInALayer * s.maxNodesInALayer

/-- The step the interior phase subtracts from weight `(m, k, j)`. -/
def interiorDelta (s : Network α) (m k j : Nat) : α :=
  s.learningFactor * s.nodes (s.maxNodesInALayer * m + k) *
    s.psis (s.maxNodesInALayer * (m + 1) + j)

/-- The error term of output node `i`: `(actual − expected) · outputDeriv(theta)`. -/
def psiOut (s : Network α) (i : Nat) : α :=
  (s.nodes (s.maxNodesInALayer * (s.numLayers - 1) + i) - s.expectedOutputs i) *
    s.outputDerivFunction (s.thetas (s.maxNodesInALayer * (s.numLayers - 1) + i))

/-- The step the output-adjacent phase subtracts from weight `(numLayers − 2, j, i)`. -/
def outputDelta (s : Network α) (j i : Nat) : α :=
  s.learningFactor * s.nodes (s.maxNodesInALayer * (s.numLayers - 2) + j) * psiOut s i

/-- The finalized error term of node `j` of layer `numLayers − 2`: what the slot held, plus the
error terms of the output nodes weighted by the connecting weights, times the output derivative
at the node's theta. -/
def hiddenPsi (s : Network α) (j : Nat) : α :=
  (s.psis (s.maxNodesInALayer * (s.numLayers - 2) + j) +
      ∑ i in Finset.range (s.layerDimensions (s.numLayers - 1)), psiOut s i *
        s.weights (s.maxWeightsInALayer * (s.numLayers - 2) + s.maxNodesInALayer * j + i)) *
    s.outputDerivFunction (s.thetas (s.maxNodesInALayer * (s.numLayers - 2) + j))

/-- The `psis` block once the output-adjacent phase is over. -/
def outputPhasePsis (s : Network α) : Nat → α := fun x =>
  if s.maxNodesInALayer * (s.numLayers - 2) ≤ x ∧
      x < s.maxNodesInALayer * (s.numLayers - 2) + s.layerDimensions (s.numLayers - 2) then
    hiddenPsi s (x - s.maxNodesInALayer * (s.numLayers - 2))
  else if 0 < s.layerDimensions (s.numLayers - 2) ∧ s.maxNodesInALayer * (s.numLayers - 1) ≤ x ∧
      x < s.maxNodesInALayer * (s.numLayers - 1) + s.layerDimensions (s.numLayers - 1) then
    psiOut s (x - s.maxNodesInALayer * (s.numLayers - 1))
  else s.psis x

/-- A state that differs from `s` in its `nodes` and `expectedOutputs` blocks only. -/
def Network.withRecord (s : Network α) (nodes expectedOutputs : Nat → α) : Network α :=
  { s with nodes := nodes, expectedOutputs := expectedOutputs }

/-- The forward pass of a record: the network run on the state the record was loaded into; its
weights are the weights held before the record's pass. -/
def trainForAllTrainingSets.forward (p : Sweep α) : Network α :=
  runNetwork (loadRecord p).net

/-- A state that differs from `s` in its five numeric blocks only. -/
def Network.withArrays (s : Network α) (nodes expectedOutputs thetas psis weights : Nat → α) :
    Network α :=
  { s with nodes := nodes, expectedOutputs := expectedOutputs, thetas := thetas, psis := psis,
           weights := weights }

/-- The two states agree on everything but the five numeric blocks, `learningFactor` and
`error`. -/
structure SameConfig (s s' : Network α) : Prop where
  outputFunction : s'.outputFunction = s.outputFunction
  outputDerivFunction : s'.outputDerivFunction = s.outputDerivFunction
  activationFunction : s'.activationFunction = s.activationFunction
  errorFunction : s'.errorFunction = s.errorFunction
  numLayers : s'.numLayers = s.numLayers
  numInputNodes : s'.numInputNodes = s.numInputNodes
  layerDimensions : s'.layerDimensions = s.layerDimensions
  numOutputNodes : s'.numOutputNodes = s.numOutputNodes
  totalWeights : s'.totalWeights = s.totalWeights
  maxNodesInALayer : s'.maxNodesInALayer = s.maxNodesInALayer
  maxWeightsInALayer : s'.maxWeightsInALayer = s.maxWeightsInALayer
  numTrainingSets : s'.numTrainingSets = s.numTrainingSets
  enableWeightRollback : s'.enableWeightRollback = s.enableWeightRollback
  trainingSets : s'.trainingSets = s.trainingSets
  learningFactorScaler : s'.learningFactorScaler = s.learningFactorScaler
  minLearningFactor : s'.minLearningFactor = s.minLearningFactor
  maxLearningFactor : s'.maxLearningFactor = s.maxLearningFactor
  dumpEveryIterations : s'.dumpEveryIterations = s.dumpEveryIterations

/-! ### Concrete networks -/

/-- A `[2, 2, 1]` network over `ℚ` with every weight `1/2`, one training record
`input = [1/10, 9/10]`, `target = [4/5]`, identity activation and the `relu` output pair,
with the strides computed by `calculateNumNodesAndWeights.inRange` from zeroed globals. -/
def demoNet : Network ℚ :=
  calculateNumNodesAndWeights.inRange
    { outputFunction := relu
      outputDerivFunction := reluDeriv
      activationFunction := identity
      errorFunction := quadraticLoss
      numLayers := 3
      numInputNodes := 2
      layerDimensions := fun m => [2, 2, 1].getD m 0
      numOutputNodes := 1
      nodes := fun _ => 0
      weights := fun _ => 1 / 2
      expectedOutputs := fun _ => 0
      thetas := fun _ => 0
      psis := fun _ => 0
      totalWeights := 0
      maxNodesInALayer := 0
      maxWeightsInALayer := 0
      numTrainingSets := 1
      enableWeightRollback := 'Y'
      trainingSets := fun i => [1 / 10, 9 / 10, 4 / 5].getD i 0
      error := 1
      learningFactor := 1 / 2
      learningFactorScaler := 2
      minLearningFactor := 1 / 100
      maxLearningFactor := 10
      dumpEveryIterations := 1 }

/-- A `[1, 1]` network over `ℚ`: one weight `1/2`, one training record `input = [1]`,
`target = [1]`, identity activation, the `relu` output pair, rollback enabled, strides computed
by `calculateNumNodesAndWeights.inRange` from zeroed globals.  The scalar training state is left
open. -/
def tinyNet (error learningFactor learningFactorScaler minLearningFactor maxLearningFactor : ℚ) :
    Network ℚ :=
  calculateNumNodesAndWeights.inRange
    { outputFunction := relu
      outputDerivFunction := reluDeriv
      activationFunction := identity
      errorFunction := quadraticLoss
      numLayers := 2
      numInputNodes := 1
      layerDimensions := fun m => [1, 1].getD m 0
      numOutputNodes := 1
      nodes := fun _ => 0
      weights := fun _ => 1 / 2
      expectedOutputs := fun _ => 0
      thetas := fun _ => 0
      psis := fun _ => 0
      totalWeights := 0
      maxNodesInALayer := 0
      maxWeightsInALayer := 0
      numTrainingSets := 1
      enableWeightRollback := 'Y'
      trainingSets := fun _ => 1
      error := error
      learningFactor := learningFactor
      learningFactorScaler := learningFactorScaler
      minLearningFactor := minLearningFactor
      maxLearningFactor := maxLearningFactor
      dumpEveryIterations := 1 }

/-- The record loop of a sweep of `demoNet` at its start. -/
def demoSweep : Sweep ℚ := { net := demoNet, index := 0, errorSum := 0 }

/-- The layout globals of a state, as `int`s. -/
def Network.layout (s : Network α) : Layout :=
  { numLayers := s.numLayers
    numOutputNodes := s.numOutputNodes
    layerDimensions := fun m => s.layerDimensions m
    maxNodesInALayer := s.maxNodesInALayer
    maxWeightsInALayer := s.maxWeightsInALayer
    totalWeights := s.totalWeights }

/-- The element counts of the five blocks `parseConfig` requests from `malloc`, each the value of
the `int` expression that is multiplied by `sizeof(double)` (a negative count converts to a
huge `size_t`). -/
structure Storage where
  nodes : Int
  weights : Int
  expectedOutputs : Int
  thetas : Int
  psis : Int

/-- The topology part of `parseConfig` (lines 237–264): the planner is called and the five
blocks are sized from its results.  Neither the planner, which returns `void`, nor this part of
`parseConfig` has an error exit (a failed `malloc` only prints a message), so the outcome is
`Except.ok` on every input. -/
def parseConfig.plan (g : Layout) : Except String (Layout × Storage) :=
  let g := calculateNumNodesAndWeights g
  Except.ok (g,
    { nodes := wrapInt (g.maxNodesInALayer * g.numLayers)
      weights := wrapInt (g.maxWeightsInALayer * g.numLayers)
      expectedOutputs := g.numOutputNodes
      thetas := wrapInt (g.maxNodesInALayer * g.numLayers)
      psis := wrapInt (g.maxNodesInALayer * g.numLayers) })

/-- Zeroed stride globals with the given number of layers and layer dimensions (entries past
the list read as `0`); the last listed dimension is the number of output nodes. -/
def blankLayout (numLayers : Int) (layerDimensions : List Int) : Layout :=
  { numLayers := numLayers
    numOutputNodes := layerDimensions.getD (numLayers - 1).toNat 0
    layerDimensions := fun m => layerDimensions.getD m 0
    maxNodesInALayer := 0
    maxWeightsInALayer := 0
    totalWeights := 0 }

/-- The network `tinyNet 0 (1/2) 2 (1/100) 10` with no training record. -/
def emptyNet : Network ℚ := { tinyNet 0 (1 / 2) 2 (1 / 100) 10 with numTrainingSets := 0 }

/-- The network `demoNet` with its input layer kept and every other node, theta and psi slot
overwritten. -/
def scrambledDemoNet : Network ℚ :=
  { demoNet with
    nodes := fun k => if k < 2 then demoNet.nodes k else 5
    thetas := fun _ => 3
    psis := fun _ => 7 }

/-- The `nodes` block once the input vector of the record at offset `index` is loaded. -/
def loadedNodes (s : Network α) (index : Nat) : Nat → α := fun k =>
  if k < s.numInputNodes then s.trainingSets (index + k) else s.nodes k

/-- The `expectedOutputs` block once the target vector of the record at offset `index` is
loaded. -/
def loadedTargets (s : Network α) (index : Nat) : Nat → α := fun i =>
  if i < s.numOutputNodes then s.trainingSets (index + s.numInputNodes + i)
  else s.expectedOutputs i

/-- Offset of record `t` in `trainingSets`. -/
def recordOffset (s : Network α) (t : Nat) : Nat :=
  t * (s.numInputNodes + s.numOutputNodes)

/-- The error of record `t`: the error function applied to the record's target vector and to
the output layer of a forward pass run on the record's input vector, both taken from the state
`s` itself (not from what earlier records left behind). -/
def recordError (s : Network α) (t : Nat) : α :=
  s.errorFunction (loadedTargets s (recordOffset s t))
    (fun i => if i < s.numOutputNodes then
      (runNetwork { s with nodes := loadedNodes s (recordOffset s t) }).nodes
        ((s.numLayers - 1) * s.maxNodesInALayer + i)
      else 0)
    s.numOutputNodes

/-- What the record loop of `runForAllTrainingSets` has established after `t` records. -/
structure EvalInv (s : Network α) (q : Sweep α) (t : Nat) : Prop where
  frame : ∃ N E T, q.net = s.withArrays N E T s.psis s.weights ∧
    ∀ i, s.numOutputNodes ≤ i → E i = s.expectedOutputs i
  index : q.index = recordOffset s t
  errorSum : q.errorSum = ∑ t' in Finset.range t, recordError s t' * recordError s t'

/-- `sigmoid` of `outputFunctions.c`: `1.0 / (1.0 + exp(-value))`.  `exp` is the function of the
C math library and is taken as a parameter; over the reals it is `Real.exp`. -/
def sigmoid (exp : α → α) (value : α) : α := 1 / (1 + exp (-value))

/-- `sigmoidDeriv` of `outputFunctions.c`. -/
def sigmoidDeriv (exp : α → α) (value : α) : α :=
  let sig := sigmoid exp value
  sig * (1 - sig)

/-- The scenario network: topology `[2, 2, 1]`, every weight `0.5`, the input vector
`[0.1, 0.9]` in the input layer, one training record `input = [0.1, 0.9]`, `target = [0.8]`,
identity activation, the sigmoid output pair, learning factor `0.5`, scaler `1.0`, strides
computed by `calculateNumNodesAndWeights.inRange` from zeroed globals. -/
def scenarioNet (exp : α → α) : Network α :=
  calculateNumNodesAndWeights.inRange
    { outputFunction := sigmoid exp
      outputDerivFunction := sigmoidDeriv exp
      activationFunction := identity
      errorFunction := quadraticLoss
      numLayers := 3
      numInputNodes := 2
      layerDimensions := fun m => [2, 2, 1].getD m 0
      numOutputNodes := 1
      nodes := fun k => [0.1, 0.9].getD k 0
      weights := fun _ => 0.5
      expectedOutputs := fun _ => 0
      thetas := fun _ => 0
      psis := fun _ => 0
      totalWeights := 0
      maxNodesInALayer := 0
      maxWeightsInALayer := 0
      numTrainingSets := 1
      enableWeightRollback := 'N'
      trainingSets := fun i => [0.1, 0.9, 0.8].getD i 0
      error := 1
      learningFactor := 0.5
      learningFactorScaler := 1
      minLearningFactor := 0
      maxLearningFactor := 1
      dumpEveryIterations := 1 }

/-- The network `demoNet` with every slot of the psi block holding `1` instead of `0`: what an
earlier record, an earlier sweep or the allocation may have left there. -/
def stalePsiNet : Network ℚ := { demoNet with psis := fun _ => 1 }

/-- Sum of the squares of the input vector of the first training record. -/
def inputEnergy (s : Network α) : α :=
  ∑ k in Finset.range (s.layerDimensions 0), s.trainingSets k * s.trainingSets k

/-- The setting of the monotonicity check: a 2-layer network as `parseConfig` sets it up, with
identity activation, `sigmoid` output and `sigmoidDeriv`, the `quadraticLoss` error function,
one training record and adaptation off. -/
structure SingleRecordSigmoid (exp : α → α) (s : Network α) : Prop where
  planned : Planned s
  numLayers : s.numLayers = 2
  numInputNodes : s.numInputNodes = s.layerDimensions 0
  numOutputNodes : s.numOutputNodes = s.layerDimensions 1
  activationFunction : s.activationFunction = identity
  outputFunction : s.outputFunction = sigmoid exp
  outputDerivFunction : s.outputDerivFunction = sigmoidDeriv exp
  errorFunction : s.errorFunction = quadraticLoss
  numTrainingSets : s.numTrainingSets = 1
  learningFactorScaler : s.learningFactorScaler = 1

/-- A `[2, 1]` network with `sigmoid` output, identity activation, both weights `0.5`, one
training record `input = [0.1, 0.9]`, `target = [0.8]` and adaptation off, with the strides
computed by `calculateNumNodesAndWeights.inRange` from zeroed globals. -/
def descentNet (exp : α → α) : Network α :=
  calculateNumNodesAndWeights.inRange
    { outputFunction := sigmoid exp
      outputDerivFunction := sigmoidDeriv exp
      activationFunction := identity
      errorFunction := quadraticLoss
      numLayers := 2
      numInputNodes := 2
      layerDimensions := fun m => [2, 1].getD m 0
      numOutputNodes := 1
      nodes := fun _ => 0
      weights := fun _ => 0.5
      expectedOutputs := fun _ => 0
      thetas := fun _ => 0
      psis := fun _ => 0
      totalWeights := 0
      maxNodesInALayer := 0
      maxWeightsInALayer := 0
      numTrainingSets := 1
      enableWeightRollback := 'N'
      trainingSets := fun i => [0.1, 0.9, 0.8].getD i 0
      error := 1
      learningFactor := 0.5
      learningFactorScaler := 1
      minLearningFactor := 0
      maxLearningFactor := 1
      dumpEveryIterations := 1 }

/-- The weighted sum over a layer of width `d` whose values are `below`, for destination `j`
of connectivity layer `m`, with the weights laid out with stride `W`. -/
def layerSum (W d : Nat) (w below : Nat → α) (m j : Nat) : α :=
  ∑ k in Finset.range d, w (m * W * W + k * W + j) * below k

/-- The half-sum-of-squares loss of the network on the record at offset `index`, as a function
of the weight block: the forward pass is `runNetwork` on the loaded input vector, the targets
are the loaded target vector. -/
def recordLoss (s : Network α) (index : Nat) (weights : Nat → α) : α :=
  0.5 * ∑ i in Finset.range (s.layerDimensions (s.numLayers - 1)),
    ((runNetwork { s with nodes := loadedNodes s index, weights := weights }).nodes
        ((s.numLayers - 1) * s.maxNodesInALayer + i) - loadedTargets s index i) ^ 2

end Defs

/-! ## Structural lemmas -/

section Structural

variable {α : Type}

@[simp] theorem Network.withForward_outputFunction (s : Network α) (T N : Nat → α) :
    (s.withForward T N).outputFunction = s.outputFunction := rfl

@[simp] theorem Network.withForward_outputDerivFunction (s : Network α) (T N : Nat → α) :
    (s.withForward T N).outputDerivFunction = s.outputDerivFunction := rfl

@[simp] theorem Network.withForward_activationFunction (s : Network α) (T N : Nat → α) :
    (s.withForward T N).activationFunction = s.activationFunction := rfl

@[simp] theorem Network.withForward_errorFunction (s : Network α) (T N : Nat → α) :
    (s.withForward T N).errorFunction = s.errorFunction := rfl

@[simp] theorem Network.withForward_numLayers (s : Network α) (T N : Nat → α) :
    (s.withForward T N).numLayers = s.numLayers := rfl

@[simp] theorem Network.withForward_numInputNodes (s : Network α) (T N : Nat → α) :
    (s.withForward T N).numInputNodes = s.numInputNodes := rfl

@[simp] theorem Network.withForward_layerDimensions (s : Network α) (T N : Nat → α) :
    (s.withForward T N).layerDimensions = s.layerDimensions := rfl

@[simp] theorem Network.withForward_numOutputNodes (s : Network α) (T N : Nat → α) :
    (s.withForward T N).numOutputNodes = s.numOutputNodes := rfl

@[simp] theorem Network.withForward_nodes (s : Network α) (T N : Nat → α) :
    (s.withForward T N).nodes = N := rfl

@[simp] theorem Network.withForward_weights (s : Network α) (T N : Nat → α) :
    (s.withForward T N).weights = s.weights := rfl

@[simp] theorem Network.withForward_expectedOutputs (s : Network α) (T N : Nat → α) :
    (s.withForward T N).expectedOutputs = s.expectedOutputs := rfl

@[simp] theorem Network.withForward_thetas (s : Network α) (T N : Nat → α) :
    (s.withForward T N).thetas = T := rfl

@[simp] theorem Network.withForward_psis (s : Network α) (T N : Nat → α) :
    (s.withForward T N).psis = s.psis := rfl

@[simp] theorem Network.withForward_totalWeights (s : Network α) (T N : Nat → α) :
    (s.withForward T N).totalWeights = s.totalWeights := rfl

@[simp] theorem Network.withForward_maxNodesInALayer (s : Network α) (T N : Nat → α) :
    (s.withForward T N).maxNodesInALayer = s.maxNodesInALayer := rfl

@[simp] theorem Network.withForward_maxWeightsInALayer (s : Network α) (T N : Nat → α) :
    (s.withForward T N).maxWeightsInALayer = s.maxWeightsInALayer := rfl

@[simp] theorem Network.withForward_numTrainingSets (s : Network α) (T N : Nat → α) :
    (s.withForward T N).numTrainingSets = s.numTrainingSets := rfl

@[simp] theorem Network.withForward_enableWeightRollback (s : Network α) (T N : Nat → α) :
    (s.withForward T N).enableWeightRollback = s.enableWeightRollback := rfl

@[simp] theorem Network.withForward_trainingSets (s : Network α) (T N : Nat → α) :
    (s.withForward T N).trainingSets = s.trainingSets := rfl

@[simp] theorem Network.withForward_error (s : Network α) (T N : Nat → α) :
    (s.withForward T N).error = s.error := rfl

@[simp] theorem Network.withForward_learningFactor (s : Network α) (T N : Nat → α) :
    (s.withForward T N).learningFactor = s.learningFactor := rfl

@[simp] theorem Network.withForward_learningFactorScaler (s : Network α) (T N : Nat → α) :
    (s.withForward T N).learningFactorScaler = s.learningFactorScaler := rfl

@[simp] theorem Network.withForward_minLearningFactor (s : Network α) (T N : Nat → α) :
    (s.withForward T N).minLearningFactor = s.minLearningFactor := rfl

@[simp] theorem Network.withForward_maxLearningFactor (s : Network α) (T N : Nat → α) :
    (s.withForward T N).maxLearningFactor = s.maxLearningFactor := rfl

@[simp] theorem Network.withForward_dumpEveryIterations (s : Network α) (T N : Nat → α) :
    (s.withForward T N).dumpEveryIterations = s.dumpEveryIterations := rfl

@[simp] theorem Network.withForward_withForward (s : Network α) (T N T' N' : Nat → α) :
    (s.withForward T N).withForward T' N' = s.withForward T' N' := rfl

@[simp] theorem Network.withForward_self (s : Network α) :
    s.withForward s.thetas s.nodes = s := rfl

theorem forUp_succ {σ : Type} (n : Nat) (body : Nat → σ → σ) (s : σ) :
    forUp (n + 1) body s = body n (forUp n body s) := rfl

theorem forUp_zero {σ : Type} (body : Nat → σ → σ) (s : σ) : forUp 0 body s = s := rfl

@[simp] theorem Network.withBackward_outputFunction (s : Network α) (P Wt : Nat → α) :
    (s.withBackward P Wt).outputFunction = s.outputFunction := rfl

@[simp] theorem Network.withBackward_outputDerivFunction (s : Network α) (P Wt : Nat → α) :
    (s.withBackward P Wt).outputDerivFunction = s.outputDerivFunction := rfl

@[simp] theorem Network.withBackward_activationFunction (s : Network α) (P Wt : Nat → α) :
    (s.withBackward P Wt).activationFunction = s.activationFunction := rfl

@[simp] theorem Network.withBackward_errorFunction (s : Network α) (P Wt : Nat → α) :
    (s.withBackward P Wt).errorFunction = s.errorFunction := rfl

@[simp] theorem Network.withBackward_numLayers (s : Network α) (P Wt : Nat → α) :
    (s.withBackward P Wt).numLayers = s.numLayers := rfl

@[simp] theorem Network.withBackward_numInputNodes (s : Network α) (P Wt : Nat → α) :
    (s.withBackward P Wt).numInputNodes = s.numInputNodes := rfl

@[simp] theorem Network.withBackward_layerDimensions (s : Network α) (P Wt : Nat → α) :
    (s.withBackward P Wt).layerDimensions = s.layerDimensions := rfl

@[simp] theorem Network.withBackward_numOutputNodes (s : Network α) (P Wt : Nat → α) :
    (s.withBackward P Wt).numOutputNodes = s.numOutputNodes := rfl

@[simp] theorem Network.withBackward_nodes (s : Network α) (P Wt : Nat → α) :
    (s.withBackward P Wt).nodes = s.nodes := rfl

@[simp] theorem Network.withBackward_weights (s : Network α) (P Wt : Nat → α) :
    (s.withBackward P Wt).weights = Wt := rfl

@[simp] theorem Network.withBackward_expectedOutputs (s : Network α) (P Wt : Nat → α) :
    (s.withBackward P Wt).expectedOutputs = s.expectedOutputs := rfl

@[simp] theorem Network.withBackward_thetas (s : Network α) (P Wt : Nat → α) :
    (s.withBackward P Wt).thetas = s.thetas := rfl

@[simp] theorem Network.withBackward_psis (s : Network α) (P Wt : Nat → α) :
    (s.withBackward P Wt).psis = P := rfl

@[simp] theorem Network.withBackward_totalWeights (s : Network α) (P Wt : Nat → α) :
    (s.withBackward P Wt).totalWeights = s.totalWeights := rfl

@[simp] theorem Network.withBackward_maxNodesInALayer (s : Network α) (P Wt : Nat → α) :
    (s.withBackward P Wt).maxNodesInALayer = s.maxNodesInALayer := rfl

@[simp] theorem Network.withBackward_maxWeightsInALayer (s : Network α) (P Wt : Nat → α) :
    (s.withBackward P Wt).maxWeightsInALayer = s.maxWeightsInALayer := rfl

@[simp] theorem Network.withBackward_numTrainingSets (s : Network α) (P Wt : Nat → α) :
    (s.withBackward P Wt).numTrainingSets = s.numTrainingSets := rfl

@[simp] theorem Network.withBackward_enableWeightRollback (s : Network α) (P Wt : Nat → α) :
    (s.withBackward P Wt).enableWeightRollback = s.enableWeightRollback := rfl

@[simp] theorem Network.withBackward_trainingSets (s : Network α) (P Wt : Nat → α) :
    (s.withBackward P Wt).trainingSets = s.trainingSets := rfl

@[simp] theorem Network.withBackward_error (s : Network α) (P Wt : Nat → α) :
    (s.withBackward P Wt).error = s.error := rfl

@[simp] theorem Network.withBackward_learningFactor (s : Network α) (P Wt : Nat → α) :
    (s.withBackward P Wt).learningFactor = s.learningFactor := rfl

@[simp] theorem Network.withBackward_learningFactorScaler (s : Network α) (P Wt : Nat → α) :
    (s.withBackward P Wt).learningFactorScaler = s.learningFactorScaler := rfl

@[simp] theorem Network.withBackward_minLearningFactor (s : Network α) (P Wt : Nat → α) :
    (s.withBackward P Wt).minLearningFactor = s.minLearningFactor := rfl

@[simp] theorem Network.withBackward_maxLearningFactor (s : Network α) (P Wt : Nat → α) :
    (s.withBackward P Wt).maxLearningFactor = s.maxLearningFactor := rfl

@[simp] theorem Network.withBackward_dumpEveryIterations (s : Network α) (P Wt : Nat → α) :
    (s.withBackward P Wt).dumpEveryIterations = s.dumpEveryIterations := rfl

@[simp] theorem Network.withBackward_withBackward (s : Network α) (P Wt P' Wt' : Nat → α) :
    (s.withBackward P Wt).withBackward P' Wt' = s.withBackward P' Wt' := rfl

@[simp] theorem Network.withBackward_self (s : Network α) :
    s.withBackward s.psis s.weights = s := rfl

/-- Entry `i` of row `j` lies below the first entry of every later row. -/
theorem row_lt (W j n i : Nat) (hj : j < n) (hi : i < W) : W * j + i < W * n := by
  have h1 : W * (j + 1) ≤ W * n := Nat.mul_le_mul_left W hj
  have h2 : W * (j + 1) = W * j + W := Nat.mul_succ W j
  omega

/-- An entry of a block lies inside the block. -/
theorem Planned.entry_lt {s : Network α} (hp : Planned s) (k j : Nat)
    (hk : k < s.maxNodesInALayer) (hj : j < s.maxNodesInALayer) :
    s.maxNodesInALayer * k + j < s.maxWeightsInALayer := by
  rw [hp.block]
  exact row_lt _ k _ j hk hj

@[simp] theorem Network.withRecord_outputFunction (s : Network α) (N E : Nat → α) :
    (s.withRecord N E).outputFunction = s.outputFunction := rfl

@[simp] theorem Network.withRecord_outputDerivFunction (s : Network α) (N E : Nat → α) :
    (s.withRecord N E).outputDerivFunction = s.outputDerivFunction := rfl

@[simp] theorem Network.withRecord_activationFunction (s : Network α) (N E : Nat → α) :
    (s.withRecord N E).activationFunction = s.activationFunction := rfl

@[simp] theorem Network.withRecord_errorFunction (s : Network α) (N E : Nat → α) :
    (s.withRecord N E).errorFunction = s.errorFunction := rfl

@[simp] theorem Network.withRecord_numLayers (s : Network α) (N E : Nat → α) :
    (s.withRecord N E).numLayers = s.numLayers := rfl

@[simp] theorem Network.withRecord_numInputNodes (s : Network α) (N E : Nat → α) :
    (s.withRecord N E).numInputNodes = s.numInputNodes := rfl

@[simp] theorem Network.withRecord_layerDimensions (s : Network α) (N E : Nat → α) :
    (s.withRecord N E).layerDimensions = s.layerDimensions := rfl

@[simp] theorem Network.withRecord_numOutputNodes (s : Network α) (N E : Nat → α) :
    (s.withRecord N E).numOutputNodes = s.numOutputNodes := rfl

@[simp] theorem Network.withRecord_nodes (s : Network α) (N E : Nat → α) :
    (s.withRecord N E).nodes = N := rfl

@[simp] theorem Network.withRecord_weights (s : Network α) (N E : Nat → α) :
    (s.withRecord N E).weights = s.weights := rfl

@[simp] theorem Network.withRecord_expectedOutputs (s : Network α) (N E : Nat → α) :
    (s.withRecord N E).expectedOutputs = E := rfl

@[simp] theorem Network.withRecord_thetas (s : Network α) (N E : Nat → α) :
    (s.withRecord N E).thetas = s.thetas := rfl

@[simp] theorem Network.withRecord_psis (s : Network α) (N E : Nat → α) :
    (s.withRecord N E).psis = s.psis := rfl

@[simp] theorem Network.withRecord_totalWeights (s : Network α) (N E : Nat → α) :
    (s.withRecord N E).totalWeights = s.totalWeights := rfl

@[simp] theorem Network.withRecord_maxNodesInALayer (s : Network α) (N E : Nat → α) :
    (s.withRecord N E).maxNodesInALayer = s.maxNodesInALayer := rfl

@[simp] theorem Network.withRecord_maxWeightsInALayer (s : Network α) (N E : Nat → α) :
    (s.withRecord N E).maxWeightsInALayer = s.maxWeightsInALayer := rfl

@[simp] theorem Network.withRecord_numTrainingSets (s : Network α) (N E : Nat → α) :
    (s.withRecord N E).numTrainingSets = s.numTrainingSets := rfl

@[simp] theorem Network.withRecord_enableWeightRollback (s : Network α) (N E : Nat → α) :
    (s.withRecord N E).enableWeightRollback = s.enableWeightRollback := rfl

@[simp] theorem Network.withRecord_trainingSets (s : Network α) (N E : Nat → α) :
    (s.withRecord N E).trainingSets = s.trainingSets := rfl

@[simp] theorem Network.withRecord_error (s : Network α) (N E : Nat → α) :
    (s.withRecord N E).error = s.error := rfl

@[simp] theorem Network.withRecord_learningFactor (s : Network α) (N E : Nat → α) :
    (s.withRecord N E).learningFactor = s.learningFactor := rfl

@[simp] theorem Network.withRecord_learningFactorScaler (s : Network α) (N E : Nat → α) :
    (s.withRecord N E).learningFactorScaler = s.learningFactorScaler := rfl

@[simp] theorem Network.withRecord_minLearningFactor (s : Network α) (N E : Nat → α) :
    (s.withRecord N E).minLearningFactor = s.minLearningFactor := rfl

@[simp] theorem Network.withRecord_maxLearningFactor (s : Network α) (N E : Nat → α) :
    (s.withRecord N E).maxLearningFactor = s.maxLearningFactor := rfl

@[simp] theorem Network.withRecord_dumpEveryIterations (s : Network α) (N E : Nat → α) :
    (s.withRecord N E).dumpEveryIterations = s.dumpEveryIterations := rfl

@[simp] theorem Network.withRecord_withRecord (s : Network α) (N E N' E' : Nat → α) :
    (s.withRecord N E).withRecord N' E' = s.withRecord N' E' := rfl

theorem forUp_inv {σ : Type} (P : σ → Prop) (n : Nat) (body : Nat → σ → σ) (s : σ)
    (h0 : P s) (hstep : ∀ i s, P s → P (body i s)) : P (forUp n body s) := by
  induction n with
  | zero => exact h0
  | succ n ih => exact hstep n _ ih

theorem Planned.withForward {s : Network α} (hp : Planned s) (T N : Nat → α) :
    Planned (s.withForward T N) := ⟨hp.width, hp.block⟩

theorem Planned.withRecord {s : Network α} (hp : Planned s) (N E : Nat → α) :
    Planned (s.withRecord N E) := ⟨hp.width, hp.block⟩

/-- Loading a record writes `nodes` and `expectedOutputs` only and leaves `errorSum` alone. -/
theorem loadRecord_frame (p : Sweep α) :
    ∃ N E, (loadRecord p).net = p.net.withRecord N E ∧
      (loadRecord p).errorSum = p.errorSum := by
  unfold loadRecord
  refine forUp_inv
    (fun q : Sweep α => ∃ N E, q.net = p.net.withRecord N E ∧ q.errorSum = p.errorSum)
    _ _ _ ?_ ?_
  · refine forUp_inv
      (fun q : Sweep α => ∃ N E, q.net = p.net.withRecord N E ∧ q.errorSum = p.errorSum)
      _ _ _ ⟨p.net.nodes, p.net.expectedOutputs, rfl, rfl⟩ ?_
    rintro k q ⟨N, E, hq, he⟩
    exact ⟨Function.update N k (q.net.trainingSets q.index), E, by rw [hq]; rfl, he⟩
  · rintro k q ⟨N, E, hq, he⟩
    exact ⟨N, Function.update E k (q.net.trainingSets q.index), by rw [hq]; rfl, he⟩

theorem calculateNumNodesAndWeights.inRange_scan (s : Network α) (n : Nat) :
    (forUp n (fun layer (s : Network α) =>
        if s.layerDimensions layer > s.maxNodesInALayer then
          { s with maxNodesInALayer := s.layerDimensions layer }
        else s) s).layerDimensions = s.layerDimensions ∧
      (forUp n (fun layer (s : Network α) =>
        if s.layerDimensions layer > s.maxNodesInALayer then
          { s with maxNodesInALayer := s.layerDimensions layer }
        else s) s).numLayers = s.numLayers ∧
      ∀ m, m < n → s.layerDimensions m ≤
        (forUp n (fun layer (s : Network α) =>
          if s.layerDimensions layer > s.maxNodesInALayer then
            { s with maxNodesInALayer := s.layerDimensions layer }
          else s) s).maxNodesInALayer := by
  induction n with
  | zero => exact ⟨rfl, rfl, fun m h => absurd h (Nat.not_lt_zero m)⟩
  | succ n ih =>
    obtain ⟨hd, hl, hm⟩ := ih
    rw [forUp_succ]
    by_cases h : (forUp n (fun layer (s : Network α) =>
        if s.layerDimensions layer > s.maxNodesInALayer then
          { s with maxNodesInALayer := s.layerDimensions layer }
        else s) s).layerDimensions n >
        (forUp n (fun layer (s : Network α) =>
        if s.layerDimensions layer > s.maxNodesInALayer then
          { s with maxNodesInALayer := s.layerDimensions layer }
        else s) s).maxNodesInALayer
    · simp only [if_pos h]
      refine ⟨hd, hl, fun m hlt => ?_⟩
      rcases Nat.lt_succ_iff_lt_or_eq.mp hlt with h1 | h1
      · have := hm m h1
        rw [hd] at h ⊢
        omega
      · rw [h1, hd]
    · simp only [if_neg h]
      refine ⟨hd, hl, fun m hlt => ?_⟩
      rcases Nat.lt_succ_iff_lt_or_eq.mp hlt with h1 | h1
      · exact hm m h1
      · rw [hd] at h
        rw [h1]
        omega

/-- The planner on the `Nat` fields leaves strides that fit the topology, whatever the globals
held before. -/
theorem calculateNumNodesAndWeights.inRange_planned (s : Network α) :
    Planned (calculateNumNodesAndWeights.inRange s) := by
  obtain ⟨hd, hl, hm⟩ := calculateNumNodesAndWeights.inRange_scan s s.numLayers
  refine ⟨?_, rfl⟩
  intro m hlt
  have hlt' : m < s.numLayers := by
    have : (calculateNumNodesAndWeights.inRange s).numLayers = s.numLayers := hl
    omega
  have : (calculateNumNodesAndWeights.inRange s).layerDimensions m = s.layerDimensions m :=
    congrFun hd m
  rw [this]
  exact hm m hlt'

@[simp] theorem Network.withArrays_outputFunction (s : Network α) (N E T P Wt : Nat → α) :
    (s.withArrays N E T P Wt).outputFunction = s.outputFunction := rfl

@[simp] theorem Network.withArrays_outputDerivFunction (s : Network α) (N E T P Wt : Nat → α) :
    (s.withArrays N E T P Wt).outputDerivFunction = s.outputDerivFunction := rfl

@[simp] theorem Network.withArrays_activationFunction (s : Network α) (N E T P Wt : Nat → α) :
    (s.withArrays N E T P Wt).activationFunction = s.activationFunction := rfl

@[simp] theorem Network.withArrays_errorFunction (s : Network α) (N E T P Wt : Nat → α) :
    (s.withArrays N E T P Wt).errorFunction = s.errorFunction := rfl

@[simp] theorem Network.withArrays_numLayers (s : Network α) (N E T P Wt : Nat → α) :
    (s.withArrays N E T P Wt).numLayers = s.numLayers := rfl

@[simp] theorem Network.withArrays_numInputNodes (s : Network α) (N E T P Wt : Nat → α) :
    (s.withArrays N E T P Wt).numInputNodes = s.numInputNodes := rfl

@[simp] theorem Network.withArrays_layerDimensions (s : Network α) (N E T P Wt : Nat → α) :
    (s.withArrays N E T P Wt).layerDimensions = s.layerDimensions := rfl

@[simp] theorem Network.withArrays_numOutputNodes (s : Network α) (N E T P Wt : Nat → α) :
    (s.withArrays N E T P Wt).numOutputNodes = s.numOutputNodes := rfl

@[simp] theorem Network.withArrays_nodes (s : Network α) (N E T P Wt : Nat → α) :
    (s.withArrays N E T P Wt).nodes = N := rfl

@[simp] theorem Network.withArrays_weights (s : Network α) (N E T P Wt : Nat → α) :
    (s.withArrays N E T P Wt).weights = Wt := rfl

@[simp] theorem Network.withArrays_expectedOutputs (s : Network α) (N E T P Wt : Nat → α) :
    (s.withArrays N E T P Wt).expectedOutputs = E := rfl

@[simp] theorem Network.withArrays_thetas (s : Network α) (N E T P Wt : Nat → α) :
    (s.withArrays N E T P Wt).thetas = T := rfl

@[simp] theorem Network.withArrays_psis (s : Network α) (N E T P Wt : Nat → α) :
    (s.withArrays N E T P Wt).psis = P := rfl

@[simp] theorem Network.withArrays_totalWeights (s : Network α) (N E T P Wt : Nat → α) :
    (s.withArrays N E T P Wt).totalWeights = s.totalWeights := rfl

@[simp] theorem Network.withArrays_maxNodesInALayer (s : Network α) (N E T P Wt : Nat → α) :
    (s.withArrays N E T P Wt).maxNodesInALayer = s.maxNodesInALayer := rfl

@[simp] theorem Network.withArrays_maxWeightsInALayer (s : Network α) (N E T P Wt : Nat → α) :
    (s.withArrays N E T P Wt).maxWeightsInALayer = s.maxWeightsInALayer := rfl

@[simp] theorem Network.withArrays_numTrainingSets (s : Network α) (N E T P Wt : Nat → α) :
    (s.withArrays N E T P Wt).numTrainingSets = s.numTrainingSets := rfl

@[simp] theorem Network.withArrays_enableWeightRollback (s : Network α) (N E T P Wt : Nat → α) :
    (s.withArrays N E T P Wt).enableWeightRollback = s.enableWeightRollback := rfl

@[simp] theorem Network.withArrays_trainingSets (s : Network α) (N E T P Wt : Nat → α) :
    (s.withArrays N E T P Wt).trainingSets = s.trainingSets := rfl

@[simp] theorem Network.withArrays_error (s : Network α) (N E T P Wt : Nat → α) :
    (s.withArrays N E T P Wt).error = s.error := rfl

@[simp] theorem Network.withArrays_learningFactor (s : Network α) (N E T P Wt : Nat → α) :
    (s.withArrays N E T P Wt).learningFactor = s.learningFactor := rfl

@[simp] theorem Network.withArrays_learningFactorScaler (s : Network α) (N E T P Wt : Nat → α) :
    (s.withArrays N E T P Wt).learningFactorScaler = s.learningFactorScaler := rfl

@[simp] theorem Network.withArrays_minLearningFactor (s : Network α) (N E T P Wt : Nat → α) :
    (s.withArrays N E T P Wt).minLearningFactor = s.minLearningFactor := rfl

@[simp] theorem Network.withArrays_maxLearningFactor (s : Network α) (N E T P Wt : Nat → α) :
    (s.withArrays N E T P Wt).maxLearningFactor = s.maxLearningFactor := rfl

@[simp] theorem Network.withArrays_dumpEveryIterations (s : Network α) (N E T P Wt : Nat → α) :
    (s.withArrays N E T P Wt).dumpEveryIterations = s.dumpEveryIterations := rfl

@[simp] theorem Network.withArrays_withArrays (s : Network α)
    (N E T P Wt N' E' T' P' Wt' : Nat → α) :
    (s.withArrays N E T P Wt).withArrays N' E' T' P' Wt' = s.withArrays N' E' T' P' Wt' := rfl

theorem Network.withArrays_self (s : Network α) :
    s.withArrays s.nodes s.expectedOutputs s.thetas s.psis s.weights = s := rfl

theorem copyLoop_apply (n : Nat) (src dst : Nat → α) (x : Nat) :
    forUp n (fun i w => Function.update w i (src i)) dst x = if x < n then src x else dst x := by
  induction n with
  | zero => simp [forUp_zero]
  | succ n ih =>
    rw [forUp_succ]
    by_cases h : x = n
    · subst h
      simp
    · rw [Function.update_noteq h, ih]
      by_cases h1 : x < n
      · rw [if_pos h1, if_pos (by omega)]
      · rw [if_neg h1, if_neg (by omega)]

theorem SameConfig.refl (s : Network α) : SameConfig s s := by
  constructor <;> rfl

theorem SameConfig.trans {s s' s'' : Network α} (h : SameConfig s s') (h' : SameConfig s' s'') :
    SameConfig s s'' :=
  ⟨h'.outputFunction.trans h.outputFunction, h'.outputDerivFunction.trans h.outputDerivFunction, h'.activationFunction.trans h.activationFunction, h'.errorFunction.trans h.errorFunction, h'.numLayers.trans h.numLayers, h'.numInputNodes.trans h.numInputNodes, h'.layerDimensions.trans h.layerDimensions, h'.numOutputNodes.trans h.numOutputNodes, h'.totalWeights.trans h.totalWeights, h'.maxNodesInALayer.trans h.maxNodesInALayer, h'.maxWeightsInALayer.trans h.maxWeightsInALayer, h'.numTrainingSets.trans h.numTrainingSets, h'.enableWeightRollback.trans h.enableWeightRollback, h'.trainingSets.trans h.trainingSets, h'.learningFactorScaler.trans h.learningFactorScaler, h'.minLearningFactor.trans h.minLearningFactor, h'.maxLearningFactor.trans h.maxLearningFactor, h'.dumpEveryIterations.trans h.dumpEveryIterations⟩

theorem SameConfig.update (s : Network α) (w : Nat → α) (lf err : α) :
    SameConfig s { s with weights := w, learningFactor := lf, error := err } := by
  constructor <;> rfl

theorem SameConfig.withArrays (s : Network α) (N E T P Wt : Nat → α) :
    SameConfig s (s.withArrays N E T P Wt) := by
  constructor <;> rfl

theorem trainForAllTrainingSets.restore_sameConfig (o : Option (Nat → α)) (q : Network α) :
    SameConfig q (trainForAllTrainingSets.restore o q) := by
  cases o with
  | none => exact SameConfig.refl q
  | some old => exact SameConfig.update q _ q.learningFactor q.error

end Structural

/-! ## Theorems -/

section Theorems

variable {α : Type} [LinearOrderedField α]

/-! ## The forward pass -/

theorem forDown_succ {σ : Type} (n : Nat) (body : Nat → σ → σ) (s : σ) :
    forDown (n + 1) body s = forDown n body (body n s) := rfl

theorem forDown_zero {σ : Type} (body : Nat → σ → σ) (s : σ) : forDown 0 body s = s := rfl

theorem runNetwork.sourceLoop_eq (m j n : Nat) (s : Network α) :
    forUp n (runNetwork.sourceStep m j) s =
      s.withForward
        (Function.update s.thetas ((m + 1) * s.maxNodesInALayer + j)
          (s.thetas ((m + 1) * s.maxNodesInALayer + j) +
            ∑ k in Finset.range n,
              s.activationFunction
                (s.weights
                    (m * s.maxNodesInALayer * s.maxNodesInALayer + k * s.maxNodesInALayer + j) *
                  s.nodes (m * s.maxNodesInALayer + k))))
        s.nodes := by
  induction n with
  | zero => simp [forUp_zero, Network.withForward]
  | succ n ih =>
    rw [forUp_succ, ih]
    simp [runNetwork.sourceStep, Network.withForward, Finset.sum_range_succ, add_assoc]

theorem runNetwork.destStep_eq (m j : Nat) (s : Network α) :
    runNetwork.destStep m j s =
      s.withForward
        (Function.update s.thetas ((m + 1) * s.maxNodesInALayer + j) (layerTheta s s.nodes m j))
        (Function.update s.nodes ((m + 1) * s.maxNodesInALayer + j)
          (s.outputFunction (layerTheta s s.nodes m j))) := by
  unfold runNetwork.destStep
  simp only [runNetwork.sourceLoop_eq]
  simp [Network.withForward, layerTheta]

/-- Slot `j` of layer `m` lies below the first slot of every later layer. -/
theorem slot_lt (W m M j : Nat) (hm : m < M) (hj : j < W) : m * W + j < M * W := by
  have h1 : (m + 1) * W ≤ M * W := Nat.mul_le_mul_right W hm
  have h2 : (m + 1) * W = m * W + W := Nat.succ_mul m W
  omega

@[simp] theorem layerTheta_withForward (s : Network α) (T N X : Nat → α) (m j : Nat) :
    layerTheta (s.withForward T N) X m j = layerTheta s X m j := rfl

theorem layerTheta_congr (s : Network α) (N N' : Nat → α) (m j : Nat)
    (h : ∀ k, k < s.layerDimensions m →
      N (m * s.maxNodesInALayer + k) = N' (m * s.maxNodesInALayer + k)) :
    layerTheta s N m j = layerTheta s N' m j := by
  unfold layerTheta
  refine Finset.sum_congr rfl fun k hk => ?_
  rw [h k (Finset.mem_range.mp hk)]

theorem runNetwork.destLoop_eq (m n : Nat) (s : Network α)
    (hdim : s.layerDimensions m ≤ s.maxNodesInALayer) :
    forUp n (runNetwork.destStep m) s =
      s.withForward
        (fun x =>
          if (m + 1) * s.maxNodesInALayer ≤ x ∧ x < (m + 1) * s.maxNodesInALayer + n then
            layerTheta s s.nodes m (x - (m + 1) * s.maxNodesInALayer)
          else s.thetas x)
        (fun x =>
          if (m + 1) * s.maxNodesInALayer ≤ x ∧ x < (m + 1) * s.maxNodesInALayer + n then
            s.outputFunction (layerTheta s s.nodes m (x - (m + 1) * s.maxNodesInALayer))
          else s.nodes x) := by
  induction n with
  | zero =>
    have h : ∀ x, ¬ ((m + 1) * s.maxNodesInALayer ≤ x ∧ x < (m + 1) * s.maxNodesInALayer + 0) := by
      intro x; omega
    simp only [forUp_zero, h, if_false]
    rfl
  | succ n ih =>
    rw [forUp_succ, ih, runNetwork.destStep_eq]
    have hsucc : (m + 1) * s.maxNodesInALayer = m * s.maxNodesInALayer + s.maxNodesInALayer :=
      Nat.succ_mul m _
    have hth : layerTheta (s.withForward
          (fun x =>
            if (m + 1) * s.maxNodesInALayer ≤ x ∧ x < (m + 1) * s.maxNodesInALayer + n then
              layerTheta s s.nodes m (x - (m + 1) * s.maxNodesInALayer)
            else s.thetas x)
          (fun x =>
            if (m + 1) * s.maxNodesInALayer ≤ x ∧ x < (m + 1) * s.maxNodesInALayer + n then
              s.outputFunction (layerTheta s s.nodes m (x - (m + 1) * s.maxNodesInALayer))
            else s.nodes x))
          (fun x =>
            if (m + 1) * s.maxNodesInALayer ≤ x ∧ x < (m + 1) * s.maxNodesInALayer + n then
              s.outputFunction (layerTheta s s.nodes m (x - (m + 1) * s.maxNodesInALayer))
            else s.nodes x) m n = layerTheta s s.nodes m n := by
      refine layerTheta_congr _ _ _ m n fun k hk => ?_
      have hk' : k < s.layerDimensions m := hk
      have : ¬ ((m + 1) * s.maxNodesInALayer ≤ m * s.maxNodesInALayer + k ∧
          m * s.maxNodesInALayer + k < (m + 1) * s.maxNodesInALayer + n) := by omega
      simp only [Network.withForward]
      rw [if_neg this]
    simp only [Network.withForward] at hth ⊢
    rw [hth]
    congr 1
    · funext x
      by_cases hx : x = (m + 1) * s.maxNodesInALayer + n
      · subst hx; simp
      · rw [Function.update_noteq hx]
        by_cases h1 : (m + 1) * s.maxNodesInALayer ≤ x ∧ x < (m + 1) * s.maxNodesInALayer + n
        · rw [if_pos h1, if_pos (by omega)]
        · rw [if_neg h1, if_neg (by omega)]
    · funext x
      by_cases hx : x = (m + 1) * s.maxNodesInALayer + n
      · subst hx; simp
      · rw [Function.update_noteq hx]
        by_cases h1 : (m + 1) * s.maxNodesInALayer ≤ x ∧ x < (m + 1) * s.maxNodesInALayer + n
        · rw [if_pos h1, if_pos (by omega)]
        · rw [if_neg h1, if_neg (by omega)]

theorem runNetwork.layerLoop_inv (s : Network α)
    (hW : ∀ m, m < s.numLayers → s.layerDimensions m ≤ s.maxNodesInALayer)
    (M : Nat) (hM : M ≤ s.numLayers - 1) :
    ForwardInv s (forUp M runNetwork.layerStep s) M := by
  induction M with
  | zero =>
    exact ⟨⟨s.thetas, s.nodes, rfl⟩, fun _ _ => rfl, fun _ _ h => absurd h (Nat.not_lt_zero _),
      fun _ _ h => absurd h (Nat.not_lt_zero _)⟩
  | succ M ih =>
    have ih := ih (by omega)
    obtain ⟨⟨T, N, hs'⟩, hin, hth, hnd⟩ := ih
    rw [forUp_succ]
    rw [hs'] at hin hth hnd ⊢
    have hdimM : s.layerDimensions M ≤ s.maxNodesInALayer := hW M (by omega)
    simp only [runNetwork.layerStep]
    rw [runNetwork.destLoop_eq M _ (s.withForward T N) hdimM]
    simp only [Network.withForward_withForward, Network.withForward_nodes,
      Network.withForward_thetas, Network.withForward_layerDimensions,
      Network.withForward_maxNodesInALayer, Network.withForward_outputFunction,
      layerTheta_withForward] at hin hth hnd ⊢
    -- slots of layers up to `M` are not written by step `M`
    have low : ∀ m k, m ≤ M → k < s.maxNodesInALayer →
        ¬ ((M + 1) * s.maxNodesInALayer ≤ m * s.maxNodesInALayer + k ∧
          m * s.maxNodesInALayer + k <
            (M + 1) * s.maxNodesInALayer + s.layerDimensions (M + 1)) := by
      intro m k hm hk
      have := slot_lt s.maxNodesInALayer m (M + 1) k (by omega) hk
      omega
    have hsrc : ∀ m j, m ≤ M →
        layerTheta s (fun x =>
          if (M + 1) * s.maxNodesInALayer ≤ x ∧
              x < (M + 1) * s.maxNodesInALayer + s.layerDimensions (M + 1) then
            s.outputFunction (layerTheta s N M (x - (M + 1) * s.maxNodesInALayer))
          else N x) m j = layerTheta s N m j := by
      intro m j hm
      refine layerTheta_congr s _ _ m j fun k hk => ?_
      have hk' : k < s.maxNodesInALayer := lt_of_lt_of_le hk (hW m (by omega))
      exact if_neg (low m k hm hk')
    refine ⟨⟨_, _, rfl⟩, ?_, ?_, ?_⟩
    · intro x hx
      have := low 0 x (Nat.zero_le _) hx
      simp only [Nat.zero_mul, Nat.zero_add] at this
      rw [Network.withForward_nodes, if_neg this]
      exact hin x hx
    · intro m j hm hj
      rw [Network.withForward_nodes, Network.withForward_thetas, hsrc m j (by omega)]
      rcases Nat.lt_succ_iff_lt_or_eq.mp hm with hlt | heq
      · have hj' : j < s.maxNodesInALayer := lt_of_lt_of_le hj (hW (m + 1) (by omega))
        rw [if_neg (low (m + 1) j (by omega) hj')]
        exact hth m j hlt hj
      · subst heq
        rw [if_pos (by omega), Nat.add_sub_cancel_left]
    · intro m j hm hj
      rw [Network.withForward_nodes, Network.withForward_thetas]
      rcases Nat.lt_succ_iff_lt_or_eq.mp hm with hlt | heq
      · have hj' : j < s.maxNodesInALayer := lt_of_lt_of_le hj (hW (m + 1) (by omega))
        rw [if_neg (low (m + 1) j (by omega) hj'), if_neg (low (m + 1) j (by omega) hj')]
        exact hnd m j hlt hj
      · subst heq
        rw [if_pos (by omega), if_pos (by omega)]

theorem runNetwork_inv (s : Network α)
    (hW : ∀ m, m < s.numLayers → s.layerDimensions m ≤ s.maxNodesInALayer) :
    ForwardInv s (runNetwork s) (s.numLayers - 1) :=
  runNetwork.layerLoop_inv s hW _ (Nat.le_refl _)

/-! ## The backward pass of one record -/

theorem row_inj (W j j' i i' : Nat) (hi : i < W) (hi' : i' < W)
    (h : W * j + i = W * j' + i') : j = j' ∧ i = i' := by
  rcases Nat.lt_trichotomy j j' with hlt | heq | hgt
  · have := row_lt W j j' i hlt hi
    omega
  · subst heq
    exact ⟨rfl, by omega⟩
  · have := row_lt W j' j i' hgt hi'
    omega

theorem update_sub_eq (w : Nat → α) (a : Nat) (c : α) :
    Function.update w a (w a - c) = fun x => w x - if a = x then c else 0 := by
  funext x
  by_cases h : a = x
  · subst h; simp
  · rw [Function.update_noteq (Ne.symm h), if_neg h, sub_zero]

@[simp] theorem interiorDelta_withBackward (s : Network α) (Wt : Nat → α) (m k j : Nat) :
    interiorDelta (s.withBackward s.psis Wt) m k j = interiorDelta s m k j := rfl

theorem trainForAllTrainingSets.interiorSourceStep_eq (m j k : Nat) (s : Network α) :
    trainForAllTrainingSets.interiorSourceStep m j k s =
      s.withBackward s.psis (fun x => s.weights x -
        if s.maxWeightsInALayer * m + s.maxNodesInALayer * k + j = x then interiorDelta s m k j
        else 0) := by
  unfold trainForAllTrainingSets.interiorSourceStep
  simp only []
  rw [update_sub_eq]
  rfl

theorem trainForAllTrainingSets.interiorSourceLoop_eq (m j n : Nat) (s : Network α) :
    forDown n (trainForAllTrainingSets.interiorSourceStep m j) s =
      s.withBackward s.psis (fun x => s.weights x -
        ∑ k in Finset.range n,
          if s.maxWeightsInALayer * m + s.maxNodesInALayer * k + j = x then interiorDelta s m k j
          else 0) := by
  induction n generalizing s with
  | zero => simp [forDown_zero]
  | succ n ih =>
    rw [forDown_succ, ih, trainForAllTrainingSets.interiorSourceStep_eq]
    simp only [Network.withBackward_withBackward, Network.withBackward_psis,
      Network.withBackward_weights, Network.withBackward_maxWeightsInALayer,
      Network.withBackward_maxNodesInALayer, interiorDelta_withBackward]
    congr 1
    funext x
    rw [Finset.sum_range_succ]
    ring

theorem trainForAllTrainingSets.interiorDestLoop_eq (m n : Nat) (s : Network α) :
    forDown n (trainForAllTrainingSets.interiorDestStep m) s =
      s.withBackward s.psis (fun x => s.weights x -
        ∑ j in Finset.range n, ∑ k in Finset.range (s.layerDimensions m),
          if s.maxWeightsInALayer * m + s.maxNodesInALayer * k + j = x then interiorDelta s m k j
          else 0) := by
  induction n generalizing s with
  | zero => simp [forDown_zero]
  | succ n ih =>
    rw [forDown_succ, ih]
    unfold trainForAllTrainingSets.interiorDestStep
    rw [trainForAllTrainingSets.interiorSourceLoop_eq]
    simp only [Network.withBackward_withBackward, Network.withBackward_psis,
      Network.withBackward_weights, Network.withBackward_maxWeightsInALayer,
      Network.withBackward_maxNodesInALayer, Network.withBackward_layerDimensions,
      interiorDelta_withBackward]
    congr 1
    funext x
    rw [Finset.sum_range_succ]
    ring

theorem trainForAllTrainingSets.interiorLayerLoop_eq (n : Nat) (s : Network α) :
    forDown n trainForAllTrainingSets.interiorLayerStep s =
      s.withBackward s.psis (fun x => s.weights x -
        ∑ m in Finset.range n, ∑ j in Finset.range (s.layerDimensions (m + 1)),
          ∑ k in Finset.range (s.layerDimensions m),
            if s.maxWeightsInALayer * m + s.maxNodesInALayer * k + j = x then
              interiorDelta s m k j
            else 0) := by
  induction n generalizing s with
  | zero => simp [forDown_zero]
  | succ n ih =>
    rw [forDown_succ, ih]
    unfold trainForAllTrainingSets.interiorLayerStep
    rw [trainForAllTrainingSets.interiorDestLoop_eq]
    simp only [Network.withBackward_withBackward, Network.withBackward_psis,
      Network.withBackward_weights, Network.withBackward_maxWeightsInALayer,
      Network.withBackward_maxNodesInALayer, Network.withBackward_layerDimensions,
      interiorDelta_withBackward]
    congr 1
    funext x
    rw [Finset.sum_range_succ]
    ring

@[simp] theorem psiOut_withBackward (s : Network α) (P Wt : Nat → α) (i : Nat) :
    psiOut (s.withBackward P Wt) i = psiOut s i := rfl

@[simp] theorem outputDelta_withBackward (s : Network α) (P Wt : Nat → α) (j i : Nat) :
    outputDelta (s.withBackward P Wt) j i = outputDelta s j i := rfl

theorem outputBase_eq (W L : Nat) (hL : 2 ≤ L) : W * (L - 1) = W * (L - 2) + W := by
  obtain ⟨l, rfl⟩ : ∃ l, L = l + 2 := ⟨L - 2, by omega⟩
  simp only [Nat.add_sub_cancel, show l + 2 - 1 = l + 1 by omega, Nat.mul_succ]

theorem trainForAllTrainingSets.outputStep_eq (j i : Nat) (s : Network α) :
    trainForAllTrainingSets.outputStep j i s =
      s.withBackward
        (Function.update
          (Function.update s.psis (s.maxNodesInALayer * (s.numLayers - 1) + i) (psiOut s i))
          (s.maxNodesInALayer * (s.numLayers - 2) + j)
          (Function.update s.psis (s.maxNodesInALayer * (s.numLayers - 1) + i) (psiOut s i)
              (s.maxNodesInALayer * (s.numLayers - 2) + j) +
            psiOut s i *
              s.weights (s.maxWeightsInALayer * (s.numLayers - 2) + s.maxNodesInALayer * j + i)))
        (fun x => s.weights x -
          if s.maxWeightsInALayer * (s.numLayers - 2) + s.maxNodesInALayer * j + i = x then
            outputDelta s j i
          else 0) := by
  unfold trainForAllTrainingSets.outputStep
  simp only []
  rw [update_sub_eq]
  rfl

theorem trainForAllTrainingSets.outputLoop_eq (j n : Nat) (s : Network α)
    (hL : 2 ≤ s.numLayers) (hj : j < s.maxNodesInALayer) :
    forDown n (trainForAllTrainingSets.outputStep j) s =
      s.withBackward
        (fun x =>
          if x = s.maxNodesInALayer * (s.numLayers - 2) + j then
            s.psis x + ∑ i in Finset.range n, psiOut s i *
              s.weights (s.maxWeightsInALayer * (s.numLayers - 2) + s.maxNodesInALayer * j + i)
          else if s.maxNodesInALayer * (s.numLayers - 1) ≤ x ∧
              x < s.maxNodesInALayer * (s.numLayers - 1) + n then
            psiOut s (x - s.maxNodesInALayer * (s.numLayers - 1))
          else s.psis x)
        (fun x => s.weights x -
          ∑ i in Finset.range n,
            if s.maxWeightsInALayer * (s.numLayers - 2) + s.maxNodesInALayer * j + i = x then
              outputDelta s j i
            else 0) := by
  induction n generalizing s with
  | zero =>
    rw [forDown_zero]
    conv_lhs => rw [← Network.withBackward_self s]
    congr 1
    · funext x
      rw [Finset.range_zero, Finset.sum_empty, add_zero]
      split_ifs with h1 h2
      · rfl
      · omega
      · rfl
    · funext x
      rw [Finset.range_zero, Finset.sum_empty, sub_zero]
  | succ n ih =>
    have hob := outputBase_eq s.maxNodesInALayer s.numLayers hL
    rw [forDown_succ, trainForAllTrainingSets.outputStep_eq, ih]
    rotate_left
    · exact hL
    · exact hj
    simp only [Network.withBackward_withBackward, Network.withBackward_psis,
      Network.withBackward_weights, Network.withBackward_maxWeightsInALayer,
      Network.withBackward_maxNodesInALayer, Network.withBackward_numLayers,
      psiOut_withBackward, outputDelta_withBackward]
    congr 1
    · funext x
      by_cases hx : x = s.maxNodesInALayer * (s.numLayers - 2) + j
      · have hne : s.maxNodesInALayer * (s.numLayers - 2) + j ≠
            s.maxNodesInALayer * (s.numLayers - 1) + n := by omega
        rw [if_pos hx, if_pos hx, hx, Function.update_same, Function.update_noteq hne,
          Finset.sum_range_succ]
        have hsum : ∀ i ∈ Finset.range n,
            psiOut s i * (s.weights
                (s.maxWeightsInALayer * (s.numLayers - 2) + s.maxNodesInALayer * j + i) -
              if s.maxWeightsInALayer * (s.numLayers - 2) + s.maxNodesInALayer * j + n =
                  s.maxWeightsInALayer * (s.numLayers - 2) + s.maxNodesInALayer * j + i then
                outputDelta s j n
              else 0) =
            psiOut s i *
              s.weights (s.maxWeightsInALayer * (s.numLayers - 2) + s.maxNodesInALayer * j + i) := by
          intro i hi
          have : i < n := Finset.mem_range.mp hi
          rw [if_neg (by omega), sub_zero]
        rw [Finset.sum_congr rfl hsum]
        ring
      · rw [if_neg hx, if_neg hx, Function.update_noteq hx]
        by_cases hn : x = s.maxNodesInALayer * (s.numLayers - 1) + n
        · rw [if_neg (by omega), if_pos (by omega), hn, Function.update_same,
            Nat.add_sub_cancel_left]
        · rw [Function.update_noteq hn]
          by_cases hr : s.maxNodesInALayer * (s.numLayers - 1) ≤ x ∧
              x < s.maxNodesInALayer * (s.numLayers - 1) + n
          · rw [if_pos hr, if_pos (by omega)]
          · rw [if_neg hr, if_neg (by omega)]
    · funext x
      rw [Finset.sum_range_succ]
      ring

theorem hiddenPsi_withBackward_congr (s : Network α) (P Wt : Nat → α) (j : Nat)
    (hP : P (s.maxNodesInALayer * (s.numLayers - 2) + j) =
      s.psis (s.maxNodesInALayer * (s.numLayers - 2) + j))
    (hWt : ∀ i, i < s.layerDimensions (s.numLayers - 1) →
      Wt (s.maxWeightsInALayer * (s.numLayers - 2) + s.maxNodesInALayer * j + i) =
        s.weights (s.maxWeightsInALayer * (s.numLayers - 2) + s.maxNodesInALayer * j + i)) :
    hiddenPsi (s.withBackward P Wt) j = hiddenPsi s j := by
  unfold hiddenPsi
  simp only [Network.withBackward_psis, Network.withBackward_weights,
    Network.withBackward_maxWeightsInALayer, Network.withBackward_maxNodesInALayer,
    Network.withBackward_numLayers, Network.withBackward_layerDimensions,
    Network.withBackward_outputDerivFunction, Network.withBackward_thetas, psiOut_withBackward]
  rw [hP]
  congr 2
  refine Finset.sum_congr rfl fun i hi => ?_
  rw [hWt i (Finset.mem_range.mp hi)]

theorem trainForAllTrainingSets.hiddenStep_eq (j : Nat) (s : Network α)
    (hL : 2 ≤ s.numLayers) (hj : j < s.maxNodesInALayer) :
    trainForAllTrainingSets.hiddenStep j s =
      s.withBackward
        (fun x =>
          if x = s.maxNodesInALayer * (s.numLayers - 2) + j then hiddenPsi s j
          else if s.maxNodesInALayer * (s.numLayers - 1) ≤ x ∧
              x < s.maxNodesInALayer * (s.numLayers - 1) + s.layerDimensions (s.numLayers - 1) then
            psiOut s (x - s.maxNodesInALayer * (s.numLayers - 1))
          else s.psis x)
        (fun x => s.weights x -
          ∑ i in Finset.range (s.layerDimensions (s.numLayers - 1)),
            if s.maxWeightsInALayer * (s.numLayers - 2) + s.maxNodesInALayer * j + i = x then
              outputDelta s j i
            else 0) := by
  unfold trainForAllTrainingSets.hiddenStep
  simp only []
  rw [trainForAllTrainingSets.outputLoop_eq j _ s hL hj]
  simp only [Network.withBackward_psis, Network.withBackward_thetas,
    Network.withBackward_maxNodesInALayer, Network.withBackward_numLayers,
    Network.withBackward_outputDerivFunction, if_true]
  change (s.withBackward _ _).withBackward _ _ = _
  rw [Network.withBackward_withBackward]
  congr 1
  funext x
  by_cases hx : x = s.maxNodesInALayer * (s.numLayers - 2) + j
  · rw [hx, Function.update_same, if_pos rfl]
    rfl
  · rw [Function.update_noteq hx, if_neg hx, if_neg hx]

theorem trainForAllTrainingSets.hiddenLoop_eq (n : Nat) (s : Network α)
    (hL : 2 ≤ s.numLayers) (hn : n ≤ s.maxNodesInALayer)
    (hout : s.layerDimensions (s.numLayers - 1) ≤ s.maxNodesInALayer) :
    forDown n trainForAllTrainingSets.hiddenStep s =
      s.withBackward
        (fun x =>
          if s.maxNodesInALayer * (s.numLayers - 2) ≤ x ∧
              x < s.maxNodesInALayer * (s.numLayers - 2) + n then
            hiddenPsi s (x - s.maxNodesInALayer * (s.numLayers - 2))
          else if 0 < n ∧ s.maxNodesInALayer * (s.numLayers - 1) ≤ x ∧
              x < s.maxNodesInALayer * (s.numLayers - 1) + s.layerDimensions (s.numLayers - 1) then
            psiOut s (x - s.maxNodesInALayer * (s.numLayers - 1))
          else s.psis x)
        (fun x => s.weights x -
          ∑ j in Finset.range n, ∑ i in Finset.range (s.layerDimensions (s.numLayers - 1)),
            if s.maxWeightsInALayer * (s.numLayers - 2) + s.maxNodesInALayer * j + i = x then
              outputDelta s j i
            else 0) := by
  induction n generalizing s with
  | zero =>
    rw [forDown_zero]
    conv_lhs => rw [← Network.withBackward_self s]
    congr 1
    · funext x
      split_ifs with h1 h2
      · omega
      · omega
      · rfl
    · funext x
      rw [Finset.range_zero, Finset.sum_empty, sub_zero]
  | succ n ih =>
    have hob := outputBase_eq s.maxNodesInALayer s.numLayers hL
    rw [forDown_succ, trainForAllTrainingSets.hiddenStep_eq n s hL (by omega), ih]
    rotate_left
    · exact hL
    · exact Nat.le_of_succ_le hn
    · exact hout
    simp only [Network.withBackward_withBackward, Network.withBackward_psis,
      Network.withBackward_weights, Network.withBackward_maxWeightsInALayer,
      Network.withBackward_maxNodesInALayer, Network.withBackward_numLayers,
      Network.withBackward_layerDimensions, psiOut_withBackward, outputDelta_withBackward]
    -- a row below `n` is not touched by step `n`
    have hrow : ∀ j, j < n →
        hiddenPsi (s.withBackward
          (fun x =>
            if x = s.maxNodesInALayer * (s.numLayers - 2) + n then hiddenPsi s n
            else if s.maxNodesInALayer * (s.numLayers - 1) ≤ x ∧
                x < s.maxNodesInALayer * (s.numLayers - 1) +
                  s.layerDimensions (s.numLayers - 1) then
              psiOut s (x - s.maxNodesInALayer * (s.numLayers - 1))
            else s.psis x)
          (fun x => s.weights x -
            ∑ i in Finset.range (s.layerDimensions (s.numLayers - 1)),
              if s.maxWeightsInALayer * (s.numLayers - 2) + s.maxNodesInALayer * n + i = x then
                outputDelta s n i
              else 0)) j = hiddenPsi s j := by
      intro j hj
      refine hiddenPsi_withBackward_congr s _ _ j ?_ ?_
      · rw [if_neg (by omega), if_neg (by omega)]
      · intro i hi
        have hlt := row_lt s.maxNodesInALayer j n i hj (by omega)
        have hz : ∀ i' ∈ Finset.range (s.layerDimensions (s.numLayers - 1)),
            (if s.maxWeightsInALayer * (s.numLayers - 2) + s.maxNodesInALayer * n + i' =
                s.maxWeightsInALayer * (s.numLayers - 2) + s.maxNodesInALayer * j + i then
              outputDelta s n i'
            else 0) = 0 := by
          intro i' _
          rw [if_neg (by omega)]
        rw [Finset.sum_eq_zero hz, sub_zero]
    congr 1
    · funext x
      by_cases h1 : s.maxNodesInALayer * (s.numLayers - 2) ≤ x ∧ x < s.maxNodesInALayer * (s.numLayers - 2) + n
      · have h1' : s.maxNodesInALayer * (s.numLayers - 2) ≤ x ∧ x < s.maxNodesInALayer * (s.numLayers - 2) + (n + 1) := by omega
        rw [if_pos h1, if_pos h1', hrow _ (by omega)]
      · by_cases h2 : x = s.maxNodesInALayer * (s.numLayers - 2) + n
        · have c1 : ¬ (0 < n ∧ s.maxNodesInALayer * (s.numLayers - 1) ≤ x ∧
              x < s.maxNodesInALayer * (s.numLayers - 1) + s.layerDimensions (s.numLayers - 1)) := by omega
          have c2 : s.maxNodesInALayer * (s.numLayers - 2) ≤ x ∧ x < s.maxNodesInALayer * (s.numLayers - 2) + (n + 1) := by omega
          rw [if_neg h1, if_neg c1, if_pos h2, if_pos c2, h2, Nat.add_sub_cancel_left]
        · have c2 : ¬ (s.maxNodesInALayer * (s.numLayers - 2) ≤ x ∧ x < s.maxNodesInALayer * (s.numLayers - 2) + (n + 1)) := by omega
          rw [if_neg h1, if_neg h2, if_neg c2]
          by_cases h3 : s.maxNodesInALayer * (s.numLayers - 1) ≤ x ∧
              x < s.maxNodesInALayer * (s.numLayers - 1) + s.layerDimensions (s.numLayers - 1)
          · have c3 : 0 < n + 1 ∧ s.maxNodesInALayer * (s.numLayers - 1) ≤ x ∧
                x < s.maxNodesInALayer * (s.numLayers - 1) + s.layerDimensions (s.numLayers - 1) := ⟨Nat.succ_pos n, h3⟩
            rw [if_pos h3, if_pos c3, ite_self]
          · have c3 : ¬ (0 < n + 1 ∧ s.maxNodesInALayer * (s.numLayers - 1) ≤ x ∧
                x < s.maxNodesInALayer * (s.numLayers - 1) + s.layerDimensions (s.numLayers - 1)) := fun h => h3 h.2
            have c4 : ¬ (0 < n ∧ s.maxNodesInALayer * (s.numLayers - 1) ≤ x ∧
                x < s.maxNodesInALayer * (s.numLayers - 1) + s.layerDimensions (s.numLayers - 1)) := fun h => h3 h.2
            rw [if_neg h3, if_neg c3, if_neg c4]
    · funext x
      rw [Finset.sum_range_succ]
      ring

/-- Closed form of the backward pass of one record. -/
theorem trainForAllTrainingSets.backward_eq (s : Network α) (hL : 2 ≤ s.numLayers)
    (hhid : s.layerDimensions (s.numLayers - 2) ≤ s.maxNodesInALayer)
    (hout : s.layerDimensions (s.numLayers - 1) ≤ s.maxNodesInALayer) :
    trainForAllTrainingSets.backward s =
      s.withBackward (outputPhasePsis s)
        (fun x => s.weights x -
          (∑ j in Finset.range (s.layerDimensions (s.numLayers - 2)),
            ∑ i in Finset.range (s.layerDimensions (s.numLayers - 1)),
              if s.maxWeightsInALayer * (s.numLayers - 2) + s.maxNodesInALayer * j + i = x then
                outputDelta s j i
              else 0) -
          ∑ m in Finset.range (s.numLayers - 2), ∑ j in Finset.range (s.layerDimensions (m + 1)),
            ∑ k in Finset.range (s.layerDimensions m),
              if s.maxWeightsInALayer * m + s.maxNodesInALayer * k + j = x then
                s.learningFactor * s.nodes (s.maxNodesInALayer * m + k) *
                  outputPhasePsis s (s.maxNodesInALayer * (m + 1) + j)
              else 0) := by
  unfold trainForAllTrainingSets.backward
  simp only []
  rw [trainForAllTrainingSets.hiddenLoop_eq _ s hL hhid hout,
    trainForAllTrainingSets.interiorLayerLoop_eq]
  rfl

theorem sum_ite_single (n a : Nat) (ha : a < n) (f : Nat → α) (c : Nat → Prop)
    [DecidablePred c] (hc : ∀ i, i < n → (c i ↔ i = a)) :
    (∑ i in Finset.range n, if c i then f i else 0) = f a := by
  rw [Finset.sum_eq_single a]
  · rw [if_pos ((hc a ha).mpr rfl)]
  · intro i hi hne
    rw [if_neg (fun h => hne ((hc i (Finset.mem_range.mp hi)).mp h))]
  · intro h
    exact absurd (Finset.mem_range.mpr ha) h

theorem sum_ite_none (n : Nat) (f : Nat → α) (c : Nat → Prop) [DecidablePred c]
    (hc : ∀ i, i < n → ¬ c i) :
    (∑ i in Finset.range n, if c i then f i else 0) = 0 :=
  Finset.sum_eq_zero fun i hi => if_neg (hc i (Finset.mem_range.mp hi))

theorem trainForAllTrainingSets.backward_weights_output (s : Network α) (hp : Planned s)
    (hL : 2 ≤ s.numLayers) (j i : Nat) (hj : j < s.layerDimensions (s.numLayers - 2))
    (hi : i < s.layerDimensions (s.numLayers - 1)) :
    (trainForAllTrainingSets.backward s).weights
        (s.maxWeightsInALayer * (s.numLayers - 2) + s.maxNodesInALayer * j + i) =
      s.weights (s.maxWeightsInALayer * (s.numLayers - 2) + s.maxNodesInALayer * j + i) -
        outputDelta s j i := by
  have hhid := hp.width (s.numLayers - 2) (by omega)
  have hout := hp.width (s.numLayers - 1) (by omega)
  rw [trainForAllTrainingSets.backward_eq s hL hhid hout, Network.withBackward_weights]
  have h1 : (∑ j' in Finset.range (s.layerDimensions (s.numLayers - 2)),
      ∑ i' in Finset.range (s.layerDimensions (s.numLayers - 1)),
        if s.maxWeightsInALayer * (s.numLayers - 2) + s.maxNodesInALayer * j' + i' =
            s.maxWeightsInALayer * (s.numLayers - 2) + s.maxNodesInALayer * j + i then
          outputDelta s j' i'
        else 0) = outputDelta s j i := by
    rw [Finset.sum_eq_single j]
    · exact sum_ite_single _ i hi _ _ fun i' _ => by omega
    · intro j' _ hne
      refine sum_ite_none _ _ _ fun i' hi' h => hne ?_
      exact (row_inj s.maxNodesInALayer j' j i' i (by omega) (by omega) (by omega)).1
    · intro h
      exact absurd (Finset.mem_range.mpr hj) h
  have h2 : (∑ m in Finset.range (s.numLayers - 2),
      ∑ j' in Finset.range (s.layerDimensions (m + 1)),
        ∑ k in Finset.range (s.layerDimensions m),
          if s.maxWeightsInALayer * m + s.maxNodesInALayer * k + j' =
              s.maxWeightsInALayer * (s.numLayers - 2) + s.maxNodesInALayer * j + i then
            s.learningFactor * s.nodes (s.maxNodesInALayer * m + k) *
              outputPhasePsis s (s.maxNodesInALayer * (m + 1) + j')
          else 0) = 0 := by
    refine Finset.sum_eq_zero fun m hm => Finset.sum_eq_zero fun j' hj' =>
      sum_ite_none _ _ _ fun k hk h => ?_
    have hm' : m < s.numLayers - 2 := Finset.mem_range.mp hm
    have hj'' : j' < s.maxNodesInALayer :=
      lt_of_lt_of_le (Finset.mem_range.mp hj') (hp.width (m + 1) (by omega))
    have hk' : k < s.maxNodesInALayer := lt_of_lt_of_le hk (hp.width m (by omega))
    have he := hp.entry_lt k j' hk' hj''
    have := row_lt s.maxWeightsInALayer m (s.numLayers - 2)
      (s.maxNodesInALayer * k + j') hm' he
    omega
  rw [h1, h2, sub_zero]

theorem trainForAllTrainingSets.backward_weights_interior (s : Network α) (hp : Planned s)
    (hL : 2 ≤ s.numLayers) (m k j : Nat) (hm : m < s.numLayers - 2)
    (hk : k < s.layerDimensions m) (hj : j < s.layerDimensions (m + 1)) :
    (trainForAllTrainingSets.backward s).weights
        (s.maxWeightsInALayer * m + s.maxNodesInALayer * k + j) =
      s.weights (s.maxWeightsInALayer * m + s.maxNodesInALayer * k + j) -
        s.learningFactor * s.nodes (s.maxNodesInALayer * m + k) *
          outputPhasePsis s (s.maxNodesInALayer * (m + 1) + j) := by
  have hhid := hp.width (s.numLayers - 2) (by omega)
  have hout := hp.width (s.numLayers - 1) (by omega)
  have hkW : k < s.maxNodesInALayer := lt_of_lt_of_le hk (hp.width m (by omega))
  have hjW : j < s.maxNodesInALayer := lt_of_lt_of_le hj (hp.width (m + 1) (by omega))
  have he := hp.entry_lt k j hkW hjW
  rw [trainForAllTrainingSets.backward_eq s hL hhid hout, Network.withBackward_weights]
  have h1 : (∑ j' in Finset.range (s.layerDimensions (s.numLayers - 2)),
      ∑ i' in Finset.range (s.layerDimensions (s.numLayers - 1)),
        if s.maxWeightsInALayer * (s.numLayers - 2) + s.maxNodesInALayer * j' + i' =
            s.maxWeightsInALayer * m + s.maxNodesInALayer * k + j then
          outputDelta s j' i'
        else 0) = 0 := by
    refine Finset.sum_eq_zero fun j' _ => sum_ite_none _ _ _ fun i' _ h => ?_
    have := row_lt s.maxWeightsInALayer m (s.numLayers - 2) (s.maxNodesInALayer * k + j) hm he
    omega
  have h2 : (∑ m' in Finset.range (s.numLayers - 2),
      ∑ j' in Finset.range (s.layerDimensions (m' + 1)),
        ∑ k' in Finset.range (s.layerDimensions m'),
          if s.maxWeightsInALayer * m' + s.maxNodesInALayer * k' + j' =
              s.maxWeightsInALayer * m + s.maxNodesInALayer * k + j then
            s.learningFactor * s.nodes (s.maxNodesInALayer * m' + k') *
              outputPhasePsis s (s.maxNodesInALayer * (m' + 1) + j')
          else 0) =
      s.learningFactor * s.nodes (s.maxNodesInALayer * m + k) *
        outputPhasePsis s (s.maxNodesInALayer * (m + 1) + j) := by
    rw [Finset.sum_eq_single m]
    · rw [Finset.sum_eq_single j]
      · exact sum_ite_single _ k hk _ _ fun k' hk' => by
          constructor
          · intro h
            exact (row_inj s.maxNodesInALayer k' k j j hjW hjW (by omega)).1
          · intro h
            rw [h]
      · intro j' hj' hne
        refine sum_ite_none _ _ _ fun k' hk' h => hne ?_
        have hj'' : j' < s.maxNodesInALayer :=
          lt_of_lt_of_le (Finset.mem_range.mp hj') (hp.width (m + 1) (by omega))
        exact (row_inj s.maxNodesInALayer k' k j' j hj'' hjW (by omega)).2
      · intro h
        exact absurd (Finset.mem_range.mpr hj) h
    · intro m' hm' hne
      refine Finset.sum_eq_zero fun j' hj' => sum_ite_none _ _ _ fun k' hk' h => hne ?_
      have hm'' : m' < s.numLayers - 2 := Finset.mem_range.mp hm'
      have hj'' : j' < s.maxNodesInALayer :=
        lt_of_lt_of_le (Finset.mem_range.mp hj') (hp.width (m' + 1) (by omega))
      have hk'' : k' < s.maxNodesInALayer := lt_of_lt_of_le hk' (hp.width m' (by omega))
      have he' := hp.entry_lt k' j' hk'' hj''
      exact (row_inj s.maxWeightsInALayer m' m (s.maxNodesInALayer * k' + j')
        (s.maxNodesInALayer * k + j) he' he (by omega)).1
    · intro h
      exact absurd (Finset.mem_range.mpr hm) h
  rw [h1, h2, sub_zero]

/-! ## One training record: load, forward pass, backward pass -/

/-- The forward pass writes `thetas` and `nodes` only. -/
theorem runNetwork_frame (s : Network α) : ∃ T N, runNetwork s = s.withForward T N := by
  unfold runNetwork
  refine forUp_inv (fun q : Network α => ∃ T N, q = s.withForward T N) _ _ _
    ⟨s.thetas, s.nodes, rfl⟩ ?_
  rintro m q ⟨T, N, rfl⟩
  unfold runNetwork.layerStep
  refine forUp_inv (fun q : Network α => ∃ T N, q = s.withForward T N) _ _ _
    ⟨T, N, rfl⟩ ?_
  rintro j q ⟨T', N', rfl⟩
  rw [runNetwork.destStep_eq]
  exact ⟨_, _, rfl⟩

theorem runNetwork_weights (s : Network α) : (runNetwork s).weights = s.weights := by
  obtain ⟨T, N, h⟩ := runNetwork_frame s
  rw [h, Network.withForward_weights]

theorem outputPhasePsis_output (s : Network α) (hL : 2 ≤ s.numLayers)
    (hhid : s.layerDimensions (s.numLayers - 2) ≤ s.maxNodesInALayer)
    (hpos : 0 < s.layerDimensions (s.numLayers - 2)) (i : Nat)
    (hi : i < s.layerDimensions (s.numLayers - 1)) :
    outputPhasePsis s (s.maxNodesInALayer * (s.numLayers - 1) + i) = psiOut s i := by
  have hob := outputBase_eq s.maxNodesInALayer s.numLayers hL
  unfold outputPhasePsis
  rw [if_neg (by omega), if_pos (by omega), Nat.add_sub_cancel_left]

theorem outputPhasePsis_hidden (s : Network α) (j : Nat)
    (hj : j < s.layerDimensions (s.numLayers - 2)) :
    outputPhasePsis s (s.maxNodesInALayer * (s.numLayers - 2) + j) = hiddenPsi s j := by
  unfold outputPhasePsis
  rw [if_pos (by omega), Nat.add_sub_cancel_left]

theorem outputPhasePsis_lower (s : Network α) (hL : 2 ≤ s.numLayers) (x : Nat)
    (hx : x < s.maxNodesInALayer * (s.numLayers - 2)) : outputPhasePsis s x = s.psis x := by
  have hob := outputBase_eq s.maxNodesInALayer s.numLayers hL
  unfold outputPhasePsis
  rw [if_neg (by omega), if_neg (by omega)]

theorem trainForAllTrainingSets.backward_psis (s : Network α) (hp : Planned s)
    (hL : 2 ≤ s.numLayers) :
    (trainForAllTrainingSets.backward s).psis = outputPhasePsis s := by
  rw [trainForAllTrainingSets.backward_eq s hL (hp.width _ (by omega)) (hp.width _ (by omega)),
    Network.withBackward_psis]

theorem trainForAllTrainingSets.recordStep_net (t : Nat) (p : Sweep α) :
    (trainForAllTrainingSets.recordStep t p).net =
      trainForAllTrainingSets.backward (trainForAllTrainingSets.forward p) := rfl

theorem trainForAllTrainingSets.forward_frame (p : Sweep α) :
    ∃ E T N, trainForAllTrainingSets.forward p = (p.net.withRecord N E).withForward T N := by
  obtain ⟨N, E, hq, _⟩ := loadRecord_frame p
  obtain ⟨T, N', hf⟩ := runNetwork_frame (loadRecord p).net
  refine ⟨E, T, N', ?_⟩
  unfold trainForAllTrainingSets.forward
  rw [hf, hq]
  rfl

/-! ## One sweep and the learning-rate controller -/

theorem forDown_inv {σ : Type} (P : σ → Prop) (n : Nat) (body : Nat → σ → σ) (s : σ)
    (h0 : P s) (hstep : ∀ i s, P s → P (body i s)) : P (forDown n body s) := by
  induction n generalizing s with
  | zero => exact h0
  | succ n ih => exact ih _ (hstep n s h0)

/-- The backward pass writes `psis` and `weights` only. -/
theorem trainForAllTrainingSets.backward_frame (s : Network α) :
    ∃ P Wt, trainForAllTrainingSets.backward s = s.withBackward P Wt := by
  unfold trainForAllTrainingSets.backward
  simp only []
  rw [trainForAllTrainingSets.interiorLayerLoop_eq]
  have h1 : ∃ P Wt, forDown (s.layerDimensions (s.numLayers - 2))
      trainForAllTrainingSets.hiddenStep s = s.withBackward P Wt := by
    refine forDown_inv (fun q : Network α => ∃ P Wt, q = s.withBackward P Wt) _ _ _
      ⟨s.psis, s.weights, rfl⟩ ?_
    rintro j q ⟨P, Wt, rfl⟩
    unfold trainForAllTrainingSets.hiddenStep
    have h2 : ∃ P' Wt', forDown ((s.withBackward P Wt).layerDimensions
        ((s.withBackward P Wt).numLayers - 1)) (trainForAllTrainingSets.outputStep j)
        (s.withBackward P Wt) = s.withBackward P' Wt' := by
      refine forDown_inv (fun q : Network α => ∃ P' Wt', q = s.withBackward P' Wt') _ _ _
        ⟨P, Wt, rfl⟩ ?_
      rintro i q ⟨P', Wt', rfl⟩
      rw [trainForAllTrainingSets.outputStep_eq]
      exact ⟨_, _, rfl⟩
    obtain ⟨P', Wt', h2⟩ := h2
    simp only [h2]
    exact ⟨_, _, rfl⟩
  obtain ⟨P, Wt, h1⟩ := h1
  rw [h1]
  exact ⟨_, _, rfl⟩

/-- One record's pass writes the five numeric blocks only. -/
theorem trainForAllTrainingSets.recordStep_frame (t : Nat) (p : Sweep α) :
    ∃ N E T P Wt, (trainForAllTrainingSets.recordStep t p).net = p.net.withArrays N E T P Wt := by
  obtain ⟨E, T, N, hf⟩ := trainForAllTrainingSets.forward_frame p
  obtain ⟨P, Wt, hb⟩ := trainForAllTrainingSets.backward_frame
    (trainForAllTrainingSets.forward p)
  rw [trainForAllTrainingSets.recordStep_net, hb, hf]
  exact ⟨N, E, T, P, Wt, rfl⟩

/-- The record loop of a sweep writes the five numeric blocks only. -/
theorem trainForAllTrainingSets.records_frame (s : Network α) :
    ∃ N E T P Wt, (trainForAllTrainingSets.records s).net = s.withArrays N E T P Wt := by
  unfold trainForAllTrainingSets.records
  refine forUp_inv (fun q : Sweep α => ∃ N E T P Wt, q.net = s.withArrays N E T P Wt) _ _ _
    ⟨_, _, _, _, _, (Network.withArrays_self s).symm⟩ ?_
  rintro t q ⟨N, E, T, P, Wt, hq⟩
  obtain ⟨N', E', T', P', Wt', h⟩ := trainForAllTrainingSets.recordStep_frame t q
  rw [h, hq]
  exact ⟨N', E', T', P', Wt', rfl⟩

theorem trainForAllTrainingSets_eq (s : Network α) :
    trainForAllTrainingSets s =
      trainForAllTrainingSets.adapt (trainForAllTrainingSets.snapshot s)
        (trainForAllTrainingSets.newError s) (trainForAllTrainingSets.records s).net := rfl

theorem trainForAllTrainingSets.adjust_sameConfig (o : Option (Nat → α)) (e : α)
    (q : Network α) : SameConfig q (trainForAllTrainingSets.adjust o e q) := by
  unfold trainForAllTrainingSets.adjust
  split_ifs with h1 h2
  · simp only []
    split_ifs
    · exact (SameConfig.update q q.weights _ q.error).trans
        (trainForAllTrainingSets.restore_sameConfig o _)
    · exact SameConfig.update q q.weights _ q.error
  · exact SameConfig.update q q.weights _ _
  · exact SameConfig.refl q

theorem trainForAllTrainingSets.cap_sameConfig (q : Network α) :
    SameConfig q (trainForAllTrainingSets.cap q) := by
  unfold trainForAllTrainingSets.cap
  split_ifs
  · exact SameConfig.update q q.weights _ q.error
  · exact SameConfig.refl q

theorem trainForAllTrainingSets.adapt_sameConfig (o : Option (Nat → α)) (e : α)
    (q : Network α) : SameConfig q (trainForAllTrainingSets.adapt o e q) := by
  unfold trainForAllTrainingSets.adapt
  split_ifs
  · exact (trainForAllTrainingSets.adjust_sameConfig o e q).trans
      (trainForAllTrainingSets.cap_sameConfig _)
  · exact SameConfig.update q q.weights q.learningFactor _

/-- A sweep changes the five numeric blocks, `learningFactor` and `error`, nothing else. -/
theorem trainForAllTrainingSets_sameConfig (s : Network α) :
    SameConfig s (trainForAllTrainingSets s) := by
  obtain ⟨N, E, T, P, Wt, hq⟩ := trainForAllTrainingSets.records_frame s
  have h := trainForAllTrainingSets.adapt_sameConfig (trainForAllTrainingSets.snapshot s)
    (trainForAllTrainingSets.newError s) (trainForAllTrainingSets.records s).net
  rw [← trainForAllTrainingSets_eq s, hq] at h
  exact (SameConfig.withArrays s N E T P Wt).trans h

/-- The reject branch: adaptation on, the measured loss above the accepted loss, the learning
factor above its minimum. -/
theorem trainForAllTrainingSets.reject_spec (s : Network α) (hs : s.learningFactorScaler ≠ 1)
    (hloss : trainForAllTrainingSets.newError s > s.error)
    (hlf : s.learningFactor > s.minLearningFactor) :
    (trainForAllTrainingSets s).learningFactor =
        min (s.learningFactor / s.learningFactorScaler) s.maxLearningFactor ∧
      (trainForAllTrainingSets s).error = s.error ∧
      (s.enableWeightRollback = 'Y' →
        ∀ i, i < s.totalWeights → (trainForAllTrainingSets s).weights i = s.weights i) ∧
      (s.enableWeightRollback ≠ 'Y' →
        (trainForAllTrainingSets s).weights = (trainForAllTrainingSets.records s).net.weights) := by
  obtain ⟨N, E, T, P, Wt, hq⟩ := trainForAllTrainingSets.records_frame s
  rw [trainForAllTrainingSets_eq, hq]
  have hcond : trainForAllTrainingSets.newError s > s.error ∧
      s.learningFactor > s.minLearningFactor := ⟨hloss, hlf⟩
  by_cases hr : s.enableWeightRollback = 'Y'
  · have hsnap : s.enableWeightRollback = 'Y' ∧ s.learningFactorScaler ≠ 1 := ⟨hr, hs⟩
    by_cases hc : s.learningFactor / s.learningFactorScaler > s.maxLearningFactor
    · refine ⟨?_, ?_, fun _ i hi => ?_, fun h => absurd hr h⟩
      · simp only [trainForAllTrainingSets.adapt, trainForAllTrainingSets.adjust,
    trainForAllTrainingSets.cap, trainForAllTrainingSets.restore,
    trainForAllTrainingSets.snapshot, Network.withArrays_learningFactorScaler, Network.withArrays_error,
    Network.withArrays_learningFactor, Network.withArrays_minLearningFactor,
    Network.withArrays_enableWeightRollback, Network.withArrays_maxLearningFactor,
    Network.withArrays_totalWeights, Network.withArrays_weights,
          if_pos hs, if_pos hcond, if_pos hr, if_pos hsnap, if_pos hc]
        exact (min_eq_right (le_of_lt hc)).symm
      · simp only [trainForAllTrainingSets.adapt, trainForAllTrainingSets.adjust,
    trainForAllTrainingSets.cap, trainForAllTrainingSets.restore,
    trainForAllTrainingSets.snapshot, Network.withArrays_learningFactorScaler, Network.withArrays_error,
    Network.withArrays_learningFactor, Network.withArrays_minLearningFactor,
    Network.withArrays_enableWeightRollback, Network.withArrays_maxLearningFactor,
    Network.withArrays_totalWeights, Network.withArrays_weights,
          if_pos hs, if_pos hcond, if_pos hr, if_pos hsnap, if_pos hc]
      · simp only [trainForAllTrainingSets.adapt, trainForAllTrainingSets.adjust,
    trainForAllTrainingSets.cap, trainForAllTrainingSets.restore,
    trainForAllTrainingSets.snapshot, Network.withArrays_learningFactorScaler, Network.withArrays_error,
    Network.withArrays_learningFactor, Network.withArrays_minLearningFactor,
    Network.withArrays_enableWeightRollback, Network.withArrays_maxLearningFactor,
    Network.withArrays_totalWeights, Network.withArrays_weights,
          if_pos hs, if_pos hcond, if_pos hr, if_pos hsnap, if_pos hc]
        rw [copyLoop_apply, if_pos hi, copyLoop_apply, if_pos hi]
    · refine ⟨?_, ?_, fun _ i hi => ?_, fun h => absurd hr h⟩
      · simp only [trainForAllTrainingSets.adapt, trainForAllTrainingSets.adjust,
    trainForAllTrainingSets.cap, trainForAllTrainingSets.restore,
    trainForAllTrainingSets.snapshot, Network.withArrays_learningFactorScaler, Network.withArrays_error,
    Network.withArrays_learningFactor, Network.withArrays_minLearningFactor,
    Network.withArrays_enableWeightRollback, Network.withArrays_maxLearningFactor,
    Network.withArrays_totalWeights, Network.withArrays_weights,
          if_pos hs, if_pos hcond, if_pos hr, if_pos hsnap, if_neg hc]
        exact (min_eq_left (le_of_not_lt hc)).symm
      · simp only [trainForAllTrainingSets.adapt, trainForAllTrainingSets.adjust,
    trainForAllTrainingSets.cap, trainForAllTrainingSets.restore,
    trainForAllTrainingSets.snapshot, Network.withArrays_learningFactorScaler, Network.withArrays_error,
    Network.withArrays_learningFactor, Network.withArrays_minLearningFactor,
    Network.withArrays_enableWeightRollback, Network.withArrays_maxLearningFactor,
    Network.withArrays_totalWeights, Network.withArrays_weights,
          if_pos hs, if_pos hcond, if_pos hr, if_pos hsnap, if_neg hc]
      · simp only [trainForAllTrainingSets.adapt, trainForAllTrainingSets.adjust,
    trainForAllTrainingSets.cap, trainForAllTrainingSets.restore,
    trainForAllTrainingSets.snapshot, Network.withArrays_learningFactorScaler, Network.withArrays_error,
    Network.withArrays_learningFactor, Network.withArrays_minLearningFactor,
    Network.withArrays_enableWeightRollback, Network.withArrays_maxLearningFactor,
    Network.withArrays_totalWeights, Network.withArrays_weights,
          if_pos hs, if_pos hcond, if_pos hr, if_pos hsnap, if_neg hc]
        rw [copyLoop_apply, if_pos hi, copyLoop_apply, if_pos hi]
  · by_cases hc : s.learningFactor / s.learningFactorScaler > s.maxLearningFactor
    · refine ⟨?_, ?_, fun h => absurd h hr, fun _ => ?_⟩
      · simp only [trainForAllTrainingSets.adapt, trainForAllTrainingSets.adjust,
    trainForAllTrainingSets.cap, trainForAllTrainingSets.restore,
    trainForAllTrainingSets.snapshot, Network.withArrays_learningFactorScaler, Network.withArrays_error,
    Network.withArrays_learningFactor, Network.withArrays_minLearningFactor,
    Network.withArrays_enableWeightRollback, Network.withArrays_maxLearningFactor,
    Network.withArrays_totalWeights, Network.withArrays_weights,
          if_pos hs, if_pos hcond, if_neg hr, if_pos hc]
        exact (min_eq_right (le_of_lt hc)).symm
      · simp only [trainForAllTrainingSets.adapt, trainForAllTrainingSets.adjust,
    trainForAllTrainingSets.cap, trainForAllTrainingSets.restore,
    trainForAllTrainingSets.snapshot, Network.withArrays_learningFactorScaler, Network.withArrays_error,
    Network.withArrays_learningFactor, Network.withArrays_minLearningFactor,
    Network.withArrays_enableWeightRollback, Network.withArrays_maxLearningFactor,
    Network.withArrays_totalWeights, Network.withArrays_weights,
          if_pos hs, if_pos hcond, if_neg hr, if_pos hc]
      · simp only [trainForAllTrainingSets.adapt, trainForAllTrainingSets.adjust,
    trainForAllTrainingSets.cap, trainForAllTrainingSets.restore,
    trainForAllTrainingSets.snapshot, Network.withArrays_learningFactorScaler, Network.withArrays_error,
    Network.withArrays_learningFactor, Network.withArrays_minLearningFactor,
    Network.withArrays_enableWeightRollback, Network.withArrays_maxLearningFactor,
    Network.withArrays_totalWeights, Network.withArrays_weights,
          if_pos hs, if_pos hcond, if_neg hr, if_pos hc]
    · refine ⟨?_, ?_, fun h => absurd h hr, fun _ => ?_⟩
      · simp only [trainForAllTrainingSets.adapt, trainForAllTrainingSets.adjust,
    trainForAllTrainingSets.cap, trainForAllTrainingSets.restore,
    trainForAllTrainingSets.snapshot, Network.withArrays_learningFactorScaler, Network.withArrays_error,
    Network.withArrays_learningFactor, Network.withArrays_minLearningFactor,
    Network.withArrays_enableWeightRollback, Network.withArrays_maxLearningFactor,
    Network.withArrays_totalWeights, Network.withArrays_weights,
          if_pos hs, if_pos hcond, if_neg hr, if_neg hc]
        exact (min_eq_left (le_of_not_lt hc)).symm
      · simp only [trainForAllTrainingSets.adapt, trainForAllTrainingSets.adjust,
    trainForAllTrainingSets.cap, trainForAllTrainingSets.restore,
    trainForAllTrainingSets.snapshot, Network.withArrays_learningFactorScaler, Network.withArrays_error,
    Network.withArrays_learningFactor, Network.withArrays_minLearningFactor,
    Network.withArrays_enableWeightRollback, Network.withArrays_maxLearningFactor,
    Network.withArrays_totalWeights, Network.withArrays_weights,
          if_pos hs, if_pos hcond, if_neg hr, if_neg hc]
      · simp only [trainForAllTrainingSets.adapt, trainForAllTrainingSets.adjust,
    trainForAllTrainingSets.cap, trainForAllTrainingSets.restore,
    trainForAllTrainingSets.snapshot, Network.withArrays_learningFactorScaler, Network.withArrays_error,
    Network.withArrays_learningFactor, Network.withArrays_minLearningFactor,
    Network.withArrays_enableWeightRollback, Network.withArrays_maxLearningFactor,
    Network.withArrays_totalWeights, Network.withArrays_weights,
          if_pos hs, if_pos hcond, if_neg hr, if_neg hc]

/-- The accept branch: adaptation on, the measured loss below the accepted loss. -/
theorem trainForAllTrainingSets.accept_spec (s : Network α) (hs : s.learningFactorScaler ≠ 1)
    (hloss : trainForAllTrainingSets.newError s < s.error) :
    (trainForAllTrainingSets s).error = trainForAllTrainingSets.newError s ∧
      (trainForAllTrainingSets s).learningFactor =
        min (s.learningFactor * s.learningFactorScaler) s.maxLearningFactor ∧
      (trainForAllTrainingSets s).weights = (trainForAllTrainingSets.records s).net.weights := by
  obtain ⟨N, E, T, P, Wt, hq⟩ := trainForAllTrainingSets.records_frame s
  rw [trainForAllTrainingSets_eq, hq]
  have h1 : ¬ (trainForAllTrainingSets.newError s > s.error ∧
      s.learningFactor > s.minLearningFactor) := fun h => absurd hloss (not_lt_of_gt h.1)
  by_cases hc : s.learningFactor * s.learningFactorScaler > s.maxLearningFactor
  · refine ⟨?_, ?_, ?_⟩
    · simp only [trainForAllTrainingSets.adapt, trainForAllTrainingSets.adjust,
    trainForAllTrainingSets.cap, Network.withArrays_learningFactorScaler, Network.withArrays_error,
    Network.withArrays_learningFactor, Network.withArrays_minLearningFactor,
    Network.withArrays_enableWeightRollback, Network.withArrays_maxLearningFactor,
    Network.withArrays_totalWeights, Network.withArrays_weights,
        if_pos hs, if_neg h1, if_pos hloss, if_pos hc]
    · simp only [trainForAllTrainingSets.adapt, trainForAllTrainingSets.adjust,
    trainForAllTrainingSets.cap, Network.withArrays_learningFactorScaler, Network.withArrays_error,
    Network.withArrays_learningFactor, Network.withArrays_minLearningFactor,
    Network.withArrays_enableWeightRollback, Network.withArrays_maxLearningFactor,
    Network.withArrays_totalWeights, Network.withArrays_weights,
        if_pos hs, if_neg h1, if_pos hloss, if_pos hc]
      exact (min_eq_right (le_of_lt hc)).symm
    · simp only [trainForAllTrainingSets.adapt, trainForAllTrainingSets.adjust,
    trainForAllTrainingSets.cap, Network.withArrays_learningFactorScaler, Network.withArrays_error,
    Network.withArrays_learningFactor, Network.withArrays_minLearningFactor,
    Network.withArrays_enableWeightRollback, Network.withArrays_maxLearningFactor,
    Network.withArrays_totalWeights, Network.withArrays_weights,
        if_pos hs, if_neg h1, if_pos hloss, if_pos hc]
  · refine ⟨?_, ?_, ?_⟩
    · simp only [trainForAllTrainingSets.adapt, trainForAllTrainingSets.adjust,
    trainForAllTrainingSets.cap, Network.withArrays_learningFactorScaler, Network.withArrays_error,
    Network.withArrays_learningFactor, Network.withArrays_minLearningFactor,
    Network.withArrays_enableWeightRollback, Network.withArrays_maxLearningFactor,
    Network.withArrays_totalWeights, Network.withArrays_weights,
        if_pos hs, if_neg h1, if_pos hloss, if_neg hc]
    · simp only [trainForAllTrainingSets.adapt, trainForAllTrainingSets.adjust,
    trainForAllTrainingSets.cap, Network.withArrays_learningFactorScaler, Network.withArrays_error,
    Network.withArrays_learningFactor, Network.withArrays_minLearningFactor,
    Network.withArrays_enableWeightRollback, Network.withArrays_maxLearningFactor,
    Network.withArrays_totalWeights, Network.withArrays_weights,
        if_pos hs, if_neg h1, if_pos hloss, if_neg hc]
      exact (min_eq_left (le_of_not_lt hc)).symm
    · simp only [trainForAllTrainingSets.adapt, trainForAllTrainingSets.adjust,
    trainForAllTrainingSets.cap, Network.withArrays_learningFactorScaler, Network.withArrays_error,
    Network.withArrays_learningFactor, Network.withArrays_minLearningFactor,
    Network.withArrays_enableWeightRollback, Network.withArrays_maxLearningFactor,
    Network.withArrays_totalWeights, Network.withArrays_weights,
        if_pos hs, if_neg h1, if_pos hloss, if_neg hc]

/-- The hold branch: adaptation on, neither the reject nor the accept condition holds. -/
theorem trainForAllTrainingSets.hold_spec (s : Network α) (hs : s.learningFactorScaler ≠ 1)
    (h1 : ¬ (trainForAllTrainingSets.newError s > s.error ∧
      s.learningFactor > s.minLearningFactor))
    (h2 : ¬ trainForAllTrainingSets.newError s < s.error) :
    (trainForAllTrainingSets s).error = s.error ∧
      (trainForAllTrainingSets s).learningFactor = min s.learningFactor s.maxLearningFactor ∧
      (trainForAllTrainingSets s).weights = (trainForAllTrainingSets.records s).net.weights := by
  obtain ⟨N, E, T, P, Wt, hq⟩ := trainForAllTrainingSets.records_frame s
  rw [trainForAllTrainingSets_eq, hq]
  by_cases hc : s.learningFactor > s.maxLearningFactor
  · refine ⟨?_, ?_, ?_⟩
    · simp only [trainForAllTrainingSets.adapt, trainForAllTrainingSets.adjust,
    trainForAllTrainingSets.cap, Network.withArrays_learningFactorScaler, Network.withArrays_error,
    Network.withArrays_learningFactor, Network.withArrays_minLearningFactor,
    Network.withArrays_enableWeightRollback, Network.withArrays_maxLearningFactor,
    Network.withArrays_totalWeights, Network.withArrays_weights,
        if_pos hs, if_neg h1, if_neg h2, if_pos hc]
    · simp only [trainForAllTrainingSets.adapt, trainForAllTrainingSets.adjust,
    trainForAllTrainingSets.cap, Network.withArrays_learningFactorScaler, Network.withArrays_error,
    Network.withArrays_learningFactor, Network.withArrays_minLearningFactor,
    Network.withArrays_enableWeightRollback, Network.withArrays_maxLearningFactor,
    Network.withArrays_totalWeights, Network.withArrays_weights,
        if_pos hs, if_neg h1, if_neg h2, if_pos hc]
      exact (min_eq_right (le_of_lt hc)).symm
    · simp only [trainForAllTrainingSets.adapt, trainForAllTrainingSets.adjust,
    trainForAllTrainingSets.cap, Network.withArrays_learningFactorScaler, Network.withArrays_error,
    Network.withArrays_learningFactor, Network.withArrays_minLearningFactor,
    Network.withArrays_enableWeightRollback, Network.withArrays_maxLearningFactor,
    Network.withArrays_totalWeights, Network.withArrays_weights,
        if_pos hs, if_neg h1, if_neg h2, if_pos hc]
  · refine ⟨?_, ?_, ?_⟩
    · simp only [trainForAllTrainingSets.adapt, trainForAllTrainingSets.adjust,
    trainForAllTrainingSets.cap, Network.withArrays_learningFactorScaler, Network.withArrays_error,
    Network.withArrays_learningFactor, Network.withArrays_minLearningFactor,
    Network.withArrays_enableWeightRollback, Network.withArrays_maxLearningFactor,
    Network.withArrays_totalWeights, Network.withArrays_weights,
        if_pos hs, if_neg h1, if_neg h2, if_neg hc]
    · simp only [trainForAllTrainingSets.adapt, trainForAllTrainingSets.adjust,
    trainForAllTrainingSets.cap, Network.withArrays_learningFactorScaler, Network.withArrays_error,
    Network.withArrays_learningFactor, Network.withArrays_minLearningFactor,
    Network.withArrays_enableWeightRollback, Network.withArrays_maxLearningFactor,
    Network.withArrays_totalWeights, Network.withArrays_weights,
        if_pos hs, if_neg h1, if_neg h2, if_neg hc]
      exact (min_eq_left (le_of_not_lt hc)).symm
    · simp only [trainForAllTrainingSets.adapt, trainForAllTrainingSets.adjust,
    trainForAllTrainingSets.cap, Network.withArrays_learningFactorScaler, Network.withArrays_error,
    Network.withArrays_learningFactor, Network.withArrays_minLearningFactor,
    Network.withArrays_enableWeightRollback, Network.withArrays_maxLearningFactor,
    Network.withArrays_totalWeights, Network.withArrays_weights,
        if_pos hs, if_neg h1, if_neg h2, if_neg hc]

/-- Adaptation off (`scaler = 1`). -/
theorem trainForAllTrainingSets.off_spec (s : Network α) (hs : s.learningFactorScaler = 1) :
    (trainForAllTrainingSets s).error = trainForAllTrainingSets.newError s ∧
      (trainForAllTrainingSets s).learningFactor = s.learningFactor ∧
      (trainForAllTrainingSets s).weights = (trainForAllTrainingSets.records s).net.weights := by
  obtain ⟨N, E, T, P, Wt, hq⟩ := trainForAllTrainingSets.records_frame s
  rw [trainForAllTrainingSets_eq, hq]
  have hs' : ¬ (s.withArrays N E T P Wt).learningFactorScaler ≠ 1 := fun h => h hs
  unfold trainForAllTrainingSets.adapt
  rw [if_neg hs']
  exact ⟨rfl, rfl, rfl⟩

/-! ## Claims -/

/-- C1. Forward pass: on a network whose strides fit its topology, for every connectivity
layer `m` (`m + 2 ≤ numLayers`) and every destination `j < layerDimensions (m + 1)`, after
`runNetwork` the theta of node `(m + 1, j)` is the sum over `k < layerDimensions m` of
`activation (weight (m, k, j) * node (m, k))`, the node value is `output` of that theta, the
nodes read are those of the same pass, and the input layer still holds the input values. -/
theorem runNetwork_forward_pass (s : Network α) (hp : Planned s) (m j : Nat)
    (hm : m + 2 ≤ s.numLayers) (hj : j < s.layerDimensions (m + 1)) :
    (runNetwork s).thetas ((m + 1) * s.maxNodesInALayer + j) =
        ∑ k in Finset.range (s.layerDimensions m),
          s.activationFunction
            (s.weights
                (m * s.maxNodesInALayer * s.maxNodesInALayer + k * s.maxNodesInALayer + j) *
              (runNetwork s).nodes (m * s.maxNodesInALayer + k)) ∧
      (runNetwork s).nodes ((m + 1) * s.maxNodesInALayer + j) =
        s.outputFunction ((runNetwork s).thetas ((m + 1) * s.maxNodesInALayer + j)) ∧
      (∀ k, k < s.layerDimensions 0 → (runNetwork s).nodes k = s.nodes k) ∧
      (runNetwork s).weights = s.weights := by
  have inv := runNetwork_inv s hp.width
  refine ⟨inv.theta m j (by omega) hj, inv.node m j (by omega) hj, fun k hk => ?_,
    runNetwork_weights s⟩
  exact inv.input k (lt_of_lt_of_le hk (hp.width 0 (by omega)))

/-- The strides of `demoNet` fit its topology. -/
theorem demoNet_planned : Planned demoNet := calculateNumNodesAndWeights.inRange_planned _

/-- Witness for C1: the forward pass of `demoNet`, output layer (`m = 1`, `j = 0`). -/
theorem runNetwork_forward_pass_witness :
    (runNetwork demoNet).thetas ((1 + 1) * demoNet.maxNodesInALayer + 0) =
        ∑ k in Finset.range (demoNet.layerDimensions 1),
          demoNet.activationFunction
            (demoNet.weights
                (1 * demoNet.maxNodesInALayer * demoNet.maxNodesInALayer +
                  k * demoNet.maxNodesInALayer + 0) *
              (runNetwork demoNet).nodes (1 * demoNet.maxNodesInALayer + k)) ∧
      (runNetwork demoNet).nodes ((1 + 1) * demoNet.maxNodesInALayer + 0) =
        demoNet.outputFunction
          ((runNetwork demoNet).thetas ((1 + 1) * demoNet.maxNodesInALayer + 0)) ∧
      (∀ k, k < demoNet.layerDimensions 0 → (runNetwork demoNet).nodes k = demoNet.nodes k) ∧
      (runNetwork demoNet).weights = demoNet.weights :=
  runNetwork_forward_pass demoNet demoNet_planned 1 0 (by decide) (by decide)

/-- C2. Output-adjacent backward phase of one record: on a network with at least two layers
whose strides fit its topology, for `j < layerDimensions (numLayers - 2)` and
`i < layerDimensions (numLayers - 1)` the weight from node `j` of layer `numLayers - 2` to
output node `i` after the record's pass is its value before the pass minus
`learningFactor * node (numLayers - 2, j) * psi i`, where
`psi i = (node (numLayers - 1, i) - expected i) * outputDeriv (theta (numLayers - 1, i))` is
taken from the forward pass of the record, which ran on the pre-pass weights; and the psi slot
of output node `i` holds `psi i`. -/
theorem trainForAllTrainingSets.recordStep_output_phase (t : Nat) (p : Sweep α)
    (hp : Planned p.net) (hL : 2 ≤ p.net.numLayers) (j i : Nat)
    (hj : j < p.net.layerDimensions (p.net.numLayers - 2))
    (hi : i < p.net.layerDimensions (p.net.numLayers - 1)) :
    (trainForAllTrainingSets.forward p).weights = p.net.weights ∧
      (trainForAllTrainingSets.recordStep t p).net.weights
          (p.net.maxWeightsInALayer * (p.net.numLayers - 2) + p.net.maxNodesInALayer * j + i) =
        p.net.weights (p.net.maxWeightsInALayer * (p.net.numLayers - 2) + p.net.maxNodesInALayer * j + i) -
          p.net.learningFactor * (trainForAllTrainingSets.forward p).nodes (p.net.maxNodesInALayer * (p.net.numLayers - 2) + j) *
            (((trainForAllTrainingSets.forward p).nodes (p.net.maxNodesInALayer * (p.net.numLayers - 1) + i) -
            (trainForAllTrainingSets.forward p).expectedOutputs i) *
          p.net.outputDerivFunction ((trainForAllTrainingSets.forward p).thetas (p.net.maxNodesInALayer * (p.net.numLayers - 1) + i))) ∧
      (trainForAllTrainingSets.recordStep t p).net.psis (p.net.maxNodesInALayer * (p.net.numLayers - 1) + i) =
        ((trainForAllTrainingSets.forward p).nodes (p.net.maxNodesInALayer * (p.net.numLayers - 1) + i) -
            (trainForAllTrainingSets.forward p).expectedOutputs i) *
          p.net.outputDerivFunction ((trainForAllTrainingSets.forward p).thetas (p.net.maxNodesInALayer * (p.net.numLayers - 1) + i)) := by
  obtain ⟨E, T, N, hf⟩ := trainForAllTrainingSets.forward_frame p
  have hp' : Planned ((p.net.withRecord N E).withForward T N) :=
    (hp.withRecord N E).withForward T N
  have hw := trainForAllTrainingSets.backward_weights_output _ hp' hL j i hj hi
  have hhid := hp.width (p.net.numLayers - 2) (by omega)
  have hpsi := outputPhasePsis_output ((p.net.withRecord N E).withForward T N) hL hhid
    (by exact Nat.lt_of_le_of_lt (Nat.zero_le j) hj) i hi
  rw [trainForAllTrainingSets.recordStep_net, hf]
  refine ⟨rfl, ?_, ?_⟩
  · exact hw
  · rw [trainForAllTrainingSets.backward_psis _ hp' hL]
    exact hpsi

/-- C3. Interior backward phase of one record: on a network whose strides fit its topology,
for every connectivity layer `m` below the last one (`m + 3 ≤ numLayers`), `k < layerDimensions m`
and `j < layerDimensions (m + 1)`, the weight `(m, k, j)` after the record's pass is its value
before the pass minus `learningFactor * node (m, k) * psi (m + 1, j)`.  For
`m + 1 = numLayers - 2` that psi is the finalized value
`(psi_before j + Σ_i psi i * weight_before (numLayers - 2, j, i)) * outputDeriv (theta (numLayers - 2, j))`;
for a lower layer it is what the psi block held before the pass, and no psi slot below layer
`numLayers - 2` is written by the pass. -/
theorem trainForAllTrainingSets.recordStep_interior_phase (t : Nat) (p : Sweep α)
    (hp : Planned p.net) (m k j : Nat) (hm : m + 3 ≤ p.net.numLayers)
    (hk : k < p.net.layerDimensions m) (hj : j < p.net.layerDimensions (m + 1)) :
    (trainForAllTrainingSets.recordStep t p).net.weights
          (p.net.maxWeightsInALayer * m + p.net.maxNodesInALayer * k + j) =
        p.net.weights (p.net.maxWeightsInALayer * m + p.net.maxNodesInALayer * k + j) -
          p.net.learningFactor * (trainForAllTrainingSets.forward p).nodes (p.net.maxNodesInALayer * m + k) *
            (if m + 1 = p.net.numLayers - 2 then
              (p.net.psis (p.net.maxNodesInALayer * (p.net.numLayers - 2) + j) +
                  ∑ i in Finset.range (p.net.layerDimensions (p.net.numLayers - 1)),
                    (((trainForAllTrainingSets.forward p).nodes (p.net.maxNodesInALayer * (p.net.numLayers - 1) + i) -
                      (trainForAllTrainingSets.forward p).expectedOutputs i) *
                    p.net.outputDerivFunction
                      ((trainForAllTrainingSets.forward p).thetas (p.net.maxNodesInALayer * (p.net.numLayers - 1) + i))) *
                      p.net.weights (p.net.maxWeightsInALayer * (p.net.numLayers - 2) + p.net.maxNodesInALayer * j + i)) *
                p.net.outputDerivFunction
                  ((trainForAllTrainingSets.forward p).thetas (p.net.maxNodesInALayer * (p.net.numLayers - 2) + j))
            else p.net.psis (p.net.maxNodesInALayer * (m + 1) + j)) ∧
      ∀ x, x < p.net.maxNodesInALayer * (p.net.numLayers - 2) →
        (trainForAllTrainingSets.recordStep t p).net.psis x = p.net.psis x := by
  have hL : 2 ≤ p.net.numLayers := by omega
  obtain ⟨E, T, N, hf⟩ := trainForAllTrainingSets.forward_frame p
  have hp' : Planned ((p.net.withRecord N E).withForward T N) :=
    (hp.withRecord N E).withForward T N
  have hw := trainForAllTrainingSets.backward_weights_interior _ hp' hL m k j
    (show m < p.net.numLayers - 2 by omega) hk hj
  have hjW : j < p.net.maxNodesInALayer := lt_of_lt_of_le hj (hp.width (m + 1) (by omega))
  rw [trainForAllTrainingSets.recordStep_net, hf]
  have key : outputPhasePsis ((p.net.withRecord N E).withForward T N)
      (((p.net.withRecord N E).withForward T N).maxNodesInALayer * (m + 1) + j) =
      (if m + 1 = p.net.numLayers - 2 then
        (p.net.psis (p.net.maxNodesInALayer * (p.net.numLayers - 2) + j) +
            ∑ i in Finset.range (p.net.layerDimensions (p.net.numLayers - 1)),
              (((((p.net.withRecord N E).withForward T N)).nodes (p.net.maxNodesInALayer * (p.net.numLayers - 1) + i) -
                      (((p.net.withRecord N E).withForward T N)).expectedOutputs i) *
                    p.net.outputDerivFunction
                      ((((p.net.withRecord N E).withForward T N)).thetas (p.net.maxNodesInALayer * (p.net.numLayers - 1) + i))) *
                p.net.weights (p.net.maxWeightsInALayer * (p.net.numLayers - 2) + p.net.maxNodesInALayer * j + i)) *
          p.net.outputDerivFunction
            ((((p.net.withRecord N E).withForward T N)).thetas (p.net.maxNodesInALayer * (p.net.numLayers - 2) + j))
      else p.net.psis (p.net.maxNodesInALayer * (m + 1) + j)) := by
    by_cases h : m + 1 = p.net.numLayers - 2
    · rw [if_pos h]
      have hj' : j < ((p.net.withRecord N E).withForward T N).layerDimensions (((p.net.withRecord N E).withForward T N).numLayers - 2) := by
        show j < p.net.layerDimensions (p.net.numLayers - 2)
        rw [← h]
        exact hj
      have := outputPhasePsis_hidden ((p.net.withRecord N E).withForward T N) j hj'
      rw [show ((p.net.withRecord N E).withForward T N).maxNodesInALayer * (m + 1) + j =
        ((p.net.withRecord N E).withForward T N).maxNodesInALayer * (((p.net.withRecord N E).withForward T N).numLayers - 2) + j by
        show p.net.maxNodesInALayer * (m + 1) + j = p.net.maxNodesInALayer * (p.net.numLayers - 2) + j
        rw [h]]
      rw [this]
      rfl
    · rw [if_neg h]
      have hlt := row_lt p.net.maxNodesInALayer (m + 1) (p.net.numLayers - 2) j (by omega) hjW
      exact outputPhasePsis_lower ((p.net.withRecord N E).withForward T N) hL _ hlt
  rw [key] at hw
  refine ⟨hw, fun x hx => ?_⟩
  · rw [trainForAllTrainingSets.backward_psis _ hp' hL]
    exact outputPhasePsis_lower ((p.net.withRecord N E).withForward T N) hL x hx

set_option maxHeartbeats 2000000 in
/-- Running the definitions on `demoNet`: the forward pass of the first record gives the output
node the value `1/2`, and the record's pass moves the weight from hidden node `0` to the output
from `1/2` to `23/40` and the weight from input `0` to hidden node `0` from `1/2` to `203/400`. -/
theorem demoNet_first_record :
    (trainForAllTrainingSets.forward demoSweep).nodes 4 = 1 / 2 ∧
      (trainForAllTrainingSets.recordStep 0 demoSweep).net.weights 4 = 23 / 40 ∧
      (trainForAllTrainingSets.recordStep 0 demoSweep).net.weights 0 = 203 / 400 := by
  refine ⟨?_, ?_, ?_⟩
  · simp [trainForAllTrainingSets.forward, demoSweep, loadRecord, runNetwork,
      runNetwork.layerStep, runNetwork.destStep, runNetwork.sourceStep, demoNet,
      calculateNumNodesAndWeights.inRange, forUp, Function.update_apply, relu, identity]
    norm_num
  · simp [trainForAllTrainingSets.recordStep, trainForAllTrainingSets.backward,
      trainForAllTrainingSets.hiddenStep, trainForAllTrainingSets.outputStep,
      trainForAllTrainingSets.interiorLayerStep, trainForAllTrainingSets.interiorDestStep,
      trainForAllTrainingSets.interiorSourceStep, demoSweep, loadRecord, runNetwork,
      runNetwork.layerStep, runNetwork.destStep, runNetwork.sourceStep, demoNet,
      calculateNumNodesAndWeights.inRange, forUp, forDown, Function.update_apply, relu, reluDeriv,
      identity]
    norm_num
  · simp [trainForAllTrainingSets.recordStep, trainForAllTrainingSets.backward,
      trainForAllTrainingSets.hiddenStep, trainForAllTrainingSets.outputStep,
      trainForAllTrainingSets.interiorLayerStep, trainForAllTrainingSets.interiorDestStep,
      trainForAllTrainingSets.interiorSourceStep, demoSweep, loadRecord, runNetwork,
      runNetwork.layerStep, runNetwork.destStep, runNetwork.sourceStep, demoNet,
      calculateNumNodesAndWeights.inRange, forUp, forDown, Function.update_apply, relu, reluDeriv,
      identity]
    norm_num

/-- The sweep of `tinyNet` measures the loss `1/128`, whatever the scalar training state. -/
theorem tinyNet_newError (e lf sc mn mx : ℚ) :
    trainForAllTrainingSets.newError (tinyNet e lf sc mn mx) = 1 / 128 := by
  simp [trainForAllTrainingSets.newError, trainForAllTrainingSets.records,
    trainForAllTrainingSets.recordStep, trainForAllTrainingSets.backward,
    trainForAllTrainingSets.hiddenStep, trainForAllTrainingSets.outputStep,
    calculateError, quadraticLoss, loadRecord, runNetwork, runNetwork.layerStep,
    runNetwork.destStep, runNetwork.sourceStep, tinyNet, calculateNumNodesAndWeights.inRange,
    forUp, forDown, Function.update_apply, relu, reluDeriv, identity]
  norm_num

/-- The record loop of the sweep of `tinyNet` moves the weight from `1/2` to `1/2 + lf/2`. -/
theorem tinyNet_records_weight (e lf sc mn mx : ℚ) :
    (trainForAllTrainingSets.records (tinyNet e lf sc mn mx)).net.weights 0 = 1 / 2 + lf / 2 := by
  simp [trainForAllTrainingSets.records,
    trainForAllTrainingSets.recordStep, trainForAllTrainingSets.backward,
    trainForAllTrainingSets.hiddenStep, trainForAllTrainingSets.outputStep,
    loadRecord, runNetwork, runNetwork.layerStep,
    runNetwork.destStep, runNetwork.sourceStep, tinyNet, calculateNumNodesAndWeights.inRange,
    forUp, forDown, Function.update_apply, relu, reluDeriv, identity]
  ring

theorem quadraticLoss_eq (expectedOutput actualOutput : Nat → α) (arrayLength : Nat) :
    quadraticLoss expectedOutput actualOutput arrayLength =
      0.5 * (arrayLength * ((expectedOutput 0 - actualOutput 0) *
        (expectedOutput 0 - actualOutput 0))) := by
  unfold quadraticLoss
  simp only []
  congr 1
  induction arrayLength with
  | zero => simp [forUp_zero]
  | succ n ih =>
    rw [forUp_succ, ih]
    push_cast
    ring

/-- C4 (the code at the failing input). `quadraticLoss` on `expected = [0, 1]`,
`actual = [0, 0]`, `n = 2` returns `0`, while half the sum of the squared deviations of the two
components is `1/2`: the loop reads index `0` on every iteration. -/
theorem quadraticLoss_failing_input :
    quadraticLoss (fun i => [(0 : ℚ), 1].getD i 0) (fun _ => 0) 2 = 0 ∧
      (0.5 : ℚ) * ∑ i in Finset.range 2,
        ((fun i => [(0 : ℚ), 1].getD i 0) i - (fun _ => (0 : ℚ)) i) ^ 2 = 1 / 2 := by
  constructor
  · rw [quadraticLoss_eq]
    norm_num
  · norm_num [Finset.sum_range_succ]

/-- C5. Reject branch of the learning-rate controller: a sweep run with `scaler ≠ 1` and
rollback enabled whose measured loss exceeds the accepted loss while
`learningFactor > minLearningFactor` leaves each of the `totalWeights` weights equal to its
value before the sweep, sets `learningFactor` to `min (learningFactor / scaler) max`, and
leaves the accepted loss unchanged. -/
theorem trainForAllTrainingSets_reject (s : Network α) (hs : s.learningFactorScaler ≠ 1)
    (hr : s.enableWeightRollback = 'Y')
    (hloss : trainForAllTrainingSets.newError s > s.error)
    (hlf : s.learningFactor > s.minLearningFactor) :
    (∀ i, i < s.totalWeights → (trainForAllTrainingSets s).weights i = s.weights i) ∧
      (trainForAllTrainingSets s).learningFactor =
        min (s.learningFactor / s.learningFactorScaler) s.maxLearningFactor ∧
      (trainForAllTrainingSets s).error = s.error := by
  obtain ⟨h1, h2, h3, _⟩ := trainForAllTrainingSets.reject_spec s hs hloss hlf
  exact ⟨h3 hr, h1, h2⟩

/-- Witness for C5: `tinyNet` with accepted loss `0`, so that the measured loss `1/128` is a rise. -/
theorem trainForAllTrainingSets_reject_witness :
    (∀ i, i < (tinyNet 0 (1 / 2) 2 (1 / 100) 10).totalWeights →
        (trainForAllTrainingSets (tinyNet 0 (1 / 2) 2 (1 / 100) 10)).weights i =
          (tinyNet 0 (1 / 2) 2 (1 / 100) 10).weights i) ∧
      (trainForAllTrainingSets (tinyNet 0 (1 / 2) 2 (1 / 100) 10)).learningFactor =
        min ((tinyNet 0 (1 / 2) 2 (1 / 100) 10).learningFactor /
          (tinyNet 0 (1 / 2) 2 (1 / 100) 10).learningFactorScaler)
          (tinyNet 0 (1 / 2) 2 (1 / 100) 10).maxLearningFactor ∧
      (trainForAllTrainingSets (tinyNet 0 (1 / 2) 2 (1 / 100) 10)).error =
        (tinyNet 0 (1 / 2) 2 (1 / 100) 10).error :=
  trainForAllTrainingSets_reject (tinyNet 0 (1 / 2) 2 (1 / 100) 10)
    (by show (2 : ℚ) ≠ 1; norm_num) rfl
    (by rw [tinyNet_newError]; show (1 / 128 : ℚ) > 0; norm_num)
    (by show (1 / 2 : ℚ) > 1 / 100; norm_num)

/-- C6 (as stated, refuted). Two sweeps with rollback and adaptation enabled whose measured loss
exceeds the accepted loss.  In the first the learning factor `1/2` is not above the minimum `1`:
the weight at offset `0 < totalWeights` is left at its updated value and the learning factor is
not divided.  In the second the learning factor `4` divided by the scaler `2` exceeds the
maximum `1`: the learning factor ends at `1`, not at `2`. -/
theorem trainForAllTrainingSets_rollback_counterexample :
    ((tinyNet 0 (1 / 2) 2 1 10).enableWeightRollback = 'Y' ∧
        (tinyNet 0 (1 / 2) 2 1 10).learningFactorScaler ≠ 1 ∧
        trainForAllTrainingSets.newError (tinyNet 0 (1 / 2) 2 1 10) >
          (tinyNet 0 (1 / 2) 2 1 10).error ∧
        0 < (tinyNet 0 (1 / 2) 2 1 10).totalWeights ∧
        (trainForAllTrainingSets (tinyNet 0 (1 / 2) 2 1 10)).weights 0 ≠
          (tinyNet 0 (1 / 2) 2 1 10).weights 0 ∧
        (trainForAllTrainingSets (tinyNet 0 (1 / 2) 2 1 10)).learningFactor ≠
          (tinyNet 0 (1 / 2) 2 1 10).learningFactor /
            (tinyNet 0 (1 / 2) 2 1 10).learningFactorScaler) ∧
      ((tinyNet 0 4 2 (1 / 100) 1).enableWeightRollback = 'Y' ∧
        (tinyNet 0 4 2 (1 / 100) 1).learningFactorScaler ≠ 1 ∧
        trainForAllTrainingSets.newError (tinyNet 0 4 2 (1 / 100) 1) >
          (tinyNet 0 4 2 (1 / 100) 1).error ∧
        (trainForAllTrainingSets (tinyNet 0 4 2 (1 / 100) 1)).learningFactor ≠
          (tinyNet 0 4 2 (1 / 100) 1).learningFactor /
            (tinyNet 0 4 2 (1 / 100) 1).learningFactorScaler) := by
  have hne : (2 : ℚ) ≠ 1 := by norm_num
  have hloss : ∀ lf mn mx : ℚ,
      trainForAllTrainingSets.newError (tinyNet 0 lf 2 mn mx) > (tinyNet 0 lf 2 mn mx).error := by
    intro lf mn mx
    rw [tinyNet_newError]
    show (1 / 128 : ℚ) > 0
    norm_num
  refine ⟨⟨rfl, hne, hloss _ _ _, by decide, ?_, ?_⟩, ⟨rfl, hne, hloss _ _ _, ?_⟩⟩
  · have h := trainForAllTrainingSets.hold_spec (tinyNet 0 (1 / 2) 2 1 10) hne
      (fun h => absurd h.2 (by show ¬ ((1 / 2 : ℚ) > 1); norm_num))
      (fun h => absurd h (not_lt_of_gt (hloss _ _ _)))
    rw [h.2.2, tinyNet_records_weight]
    show (1 / 2 + (1 / 2) / 2 : ℚ) ≠ 1 / 2
    norm_num
  · have h := trainForAllTrainingSets.hold_spec (tinyNet 0 (1 / 2) 2 1 10) hne
      (fun h => absurd h.2 (by show ¬ ((1 / 2 : ℚ) > 1); norm_num))
      (fun h => absurd h (not_lt_of_gt (hloss _ _ _)))
    rw [h.2.1]
    show min (1 / 2 : ℚ) 10 ≠ (1 / 2) / 2
    norm_num
  · have h := trainForAllTrainingSets.reject_spec (tinyNet 0 4 2 (1 / 100) 1) hne
      (hloss _ _ _) (by show (4 : ℚ) > 1 / 100; norm_num)
    rw [h.1]
    show min ((4 : ℚ) / 2) 1 ≠ 4 / 2
    norm_num

/-- C6 (amended). A sweep run with rollback and adaptation enabled (`scaler ≠ 1`) whose
measured loss exceeds the accepted loss while the learning factor is above its minimum leaves
each of the `totalWeights` weights equal to its value before the sweep and sets the learning
factor to the learning factor before the sweep divided by the scaler, capped at the maximum. -/
theorem trainForAllTrainingSets_rollback (s : Network α) (hr : s.enableWeightRollback = 'Y')
    (hs : s.learningFactorScaler ≠ 1)
    (hloss : trainForAllTrainingSets.newError s > s.error)
    (hlf : s.learningFactor > s.minLearningFactor) :
    (∀ i, i < s.totalWeights → (trainForAllTrainingSets s).weights i = s.weights i) ∧
      (trainForAllTrainingSets s).learningFactor =
        min (s.learningFactor / s.learningFactorScaler) s.maxLearningFactor :=
  ⟨(trainForAllTrainingSets.reject_spec s hs hloss hlf).2.2.1 hr,
    (trainForAllTrainingSets.reject_spec s hs hloss hlf).1⟩

/-- Witness for the amended C6: `tinyNet` with accepted loss `0` and learning factor `1`. -/
theorem trainForAllTrainingSets_rollback_witness :
    (∀ i, i < (tinyNet 0 1 2 (1 / 100) 10).totalWeights →
        (trainForAllTrainingSets (tinyNet 0 1 2 (1 / 100) 10)).weights i =
          (tinyNet 0 1 2 (1 / 100) 10).weights i) ∧
      (trainForAllTrainingSets (tinyNet 0 1 2 (1 / 100) 10)).learningFactor =
        min ((tinyNet 0 1 2 (1 / 100) 10).learningFactor /
          (tinyNet 0 1 2 (1 / 100) 10).learningFactorScaler)
          (tinyNet 0 1 2 (1 / 100) 10).maxLearningFactor :=
  trainForAllTrainingSets_rollback (tinyNet 0 1 2 (1 / 100) 10) rfl
    (by show (2 : ℚ) ≠ 1; norm_num)
    (by rw [tinyNet_newError]; show (1 / 128 : ℚ) > 0; norm_num)
    (by show (1 : ℚ) > 1 / 100; norm_num)

/-- The upper bound is kept by a sweep: a learning factor at most `maxLearningFactor` stays so. -/
theorem trainForAllTrainingSets.learningFactor_le_max (s : Network α)
    (h : s.learningFactor ≤ s.maxLearningFactor) :
    (trainForAllTrainingSets s).learningFactor ≤ s.maxLearningFactor := by
  by_cases hs : s.learningFactorScaler = 1
  · rw [(trainForAllTrainingSets.off_spec s hs).2.1]
    exact h
  · by_cases h1 : trainForAllTrainingSets.newError s > s.error ∧
        s.learningFactor > s.minLearningFactor
    · rw [(trainForAllTrainingSets.reject_spec s hs h1.1 h1.2).1]
      exact min_le_right _ _
    · by_cases h2 : trainForAllTrainingSets.newError s < s.error
      · rw [(trainForAllTrainingSets.accept_spec s hs h2).2.1]
        exact min_le_right _ _
      · rw [(trainForAllTrainingSets.hold_spec s hs h1 h2).2.1]
        exact min_le_right _ _

/-- The upper bound is kept by any number of sweeps. -/
theorem trainForAllTrainingSets.iterate_learningFactor_le_max (s : Network α)
    (h : s.learningFactor ≤ s.maxLearningFactor) (n : Nat) :
    (trainForAllTrainingSets^[n] s).learningFactor ≤ s.maxLearningFactor := by
  induction n generalizing s with
  | zero => exact h
  | succ n ih =>
    rw [Function.iterate_succ_apply]
    have hmax := (trainForAllTrainingSets_sameConfig s).maxLearningFactor
    have := ih (trainForAllTrainingSets s)
      (by rw [hmax]; exact trainForAllTrainingSets.learningFactor_le_max s h)
    rw [hmax] at this
    exact this

/-- C7 (the code at the failing input). With `min = 1/4 ≤ max = 10`, a learning factor `1/2`
inside `[min, max]` and `scaler = 4`, one sweep whose loss rises leaves the learning factor at
`1/8`, below `min`: the division is guarded by `learningFactor > min` before it, and only the
upper bound is enforced after it. -/
theorem learningFactor_below_min :
    (tinyNet 0 (1 / 2) 4 (1 / 4) 10).minLearningFactor ≤
        (tinyNet 0 (1 / 2) 4 (1 / 4) 10).maxLearningFactor ∧
      (tinyNet 0 (1 / 2) 4 (1 / 4) 10).minLearningFactor ≤
        (tinyNet 0 (1 / 2) 4 (1 / 4) 10).learningFactor ∧
      (tinyNet 0 (1 / 2) 4 (1 / 4) 10).learningFactor ≤
        (tinyNet 0 (1 / 2) 4 (1 / 4) 10).maxLearningFactor ∧
      (trainForAllTrainingSets (tinyNet 0 (1 / 2) 4 (1 / 4) 10)).learningFactor = 1 / 8 ∧
      (trainForAllTrainingSets (tinyNet 0 (1 / 2) 4 (1 / 4) 10)).learningFactor <
        (trainForAllTrainingSets (tinyNet 0 (1 / 2) 4 (1 / 4) 10)).minLearningFactor := by
  have h := trainForAllTrainingSets.reject_spec (tinyNet 0 (1 / 2) 4 (1 / 4) 10)
    (by show (4 : ℚ) ≠ 1; norm_num)
    (by rw [tinyNet_newError]; show (1 / 128 : ℚ) > 0; norm_num)
    (by show (1 / 2 : ℚ) > 1 / 4; norm_num)
  have hmin := (trainForAllTrainingSets_sameConfig (tinyNet 0 (1 / 2) 4 (1 / 4) 10)).minLearningFactor
  have hlf : (trainForAllTrainingSets (tinyNet 0 (1 / 2) 4 (1 / 4) 10)).learningFactor = 1 / 8 := by
    rw [h.1]
    show min ((1 / 2 : ℚ) / 4) 10 = 1 / 8
    norm_num
  refine ⟨?_, ?_, ?_, hlf, ?_⟩
  · show (1 / 4 : ℚ) ≤ 10
    norm_num
  · show (1 / 4 : ℚ) ≤ 1 / 2
    norm_num
  · show (1 / 2 : ℚ) ≤ 10
    norm_num
  · rw [hlf, hmin]
    show (1 / 8 : ℚ) < 1 / 4
    norm_num

/-- With adaptation off, the state after any number of sweeps still has `scaler = 1` and the
learning factor it started with. -/
theorem trainForAllTrainingSets.off_iterate (s : Network α) (hs : s.learningFactorScaler = 1)
    (n : Nat) :
    (trainForAllTrainingSets^[n] s).learningFactorScaler = 1 ∧
      (trainForAllTrainingSets^[n] s).learningFactor = s.learningFactor := by
  induction n generalizing s with
  | zero => exact ⟨hs, rfl⟩
  | succ n ih =>
    rw [Function.iterate_succ_apply]
    have hs' : (trainForAllTrainingSets s).learningFactorScaler = 1 :=
      (trainForAllTrainingSets_sameConfig s).learningFactorScaler.trans hs
    obtain ⟨h1, h2⟩ := ih (trainForAllTrainingSets s) hs'
    exact ⟨h1, h2.trans (trainForAllTrainingSets.off_spec s hs).2.1⟩

/-- C8. Adaptation disabled: with `scaler = 1`, whatever the rollback flag, the bounds and the
accepted loss, a sweep leaves `learningFactor` unchanged, leaves the weights as the record loop
produced them (no restore), and sets the accepted loss to the measured loss; hence the learning
factor is the same after any number of sweeps. -/
theorem trainForAllTrainingSets_adaptation_disabled (s : Network α)
    (hs : s.learningFactorScaler = 1) :
    (trainForAllTrainingSets s).learningFactor = s.learningFactor ∧
      (trainForAllTrainingSets s).weights = (trainForAllTrainingSets.records s).net.weights ∧
      (trainForAllTrainingSets s).error = trainForAllTrainingSets.newError s ∧
      ∀ n : Nat, (trainForAllTrainingSets^[n] s).learningFactor = s.learningFactor :=
  ⟨(trainForAllTrainingSets.off_spec s hs).2.1, (trainForAllTrainingSets.off_spec s hs).2.2,
    (trainForAllTrainingSets.off_spec s hs).1,
    fun n => (trainForAllTrainingSets.off_iterate s hs n).2⟩

/-- Witness for C8: `tinyNet` with `scaler = 1`. -/
theorem trainForAllTrainingSets_adaptation_disabled_witness :
    (trainForAllTrainingSets (tinyNet 0 (1 / 2) 1 (1 / 100) 10)).learningFactor =
        (tinyNet 0 (1 / 2) 1 (1 / 100) 10).learningFactor ∧
      (trainForAllTrainingSets (tinyNet 0 (1 / 2) 1 (1 / 100) 10)).weights =
        (trainForAllTrainingSets.records (tinyNet 0 (1 / 2) 1 (1 / 100) 10)).net.weights ∧
      (trainForAllTrainingSets (tinyNet 0 (1 / 2) 1 (1 / 100) 10)).error =
        trainForAllTrainingSets.newError (tinyNet 0 (1 / 2) 1 (1 / 100) 10) ∧
      ∀ n : Nat, (trainForAllTrainingSets^[n] (tinyNet 0 (1 / 2) 1 (1 / 100) 10)).learningFactor =
        (tinyNet 0 (1 / 2) 1 (1 / 100) 10).learningFactor :=
  trainForAllTrainingSets_adaptation_disabled (tinyNet 0 (1 / 2) 1 (1 / 100) 10) rfl

/-- C9. Accept branch of the learning-rate controller: a sweep run with `scaler ≠ 1` whose
measured loss is strictly below the accepted loss sets the accepted loss to the measured loss,
sets `learningFactor` to `min (learningFactor * scaler) max`, and leaves the weights as the
record loop produced them (no restore), whatever the rollback flag. -/
theorem trainForAllTrainingSets_accept (s : Network α) (hs : s.learningFactorScaler ≠ 1)
    (hloss : trainForAllTrainingSets.newError s < s.error) :
    (trainForAllTrainingSets s).error = trainForAllTrainingSets.newError s ∧
      (trainForAllTrainingSets s).learningFactor =
        min (s.learningFactor * s.learningFactorScaler) s.maxLearningFactor ∧
      (trainForAllTrainingSets s).weights = (trainForAllTrainingSets.records s).net.weights :=
  trainForAllTrainingSets.accept_spec s hs hloss

/-- Witness for C9: `tinyNet` with accepted loss `1`, above the measured loss `1/128`. -/
theorem trainForAllTrainingSets_accept_witness :
    (trainForAllTrainingSets (tinyNet 1 (1 / 2) 2 (1 / 100) 10)).error =
        trainForAllTrainingSets.newError (tinyNet 1 (1 / 2) 2 (1 / 100) 10) ∧
      (trainForAllTrainingSets (tinyNet 1 (1 / 2) 2 (1 / 100) 10)).learningFactor =
        min ((tinyNet 1 (1 / 2) 2 (1 / 100) 10).learningFactor *
          (tinyNet 1 (1 / 2) 2 (1 / 100) 10).learningFactorScaler)
          (tinyNet 1 (1 / 2) 2 (1 / 100) 10).maxLearningFactor ∧
      (trainForAllTrainingSets (tinyNet 1 (1 / 2) 2 (1 / 100) 10)).weights =
        (trainForAllTrainingSets.records (tinyNet 1 (1 / 2) 2 (1 / 100) 10)).net.weights :=
  trainForAllTrainingSets_accept (tinyNet 1 (1 / 2) 2 (1 / 100) 10)
    (by show (2 : ℚ) ≠ 1; norm_num)
    (by rw [tinyNet_newError]; show (1 / 128 : ℚ) < 1; norm_num)

/-- The loop of `train`, started at cycle count `c`: it returns, having run `n` sweeps, where
every earlier count had a loss above the target, `c + n` does not pass the cap, and at `n` either
the cap is reached or the loss is at most the target. -/
theorem train.loop_spec (numTimes : Int) (targetError : α) (m : Nat) (c : Int) (s : Network α)
    (hm : (numTimes - c).toNat = m) (hd : s.dumpEveryIterations ≠ 0) :
    ∃ n : Nat,
      train.loop numTimes targetError c s = some (trainForAllTrainingSets^[n] s, c + n) ∧
      (∀ k, k < n → (trainForAllTrainingSets^[k] s).error > targetError) ∧
      c + n ≤ max numTimes c ∧
      (c + n = max numTimes c ∨ (trainForAllTrainingSets^[n] s).error ≤ targetError) := by
  induction m generalizing c s with
  | zero =>
    refine ⟨0, ?_, fun k hk => absurd hk (Nat.not_lt_zero k), ?_, ?_⟩
    · rw [train.loop, if_neg (fun h => by omega)]
      simp
    · simp
    · left
      have : numTimes ≤ c := by omega
      simp [max_eq_right this]
  | succ m ih =>
    by_cases hcond : c < numTimes ∧ s.error > targetError
    · have hd' : (trainForAllTrainingSets s).dumpEveryIterations ≠ 0 := by
        rw [(trainForAllTrainingSets_sameConfig s).dumpEveryIterations]
        exact hd
      obtain ⟨n, h1, h2, h3, h4⟩ := ih (c + 1) (trainForAllTrainingSets s) (by omega) hd'
      refine ⟨n + 1, ?_, ?_, ?_, ?_⟩
      · rw [train.loop, if_pos hcond, if_neg hd', h1, Function.iterate_succ_apply]
        congr 2
        push_cast
        ring
      · intro k hk
        cases k with
        | zero => exact hcond.2
        | succ k =>
          rw [Function.iterate_succ_apply]
          exact h2 k (by omega)
      · have e1 : max numTimes (c + 1) = numTimes := max_eq_left (by omega)
        have e2 : max numTimes c = numTimes := max_eq_left (by omega)
        rw [e1] at h3
        rw [e2]
        push_cast
        omega
      · have e1 : max numTimes (c + 1) = numTimes := max_eq_left (by omega)
        have e2 : max numTimes c = numTimes := max_eq_left (by omega)
        rw [e1] at h4
        rw [e2, Function.iterate_succ_apply]
        rcases h4 with h4 | h4
        · left
          push_cast
          omega
        · right
          exact h4
    · refine ⟨0, ?_, fun k hk => absurd hk (Nat.not_lt_zero k), ?_, ?_⟩
      · rw [train.loop, if_neg hcond]
        simp
      · simp
      · by_cases hc : c < numTimes
        · right
          exact le_of_not_lt fun h => hcond ⟨hc, h⟩
        · left
          have : numTimes ≤ c := by omega
          simp [max_eq_right this]

/-- C10. Training loop: with a non-zero dump interval `train` returns, whatever the iteration cap,
the target loss and the starting state, after exactly `n` sweeps followed by the evaluation
sweep, where `n ≤ max numTimes 0`, every count below `n` had an accepted loss above the target,
and at `n` either the cap is reached or the accepted loss is at most the target: `n` is the
least count in `[0, numTimes]` with loss `≤ targetError`, or the cap if there is none.  In
particular no sweep runs when the loss is already at most the target. -/
theorem train_sweep_count (numTimes : Int) (targetError : α) (s : Network α)
    (hd : s.dumpEveryIterations ≠ 0) :
    ∃ n : Nat,
      train numTimes targetError s =
        some (runForAllTrainingSets (trainForAllTrainingSets^[n] s), (n : Int)) ∧
      n ≤ numTimes.toNat ∧
      (∀ k, k < n → (trainForAllTrainingSets^[k] s).error > targetError) ∧
      (n = numTimes.toNat ∨ (trainForAllTrainingSets^[n] s).error ≤ targetError) ∧
      (s.error ≤ targetError → n = 0) := by
  obtain ⟨n, h1, h2, h3, h4⟩ := train.loop_spec numTimes targetError _ 0 s rfl hd
  refine ⟨n, ?_, ?_, h2, ?_, ?_⟩
  · unfold train
    rw [h1]
    simp
  · rcases le_total numTimes 0 with h | h
    · rw [max_eq_right h] at h3
      omega
    · rw [max_eq_left h] at h3
      omega
  · rcases h4 with h4 | h4
    · left
      rcases le_total numTimes 0 with h | h
      · rw [max_eq_right h] at h4
        omega
      · rw [max_eq_left h] at h4
        omega
    · right
      exact h4
  · intro hle
    by_contra hn
    have := h2 0 (Nat.pos_of_ne_zero hn)
    exact absurd hle (not_le_of_gt this)

/-- Witness for C2: the first record of `demoNet`, hidden node `j = 1`, output node `i = 0`. -/
theorem trainForAllTrainingSets.recordStep_output_phase_witness :
    (trainForAllTrainingSets.forward demoSweep).weights = demoSweep.net.weights ∧
      (trainForAllTrainingSets.recordStep 0 demoSweep).net.weights
          (demoSweep.net.maxWeightsInALayer * (demoSweep.net.numLayers - 2) + demoSweep.net.maxNodesInALayer * 1 + 0) =
        demoSweep.net.weights (demoSweep.net.maxWeightsInALayer * (demoSweep.net.numLayers - 2) + demoSweep.net.maxNodesInALayer * 1 + 0) -
          demoSweep.net.learningFactor * (trainForAllTrainingSets.forward demoSweep).nodes (demoSweep.net.maxNodesInALayer * (demoSweep.net.numLayers - 2) + 1) *
            (((trainForAllTrainingSets.forward demoSweep).nodes (demoSweep.net.maxNodesInALayer * (demoSweep.net.numLayers - 1) + 0) -
            (trainForAllTrainingSets.forward demoSweep).expectedOutputs 0) *
          demoSweep.net.outputDerivFunction ((trainForAllTrainingSets.forward demoSweep).thetas (demoSweep.net.maxNodesInALayer * (demoSweep.net.numLayers - 1) + 0))) ∧
      (trainForAllTrainingSets.recordStep 0 demoSweep).net.psis (demoSweep.net.maxNodesInALayer * (demoSweep.net.numLayers - 1) + 0) =
        ((trainForAllTrainingSets.forward demoSweep).nodes (demoSweep.net.maxNodesInALayer * (demoSweep.net.numLayers - 1) + 0) -
            (trainForAllTrainingSets.forward demoSweep).expectedOutputs 0) *
          demoSweep.net.outputDerivFunction ((trainForAllTrainingSets.forward demoSweep).thetas (demoSweep.net.maxNodesInALayer * (demoSweep.net.numLayers - 1) + 0)) :=
  trainForAllTrainingSets.recordStep_output_phase 0 demoSweep demoNet_planned (by decide) 1 0
    (by decide) (by decide)

/-- Witness for C3: the first record of `demoNet`, weight `(m, k, j) = (0, 0, 1)`. -/
theorem trainForAllTrainingSets.recordStep_interior_phase_witness :
    (trainForAllTrainingSets.recordStep 0 demoSweep).net.weights
          (demoSweep.net.maxWeightsInALayer * 0 + demoSweep.net.maxNodesInALayer * 0 + 1) =
        demoSweep.net.weights (demoSweep.net.maxWeightsInALayer * 0 + demoSweep.net.maxNodesInALayer * 0 + 1) -
          demoSweep.net.learningFactor * (trainForAllTrainingSets.forward demoSweep).nodes (demoSweep.net.maxNodesInALayer * 0 + 0) *
            (if 0 + 1 = demoSweep.net.numLayers - 2 then
              (demoSweep.net.psis (demoSweep.net.maxNodesInALayer * (demoSweep.net.numLayers - 2) + 1) +
                  ∑ i in Finset.range (demoSweep.net.layerDimensions (demoSweep.net.numLayers - 1)),
                    (((trainForAllTrainingSets.forward demoSweep).nodes (demoSweep.net.maxNodesInALayer * (demoSweep.net.numLayers - 1) + i) -
                      (trainForAllTrainingSets.forward demoSweep).expectedOutputs i) *
                    demoSweep.net.outputDerivFunction
                      ((trainForAllTrainingSets.forward demoSweep).thetas (demoSweep.net.maxNodesInALayer * (demoSweep.net.numLayers - 1) + i))) *
                      demoSweep.net.weights (demoSweep.net.maxWeightsInALayer * (demoSweep.net.numLayers - 2) + demoSweep.net.maxNodesInALayer * 1 + i)) *
                demoSweep.net.outputDerivFunction
                  ((trainForAllTrainingSets.forward demoSweep).thetas (demoSweep.net.maxNodesInALayer * (demoSweep.net.numLayers - 2) + 1))
            else demoSweep.net.psis (demoSweep.net.maxNodesInALayer * (0 + 1) + 1)) ∧
      ∀ x, x < demoSweep.net.maxNodesInALayer * (demoSweep.net.numLayers - 2) →
        (trainForAllTrainingSets.recordStep 0 demoSweep).net.psis x = demoSweep.net.psis x :=
  trainForAllTrainingSets.recordStep_interior_phase 0 demoSweep demoNet_planned 0 0 1
    (by decide) (by decide) (by decide)

/-- Witness for C10: `train 3 (1/1000)` on `tinyNet`, whose dump interval is `1`. -/
theorem train_sweep_count_witness :
    ∃ n : Nat,
      train 3 (1 / 1000) (tinyNet 1 (1 / 2) 2 (1 / 100) 10) =
        some (runForAllTrainingSets (trainForAllTrainingSets^[n] (tinyNet 1 (1 / 2) 2 (1 / 100) 10)), (n : Int)) ∧
      n ≤ (3 : Int).toNat ∧
      (∀ k, k < n → (trainForAllTrainingSets^[k] (tinyNet 1 (1 / 2) 2 (1 / 100) 10)).error > (1 / 1000)) ∧
      (n = (3 : Int).toNat ∨ (trainForAllTrainingSets^[n] (tinyNet 1 (1 / 2) 2 (1 / 100) 10)).error ≤ (1 / 1000)) ∧
      ((tinyNet 1 (1 / 2) 2 (1 / 100) 10).error ≤ (1 / 1000) → n = 0) :=
  train_sweep_count 3 (1 / 1000) (tinyNet 1 (1 / 2) 2 (1 / 100) 10) (by decide)

end Theorems

/-! ## The topology planner, addressing and record loading -/

section Topology

variable {α : Type}

theorem calculateNumNodesAndWeights.inRange_max (s : Network α) (n : Nat) :
    (forUp n (fun layer (s : Network α) =>
        if s.layerDimensions layer > s.maxNodesInALayer then
          { s with maxNodesInALayer := s.layerDimensions layer }
        else s) s).maxNodesInALayer =
      max s.maxNodesInALayer ((Finset.range n).sup s.layerDimensions) := by
  induction n with
  | zero => simp [forUp_zero]
  | succ n ih =>
    obtain ⟨hd, -, -⟩ := calculateNumNodesAndWeights.inRange_scan s n
    rw [forUp_succ, Finset.range_succ, Finset.sup_insert]
    by_cases h : (forUp n (fun layer (s : Network α) =>
        if s.layerDimensions layer > s.maxNodesInALayer then
          { s with maxNodesInALayer := s.layerDimensions layer }
        else s) s).layerDimensions n >
        (forUp n (fun layer (s : Network α) =>
        if s.layerDimensions layer > s.maxNodesInALayer then
          { s with maxNodesInALayer := s.layerDimensions layer }
        else s) s).maxNodesInALayer
    · simp only [if_pos h]
      rw [hd, ih] at h
      rw [hd]
      change _ = max _ (max _ _)
      omega
    · simp only [if_neg h]
      rw [hd, ih] at h
      rw [ih]
      change _ = max _ (max _ _)
      omega

/-- What the planner on the `Nat` fields returns, for every starting state. -/
theorem calculateNumNodesAndWeights.inRange_spec (s : Network α) :
    (calculateNumNodesAndWeights.inRange s).numLayers = s.numLayers ∧
      (calculateNumNodesAndWeights.inRange s).layerDimensions = s.layerDimensions ∧
      (calculateNumNodesAndWeights.inRange s).maxNodesInALayer =
        max s.maxNodesInALayer ((Finset.range s.numLayers).sup s.layerDimensions) ∧
      (calculateNumNodesAndWeights.inRange s).maxWeightsInALayer =
        (calculateNumNodesAndWeights.inRange s).maxNodesInALayer *
          (calculateNumNodesAndWeights.inRange s).maxNodesInALayer ∧
      (calculateNumNodesAndWeights.inRange s).totalWeights =
        (calculateNumNodesAndWeights.inRange s).maxWeightsInALayer * (s.numLayers - 1) := by
  obtain ⟨hd, hl, -⟩ := calculateNumNodesAndWeights.inRange_scan s s.numLayers
  have hl' : (calculateNumNodesAndWeights.inRange s).numLayers = s.numLayers := hl
  have ht : (calculateNumNodesAndWeights.inRange s).totalWeights =
      (calculateNumNodesAndWeights.inRange s).maxWeightsInALayer *
        ((calculateNumNodesAndWeights.inRange s).numLayers - 1) := rfl
  exact ⟨hl, hd, calculateNumNodesAndWeights.inRange_max s s.numLayers, rfl, by rw [ht, hl']⟩

/-- Offsets of valid weight triples and node pairs on strides that fit the topology. -/
theorem Planned.addressing {s : Network α} (hp : Planned s) :
    (∀ m k j, m < s.numLayers - 1 → k < s.layerDimensions m → j < s.layerDimensions (m + 1) →
        m * s.maxNodesInALayer ^ 2 + k * s.maxNodesInALayer + j <
          s.maxNodesInALayer ^ 2 * (s.numLayers - 1)) ∧
      (∀ m k j m' k' j', m < s.numLayers - 1 → k < s.layerDimensions m →
        j < s.layerDimensions (m + 1) → m' < s.numLayers - 1 → k' < s.layerDimensions m' →
        j' < s.layerDimensions (m' + 1) →
        m * s.maxNodesInALayer ^ 2 + k * s.maxNodesInALayer + j =
          m' * s.maxNodesInALayer ^ 2 + k' * s.maxNodesInALayer + j' →
        m = m' ∧ k = k' ∧ j = j') ∧
      (∀ m j, m < s.numLayers → j < s.layerDimensions m →
        m * s.maxNodesInALayer + j < s.maxNodesInALayer * s.numLayers) ∧
      (∀ m j m' j', m < s.numLayers → j < s.layerDimensions m → m' < s.numLayers →
        j' < s.layerDimensions m' →
        m * s.maxNodesInALayer + j = m' * s.maxNodesInALayer + j' → m = m' ∧ j = j') := by
  have entry : ∀ m k j, m < s.numLayers - 1 → k < s.layerDimensions m →
      j < s.layerDimensions (m + 1) →
      s.maxNodesInALayer * k + j < s.maxNodesInALayer * s.maxNodesInALayer := by
    intro m k j hm hk hj
    exact row_lt _ k _ j (lt_of_lt_of_le hk (hp.width m (by omega)))
      (lt_of_lt_of_le hj (hp.width (m + 1) (by omega)))
  refine ⟨?_, ?_, ?_, ?_⟩
  · intro m k j hm hk hj
    have h1 := entry m k j hm hk hj
    have h2 := row_lt (s.maxNodesInALayer * s.maxNodesInALayer) m (s.numLayers - 1)
      (s.maxNodesInALayer * k + j) hm h1
    rw [sq, Nat.mul_comm m, Nat.mul_comm k]
    omega
  · intro m k j m' k' j' hm hk hj hm' hk' hj' h
    have h1 := entry m k j hm hk hj
    have h1' := entry m' k' j' hm' hk' hj'
    rw [sq, Nat.mul_comm m, Nat.mul_comm k, Nat.mul_comm m', Nat.mul_comm k'] at h
    obtain ⟨e1, e2⟩ := row_inj (s.maxNodesInALayer * s.maxNodesInALayer) m m'
      (s.maxNodesInALayer * k + j) (s.maxNodesInALayer * k' + j') h1 h1' (by omega)
    obtain ⟨e3, e4⟩ := row_inj s.maxNodesInALayer k k' j j'
      (lt_of_lt_of_le hj (hp.width (m + 1) (by omega)))
      (lt_of_lt_of_le hj' (hp.width (m' + 1) (by omega))) e2
    exact ⟨e1, e3, e4⟩
  · intro m j hm hj
    have := row_lt s.maxNodesInALayer m s.numLayers j hm (lt_of_lt_of_le hj (hp.width m hm))
    rw [Nat.mul_comm m]
    exact this
  · intro m j m' j' hm hj hm' hj' h
    rw [Nat.mul_comm m, Nat.mul_comm m'] at h
    exact row_inj s.maxNodesInALayer m m' j j' (lt_of_lt_of_le hj (hp.width m hm))
      (lt_of_lt_of_le hj' (hp.width m' hm')) h

theorem loadRecord.inputLoop_eq (n : Nat) (p : Sweep α) :
    forUp n (fun k (p : Sweep α) =>
      { p with
        net := { p.net with nodes := Function.update p.net.nodes k (p.net.trainingSets p.index) }
        index := p.index + 1 }) p =
      { net := p.net.withRecord
          (fun k => if k < n then p.net.trainingSets (p.index + k) else p.net.nodes k)
          p.net.expectedOutputs
        index := p.index + n
        errorSum := p.errorSum } := by
  induction n with
  | zero =>
    rw [forUp_zero]
    simp only [Nat.not_lt_zero, if_false, Nat.add_zero]
    rfl
  | succ n ih =>
    rw [forUp_succ, ih]
    have hN : Function.update
        (fun k => if k < n then p.net.trainingSets (p.index + k) else p.net.nodes k) n
        (p.net.trainingSets (p.index + n)) =
        fun k => if k < n + 1 then p.net.trainingSets (p.index + k) else p.net.nodes k := by
      funext k
      by_cases hk : k = n
      · subst hk
        simp
      · rw [Function.update_noteq hk]
        by_cases h1 : k < n
        · rw [if_pos h1, if_pos (by omega)]
        · rw [if_neg h1, if_neg (by omega)]
    show ({ net := p.net.withRecord
              (Function.update
                (fun k => if k < n then p.net.trainingSets (p.index + k) else p.net.nodes k) n
                (p.net.trainingSets (p.index + n))) p.net.expectedOutputs
            index := p.index + n + 1
            errorSum := p.errorSum } : Sweep α) = _
    rw [hN]
    rfl

theorem loadRecord.targetLoop_eq (n : Nat) (p : Sweep α) :
    forUp n (fun k (p : Sweep α) =>
      { p with
        net := { p.net with
          expectedOutputs :=
            Function.update p.net.expectedOutputs k (p.net.trainingSets p.index) }
        index := p.index + 1 }) p =
      { net := p.net.withRecord p.net.nodes
          (fun i => if i < n then p.net.trainingSets (p.index + i) else p.net.expectedOutputs i)
        index := p.index + n
        errorSum := p.errorSum } := by
  induction n with
  | zero =>
    rw [forUp_zero]
    simp only [Nat.not_lt_zero, if_false, Nat.add_zero]
    rfl
  | succ n ih =>
    rw [forUp_succ, ih]
    have hE : Function.update
        (fun i => if i < n then p.net.trainingSets (p.index + i) else p.net.expectedOutputs i) n
        (p.net.trainingSets (p.index + n)) =
        fun i => if i < n + 1 then p.net.trainingSets (p.index + i)
          else p.net.expectedOutputs i := by
      funext k
      by_cases hk : k = n
      · subst hk
        simp
      · rw [Function.update_noteq hk]
        by_cases h1 : k < n
        · rw [if_pos h1, if_pos (by omega)]
        · rw [if_neg h1, if_neg (by omega)]
    show ({ net := p.net.withRecord p.net.nodes
              (Function.update
                (fun i => if i < n then p.net.trainingSets (p.index + i)
                  else p.net.expectedOutputs i) n
                (p.net.trainingSets (p.index + n)))
            index := p.index + n + 1
            errorSum := p.errorSum } : Sweep α) = _
    rw [hE]
    rfl

/-- Closed form of loading one record. -/
theorem loadRecord_eq (p : Sweep α) :
    loadRecord p =
      { net := p.net.withRecord (loadedNodes p.net p.index) (loadedTargets p.net p.index)
        index := p.index + p.net.numInputNodes + p.net.numOutputNodes
        errorSum := p.errorSum } := by
  unfold loadRecord
  simp only []
  rw [loadRecord.inputLoop_eq]
  simp only [Network.withRecord_numOutputNodes]
  rw [loadRecord.targetLoop_eq]
  rfl

/-- An `int` operation whose mathematical result is an `int` leaves that result. -/
theorem wrapInt_eq (z : Int) (h1 : -(2 ^ 31) ≤ z) (h2 : z < 2 ^ 31) : wrapInt z = z := by
  unfold wrapInt
  omega

/-- The loop of the planner: it writes `maxNodesInALayer` only, and leaves it at least what it
was, at least every dimension visited, and equal to what it was or to a dimension visited. -/
theorem calculateNumNodesAndWeights.scan_spec (g : Layout) (n : Nat) :
    (forUp n calculateNumNodesAndWeights.layerStep g).numLayers = g.numLayers ∧
      (forUp n calculateNumNodesAndWeights.layerStep g).numOutputNodes = g.numOutputNodes ∧
      (forUp n calculateNumNodesAndWeights.layerStep g).layerDimensions = g.layerDimensions ∧
      (forUp n calculateNumNodesAndWeights.layerStep g).maxWeightsInALayer =
        g.maxWeightsInALayer ∧
      (forUp n calculateNumNodesAndWeights.layerStep g).totalWeights = g.totalWeights ∧
      g.maxNodesInALayer ≤ (forUp n calculateNumNodesAndWeights.layerStep g).maxNodesInALayer ∧
      (∀ m, m < n → g.layerDimensions m ≤
        (forUp n calculateNumNodesAndWeights.layerStep g).maxNodesInALayer) ∧
      ((forUp n calculateNumNodesAndWeights.layerStep g).maxNodesInALayer = g.maxNodesInALayer ∨
        ∃ m, m < n ∧ (forUp n calculateNumNodesAndWeights.layerStep g).maxNodesInALayer =
          g.layerDimensions m) := by
  induction n with
  | zero => exact ⟨rfl, rfl, rfl, rfl, rfl, le_refl _, fun m h => absurd h (Nat.not_lt_zero m),
      Or.inl rfl⟩
  | succ n ih =>
    obtain ⟨h1, h2, h3, h4, h5, h6, h7, h8⟩ := ih
    rw [forUp_succ, calculateNumNodesAndWeights.layerStep]
    by_cases h : (forUp n calculateNumNodesAndWeights.layerStep g).layerDimensions n >
        (forUp n calculateNumNodesAndWeights.layerStep g).maxNodesInALayer
    · rw [if_pos h]
      refine ⟨h1, h2, h3, h4, h5, ?_, ?_, ?_⟩
      · show g.maxNodesInALayer ≤ (forUp n calculateNumNodesAndWeights.layerStep g).layerDimensions n
        exact le_trans h6 (le_of_lt h)
      · intro m hm
        show g.layerDimensions m ≤
          (forUp n calculateNumNodesAndWeights.layerStep g).layerDimensions n
        rcases Nat.lt_succ_iff_lt_or_eq.mp hm with hlt | heq
        · exact le_trans (h7 m hlt) (le_of_lt h)
        · rw [heq, h3]
      · right
        exact ⟨n, Nat.lt_succ_self n, congrFun h3 n⟩
    · rw [if_neg h]
      refine ⟨h1, h2, h3, h4, h5, h6, ?_, ?_⟩
      · intro m hm
        rcases Nat.lt_succ_iff_lt_or_eq.mp hm with hlt | heq
        · exact h7 m hlt
        · rw [heq]
          rw [h3] at h
          exact not_lt.mp h
      · rcases h8 with h8 | ⟨m, hm, h8⟩
        · exact Or.inl h8
        · exact Or.inr ⟨m, Nat.lt_succ_of_lt hm, h8⟩

/-- What the planner returns, on every input: the two products are the `int` products. -/
theorem calculateNumNodesAndWeights_spec (g : Layout) :
    (calculateNumNodesAndWeights g).numLayers = g.numLayers ∧
      (calculateNumNodesAndWeights g).numOutputNodes = g.numOutputNodes ∧
      (calculateNumNodesAndWeights g).layerDimensions = g.layerDimensions ∧
      g.maxNodesInALayer ≤ (calculateNumNodesAndWeights g).maxNodesInALayer ∧
      (∀ m : Nat, (m : Int) < g.numLayers →
        g.layerDimensions m ≤ (calculateNumNodesAndWeights g).maxNodesInALayer) ∧
      ((calculateNumNodesAndWeights g).maxNodesInALayer = g.maxNodesInALayer ∨
        ∃ m : Nat, (m : Int) < g.numLayers ∧
          (calculateNumNodesAndWeights g).maxNodesInALayer = g.layerDimensions m) ∧
      (calculateNumNodesAndWeights g).maxWeightsInALayer =
        wrapInt ((calculateNumNodesAndWeights g).maxNodesInALayer *
          (calculateNumNodesAndWeights g).maxNodesInALayer) ∧
      (calculateNumNodesAndWeights g).totalWeights =
        wrapInt ((calculateNumNodesAndWeights g).maxWeightsInALayer *
          wrapInt (g.numLayers - 1)) := by
  obtain ⟨h1, h2, h3, -, -, h6, h7, h8⟩ :=
    calculateNumNodesAndWeights.scan_spec g g.numLayers.toNat
  refine ⟨h1, h2, h3, h6, fun m hm => h7 m (by omega), ?_, rfl, ?_⟩
  · rcases h8 with h8 | ⟨m, hm, h8⟩
    · exact Or.inl h8
    · exact Or.inr ⟨m, by omega, h8⟩
  · show wrapInt ((calculateNumNodesAndWeights g).maxWeightsInALayer *
      wrapInt ((forUp g.numLayers.toNat calculateNumNodesAndWeights.layerStep g).numLayers - 1)) = _
    rw [h1]

/-- The planner on a topology with at least two layers, all dimensions positive, started from
a zeroed `maxNodesInALayer`, when `width ^ 2 * (numLayers - 1)` fits an `int` for every
dimension: no `int` operation wraps. -/
theorem calculateNumNodesAndWeights.fit_spec (g : Layout) (h0 : g.maxNodesInALayer = 0)
    (hL : 2 ≤ g.numLayers)
    (hpos : ∀ m : Nat, (m : Int) < g.numLayers → 0 < g.layerDimensions m)
    (hfit : ∀ m : Nat, (m : Int) < g.numLayers →
      g.layerDimensions m ^ 2 * (g.numLayers - 1) < 2 ^ 31) :
    1 ≤ (calculateNumNodesAndWeights g).maxNodesInALayer ∧
      (∀ m : Nat, (m : Int) < g.numLayers →
        g.layerDimensions m ≤ (calculateNumNodesAndWeights g).maxNodesInALayer) ∧
      (∃ m : Nat, (m : Int) < g.numLayers ∧
        g.layerDimensions m = (calculateNumNodesAndWeights g).maxNodesInALayer) ∧
      (calculateNumNodesAndWeights g).maxWeightsInALayer =
        (calculateNumNodesAndWeights g).maxNodesInALayer ^ 2 ∧
      (calculateNumNodesAndWeights g).totalWeights =
        (calculateNumNodesAndWeights g).maxNodesInALayer ^ 2 * (g.numLayers - 1) := by
  obtain ⟨-, -, -, -, hle, hatt, hw, ht⟩ := calculateNumNodesAndWeights_spec g
  have hW1 : 1 ≤ (calculateNumNodesAndWeights g).maxNodesInALayer := by
    have h1 := hle 0 (by simpa using (by omega : (0 : Int) < g.numLayers))
    have h2 := hpos 0 (by simpa using (by omega : (0 : Int) < g.numLayers))
    omega
  have hatt' : ∃ m : Nat, (m : Int) < g.numLayers ∧
      g.layerDimensions m = (calculateNumNodesAndWeights g).maxNodesInALayer := by
    rcases hatt with h | ⟨m, hm, h⟩
    · rw [h0] at h
      omega
    · exact ⟨m, hm, h.symm⟩
  obtain ⟨m0, hm0, hd0⟩ := hatt'
  have hf := hfit m0 hm0
  rw [hd0] at hf
  have hsq : 1 ≤ (calculateNumNodesAndWeights g).maxNodesInALayer ^ 2 := by nlinarith
  have hL1 : 1 ≤ g.numLayers - 1 := by omega
  have hsqfit : (calculateNumNodesAndWeights g).maxNodesInALayer ^ 2 < 2 ^ 31 := by nlinarith
  have hLfit : g.numLayers - 1 < 2 ^ 31 := by nlinarith
  have hw' : (calculateNumNodesAndWeights g).maxWeightsInALayer =
      (calculateNumNodesAndWeights g).maxNodesInALayer ^ 2 := by
    rw [hw, ← sq, wrapInt_eq _ (by nlinarith) hsqfit]
  refine ⟨hW1, hle, ⟨m0, hm0, hd0⟩, hw', ?_⟩
  rw [ht, hw', wrapInt_eq (g.numLayers - 1) (by omega) hLfit,
    wrapInt_eq _ (by nlinarith) hf]

/-- C12 (as stated, refuted). On the topology `[46341, 1]`, two layers, both dimensions
positive, from zeroed globals, the planner leaves `maxNodesInALayer = 46341`, the maximum, but
the `int` product `46341 * 46341` wraps: `maxWeightsInALayer` and `totalWeights` are
`-2147479015`, not `46341 ^ 2 = 2147488281`. -/
theorem calculateNumNodesAndWeights_strides_counterexample :
    (2 : Int) ≤ (blankLayout 2 [46341, 1]).numLayers ∧
      (∀ m : Nat, (m : Int) < (blankLayout 2 [46341, 1]).numLayers →
        0 < (blankLayout 2 [46341, 1]).layerDimensions m) ∧
      (calculateNumNodesAndWeights (blankLayout 2 [46341, 1])).maxNodesInALayer = 46341 ∧
      (calculateNumNodesAndWeights (blankLayout 2 [46341, 1])).maxWeightsInALayer =
        -2147479015 ∧
      (calculateNumNodesAndWeights (blankLayout 2 [46341, 1])).totalWeights = -2147479015 ∧
      (calculateNumNodesAndWeights (blankLayout 2 [46341, 1])).maxWeightsInALayer ≠
        (calculateNumNodesAndWeights (blankLayout 2 [46341, 1])).maxNodesInALayer ^ 2 ∧
      (calculateNumNodesAndWeights (blankLayout 2 [46341, 1])).totalWeights ≠
        (calculateNumNodesAndWeights (blankLayout 2 [46341, 1])).maxNodesInALayer ^ 2 *
          ((blankLayout 2 [46341, 1]).numLayers - 1) := by
  refine ⟨by decide, ?_, by decide, by decide, by decide, by decide, by decide⟩
  intro m hm
  have hm' : m < 2 := by
    have : (m : Int) < 2 := hm
    omega
  interval_cases m <;> decide

/-- C12 (amended). Topology planner: started from a zeroed `maxNodesInALayer` on a topology
with at least two layers, all dimensions positive, such that `width ^ 2 * (numLayers - 1)` is
below `2 ^ 31` for every dimension (so for the widest layer),
`calculateNumNodesAndWeights` leaves `maxNodesInALayer` equal to the maximum of the layer
dimensions (it is at least every dimension and equal to one of them), `maxWeightsInALayer`
equal to its square, and `totalWeights` equal to `maxNodesInALayer ^ 2 * (numLayers - 1)`. -/
theorem calculateNumNodesAndWeights_strides (g : Layout) (h0 : g.maxNodesInALayer = 0)
    (hL : 2 ≤ g.numLayers)
    (hpos : ∀ m : Nat, (m : Int) < g.numLayers → 0 < g.layerDimensions m)
    (hfit : ∀ m : Nat, (m : Int) < g.numLayers →
      g.layerDimensions m ^ 2 * (g.numLayers - 1) < 2 ^ 31) :
    (∀ m : Nat, (m : Int) < g.numLayers →
        g.layerDimensions m ≤ (calculateNumNodesAndWeights g).maxNodesInALayer) ∧
      (∃ m : Nat, (m : Int) < g.numLayers ∧
        g.layerDimensions m = (calculateNumNodesAndWeights g).maxNodesInALayer) ∧
      (calculateNumNodesAndWeights g).maxWeightsInALayer =
        (calculateNumNodesAndWeights g).maxNodesInALayer ^ 2 ∧
      (calculateNumNodesAndWeights g).totalWeights =
        (calculateNumNodesAndWeights g).maxNodesInALayer ^ 2 * (g.numLayers - 1) :=
  (calculateNumNodesAndWeights.fit_spec g h0 hL hpos hfit).2

/-- Witness for C12: the topology `[2, 3, 1]` from zeroed globals. -/
theorem calculateNumNodesAndWeights_strides_witness :
    (∀ m : Nat, (m : Int) < (blankLayout 3 [2, 3, 1]).numLayers →
        (blankLayout 3 [2, 3, 1]).layerDimensions m ≤
          (calculateNumNodesAndWeights (blankLayout 3 [2, 3, 1])).maxNodesInALayer) ∧
      (∃ m : Nat, (m : Int) < (blankLayout 3 [2, 3, 1]).numLayers ∧
        (blankLayout 3 [2, 3, 1]).layerDimensions m =
          (calculateNumNodesAndWeights (blankLayout 3 [2, 3, 1])).maxNodesInALayer) ∧
      (calculateNumNodesAndWeights (blankLayout 3 [2, 3, 1])).maxWeightsInALayer =
        (calculateNumNodesAndWeights (blankLayout 3 [2, 3, 1])).maxNodesInALayer ^ 2 ∧
      (calculateNumNodesAndWeights (blankLayout 3 [2, 3, 1])).totalWeights =
        (calculateNumNodesAndWeights (blankLayout 3 [2, 3, 1])).maxNodesInALayer ^ 2 *
          ((blankLayout 3 [2, 3, 1]).numLayers - 1) :=
  calculateNumNodesAndWeights_strides (blankLayout 3 [2, 3, 1]) rfl (by decide)
    (fun m hm => by
      have hm' : m < 3 := by
        have : (m : Int) < 3 := hm
        omega
      interval_cases m <;> decide)
    (fun m hm => by
      have hm' : m < 3 := by
        have : (m : Int) < 3 := hm
        omega
      interval_cases m <;> decide)

/-- A row-major offset determines its row and its column. -/
theorem int_row_inj (W a a' b b' : Int) (hb : 0 ≤ b) (hbW : b < W) (hb' : 0 ≤ b')
    (hbW' : b' < W) (h : a * W + b = a' * W + b') : a = a' ∧ b = b' := by
  have hW : 0 ≤ W := by omega
  have ha : a = a' := by
    rcases lt_trichotomy a a' with hlt | heq | hgt
    · have := mul_le_mul_of_nonneg_right (show 1 ≤ a' - a by omega) hW
      nlinarith
    · exact heq
    · have := mul_le_mul_of_nonneg_right (show 1 ≤ a - a' by omega) hW
      nlinarith
  subst ha
  exact ⟨rfl, by omega⟩

/-- C19 (as stated, refuted). On the topology `[46341, 1]` from zeroed globals the weight triple
`(0, 0, 0)` is valid and has offset `0`, but the `int` product behind `totalWeights` wraps to
`-2147479015`: the offset is not below `totalWeights`. -/
theorem calculateNumNodesAndWeights_addressing_counterexample :
    ((0 : Nat) : Int) < (blankLayout 2 [46341, 1]).numLayers - 1 ∧
      ((0 : Nat) : Int) < (blankLayout 2 [46341, 1]).layerDimensions 0 ∧
      ((0 : Nat) : Int) < (blankLayout 2 [46341, 1]).layerDimensions (0 + 1) ∧
      (calculateNumNodesAndWeights (blankLayout 2 [46341, 1])).totalWeights = -2147479015 ∧
      ¬ (((0 : Nat) : Int) *
            (calculateNumNodesAndWeights (blankLayout 2 [46341, 1])).maxNodesInALayer ^ 2 +
          ((0 : Nat) : Int) *
            (calculateNumNodesAndWeights (blankLayout 2 [46341, 1])).maxNodesInALayer +
          ((0 : Nat) : Int) <
        (calculateNumNodesAndWeights (blankLayout 2 [46341, 1])).totalWeights) := by
  refine ⟨by decide, by decide, by decide, by decide, by decide⟩

/-- C19 (amended). Flattened addressing is in bounds and collision-free when the planner's
products fit an `int`: on a topology with at least two layers, all dimensions positive, with
`width ^ 2 * (numLayers - 1)` below `2 ^ 31` for every dimension, and with the strides the
planner computes from a zeroed `maxNodesInALayer` (`W = maxNodesInALayer`), every valid weight
triple `(m, k, j)` has offset `m * W ^ 2 + k * W + j < totalWeights`, two valid triples with the
same offset are the same triple, every valid node pair `(m, j)` has offset
`m * W + j < W * numLayers`, and two valid pairs with the same offset are the same pair. -/
theorem calculateNumNodesAndWeights_addressing (g : Layout) (h0 : g.maxNodesInALayer = 0)
    (hL : 2 ≤ g.numLayers)
    (hpos : ∀ m : Nat, (m : Int) < g.numLayers → 0 < g.layerDimensions m)
    (hfit : ∀ m : Nat, (m : Int) < g.numLayers →
      g.layerDimensions m ^ 2 * (g.numLayers - 1) < 2 ^ 31) :
    (∀ m k j : Nat, (m : Int) < g.numLayers - 1 → (k : Int) < g.layerDimensions m →
        (j : Int) < g.layerDimensions (m + 1) →
        (m : Int) * (calculateNumNodesAndWeights g).maxNodesInALayer ^ 2 +
            (k : Int) * (calculateNumNodesAndWeights g).maxNodesInALayer + (j : Int) <
          (calculateNumNodesAndWeights g).totalWeights) ∧
      (∀ m k j m' k' j' : Nat, (m : Int) < g.numLayers - 1 → (k : Int) < g.layerDimensions m →
        (j : Int) < g.layerDimensions (m + 1) → (m' : Int) < g.numLayers - 1 →
        (k' : Int) < g.layerDimensions m' → (j' : Int) < g.layerDimensions (m' + 1) →
        (m : Int) * (calculateNumNodesAndWeights g).maxNodesInALayer ^ 2 +
            (k : Int) * (calculateNumNodesAndWeights g).maxNodesInALayer + (j : Int) =
          (m' : Int) * (calculateNumNodesAndWeights g).maxNodesInALayer ^ 2 +
            (k' : Int) * (calculateNumNodesAndWeights g).maxNodesInALayer + (j' : Int) →
        m = m' ∧ k = k' ∧ j = j') ∧
      (∀ m j : Nat, (m : Int) < g.numLayers → (j : Int) < g.layerDimensions m →
        (m : Int) * (calculateNumNodesAndWeights g).maxNodesInALayer + (j : Int) <
          (calculateNumNodesAndWeights g).maxNodesInALayer * g.numLayers) ∧
      (∀ m j m' j' : Nat, (m : Int) < g.numLayers → (j : Int) < g.layerDimensions m →
        (m' : Int) < g.numLayers → (j' : Int) < g.layerDimensions m' →
        (m : Int) * (calculateNumNodesAndWeights g).maxNodesInALayer + (j : Int) =
          (m' : Int) * (calculateNumNodesAndWeights g).maxNodesInALayer + (j' : Int) →
        m = m' ∧ j = j') := by
  obtain ⟨hW1, hle, -, -, ht⟩ := calculateNumNodesAndWeights.fit_spec g h0 hL hpos hfit
  rw [ht]
  generalize (calculateNumNodesAndWeights g).maxNodesInALayer = W at hW1 hle ⊢
  have entry : ∀ m k j : Nat, (m : Int) < g.numLayers - 1 → (k : Int) < g.layerDimensions m →
      (j : Int) < g.layerDimensions (m + 1) →
      (k : Int) < W ∧ (j : Int) < W ∧ (k : Int) * W + (j : Int) < W ^ 2 := by
    intro m k j hm hk hj
    have hk' : (k : Int) < W := lt_of_lt_of_le hk (hle m (by omega))
    have hj' : (j : Int) < W := lt_of_lt_of_le hj (hle (m + 1) (by push_cast; omega))
    refine ⟨hk', hj', ?_⟩
    have := mul_le_mul_of_nonneg_right (show (k : Int) ≤ W - 1 by omega)
      (show (0 : Int) ≤ W by omega)
    nlinarith
  refine ⟨?_, ?_, ?_, ?_⟩
  · intro m k j hm hk hj
    obtain ⟨-, -, he⟩ := entry m k j hm hk hj
    have := mul_le_mul_of_nonneg_right (show (m : Int) ≤ g.numLayers - 1 - 1 by omega)
      (show (0 : Int) ≤ W ^ 2 by positivity)
    nlinarith
  · intro m k j m' k' j' hm hk hj hm' hk' hj' h
    obtain ⟨hkW, hjW, he⟩ := entry m k j hm hk hj
    obtain ⟨hkW', hjW', he'⟩ := entry m' k' j' hm' hk' hj'
    obtain ⟨e1, e2⟩ := int_row_inj (W ^ 2) m m' ((k : Int) * W + j) ((k' : Int) * W + j')
      (by positivity) he (by positivity) he' (by linarith)
    obtain ⟨e3, e4⟩ := int_row_inj W k k' j j' (by omega) hjW (by omega) hjW' e2
    exact ⟨by exact_mod_cast e1, by exact_mod_cast e3, by exact_mod_cast e4⟩
  · intro m j hm hj
    have hj' : (j : Int) < W := lt_of_lt_of_le hj (hle m hm)
    have := mul_le_mul_of_nonneg_right (show (m : Int) ≤ g.numLayers - 1 by omega)
      (show (0 : Int) ≤ W by omega)
    nlinarith
  · intro m j m' j' hm hj hm' hj' h
    have hjW : (j : Int) < W := lt_of_lt_of_le hj (hle m hm)
    have hjW' : (j' : Int) < W := lt_of_lt_of_le hj' (hle m' hm')
    obtain ⟨e1, e2⟩ := int_row_inj W m m' j j' (by omega) hjW (by omega) hjW' h
    exact ⟨by exact_mod_cast e1, by exact_mod_cast e2⟩

/-- Witness for C19: the weight triple `(1, 2, 0)` of the topology `[2, 3, 1]` lies below
`totalWeights`. -/
theorem calculateNumNodesAndWeights_addressing_witness :
    ((1 : Nat) : Int) * (calculateNumNodesAndWeights (blankLayout 3 [2, 3, 1])).maxNodesInALayer ^ 2 +
        ((2 : Nat) : Int) * (calculateNumNodesAndWeights (blankLayout 3 [2, 3, 1])).maxNodesInALayer +
        ((0 : Nat) : Int) <
      (calculateNumNodesAndWeights (blankLayout 3 [2, 3, 1])).totalWeights :=
  (calculateNumNodesAndWeights_addressing (blankLayout 3 [2, 3, 1]) rfl (by decide)
    (fun m hm => by
      have hm' : m < 3 := by
        have : (m : Int) < 3 := hm
        omega
      interval_cases m <;> decide)
    (fun m hm => by
      have hm' : m < 3 := by
        have : (m : Int) < 3 := hm
        omega
      interval_cases m <;> decide)).1 1 2 0 (by decide) (by decide) (by decide)

/-- C13 (as stated, refuted). On the topology `[3, 0, 2]` with a zero dimension, on
`[3, -1, 2]` with a negative dimension and on the one-layer topology `[4]`, the planner as
called from `parseConfig` returns stride constants and the storage is sized from them: no error
is raised. -/
theorem parseConfig_plan_counterexample :
    (¬ (∀ m : Nat, (m : Int) < (blankLayout 3 [3, 0, 2]).numLayers →
          0 < (blankLayout 3 [3, 0, 2]).layerDimensions m) ∧
        ∃ r, parseConfig.plan (blankLayout 3 [3, 0, 2]) = Except.ok r ∧
          r.1.maxNodesInALayer = 3 ∧ r.1.maxWeightsInALayer = 9 ∧ r.1.totalWeights = 18 ∧
          r.2.nodes = 9 ∧ r.2.weights = 27) ∧
      (¬ (∀ m : Nat, (m : Int) < (blankLayout 3 [3, -1, 2]).numLayers →
          0 < (blankLayout 3 [3, -1, 2]).layerDimensions m) ∧
        ∃ r, parseConfig.plan (blankLayout 3 [3, -1, 2]) = Except.ok r ∧
          r.1.maxNodesInALayer = 3 ∧ r.1.maxWeightsInALayer = 9 ∧ r.1.totalWeights = 18 ∧
          r.2.nodes = 9 ∧ r.2.weights = 27) ∧
      (¬ (2 : Int) ≤ (blankLayout 1 [4]).numLayers ∧
        ∃ r, parseConfig.plan (blankLayout 1 [4]) = Except.ok r ∧
          r.1.maxNodesInALayer = 4 ∧ r.1.maxWeightsInALayer = 16 ∧ r.1.totalWeights = 0 ∧
          r.2.nodes = 4 ∧ r.2.weights = 16) := by
  refine ⟨⟨fun h => absurd (h 1 (by decide)) (by decide), _, rfl, ?_⟩,
    ⟨fun h => absurd (h 1 (by decide)) (by decide), _, rfl, ?_⟩,
    ⟨by decide, _, rfl, ?_⟩⟩
  · decide
  · decide
  · decide

/-- C13 (amended). The planner validates nothing: for every layer count and every
layer-dimension sequence, also with fewer than two layers or with a zero or negative dimension,
`calculateNumNodesAndWeights` as called from `parseConfig` returns stride constants without an
error: `maxNodesInALayer` at least every dimension, `maxWeightsInALayer` the `int` product
`maxNodesInALayer * maxNodesInALayer`, `totalWeights` the `int` product
`maxWeightsInALayer * (numLayers - 1)`; and the node, theta and psi blocks are sized by the
`int` product `maxNodesInALayer * numLayers` and the weight block by
`maxWeightsInALayer * numLayers` from them. -/
theorem parseConfig_plan_total (g : Layout) :
    ∃ r, parseConfig.plan g = Except.ok r ∧
      r.1 = calculateNumNodesAndWeights g ∧
      (∀ m : Nat, (m : Int) < g.numLayers → g.layerDimensions m ≤ r.1.maxNodesInALayer) ∧
      r.1.maxWeightsInALayer = wrapInt (r.1.maxNodesInALayer * r.1.maxNodesInALayer) ∧
      r.1.totalWeights = wrapInt (r.1.maxWeightsInALayer * wrapInt (g.numLayers - 1)) ∧
      r.2.nodes = wrapInt (r.1.maxNodesInALayer * g.numLayers) ∧
      r.2.thetas = wrapInt (r.1.maxNodesInALayer * g.numLayers) ∧
      r.2.psis = wrapInt (r.1.maxNodesInALayer * g.numLayers) ∧
      r.2.weights = wrapInt (r.1.maxWeightsInALayer * g.numLayers) ∧
      r.2.expectedOutputs = g.numOutputNodes := by
  obtain ⟨hl, ho, -, -, hle, -, hw, ht⟩ := calculateNumNodesAndWeights_spec g
  refine ⟨_, rfl, rfl, hle, hw, ht, ?_, ?_, ?_, ?_, ho⟩
  · show wrapInt (_ * (calculateNumNodesAndWeights g).numLayers) = _
    rw [hl]
  · show wrapInt (_ * (calculateNumNodesAndWeights g).numLayers) = _
    rw [hl]
  · show wrapInt (_ * (calculateNumNodesAndWeights g).numLayers) = _
    rw [hl]
  · show wrapInt (_ * (calculateNumNodesAndWeights g).numLayers) = _
    rw [hl]

/-- The loop of the planner on the `int` globals of a state is the loop on its `Nat` fields. -/
theorem calculateNumNodesAndWeights.scan_layout (s : Network α) (n : Nat) :
    forUp n calculateNumNodesAndWeights.layerStep s.layout =
      (forUp n (fun layer (s : Network α) =>
        if s.layerDimensions layer > s.maxNodesInALayer then
          { s with maxNodesInALayer := s.layerDimensions layer }
        else s) s).layout := by
  induction n with
  | zero => rfl
  | succ n ih =>
    rw [forUp_succ, forUp_succ, ih, calculateNumNodesAndWeights.layerStep]
    by_cases h : (forUp n (fun layer (s : Network α) =>
        if s.layerDimensions layer > s.maxNodesInALayer then
          { s with maxNodesInALayer := s.layerDimensions layer }
        else s) s).layerDimensions n >
        (forUp n (fun layer (s : Network α) =>
        if s.layerDimensions layer > s.maxNodesInALayer then
          { s with maxNodesInALayer := s.layerDimensions layer }
        else s) s).maxNodesInALayer
    · have h' : (Network.layout (forUp n (fun layer (s : Network α) =>
          if s.layerDimensions layer > s.maxNodesInALayer then
            { s with maxNodesInALayer := s.layerDimensions layer }
          else s) s)).layerDimensions n >
          (Network.layout (forUp n (fun layer (s : Network α) =>
          if s.layerDimensions layer > s.maxNodesInALayer then
            { s with maxNodesInALayer := s.layerDimensions layer }
          else s) s)).maxNodesInALayer := by
        show ((_ : Nat) : Int) > ((_ : Nat) : Int)
        exact_mod_cast h
      rw [if_pos h']
      simp only [if_pos h]
      rfl
    · have h' : ¬ (Network.layout (forUp n (fun layer (s : Network α) =>
          if s.layerDimensions layer > s.maxNodesInALayer then
            { s with maxNodesInALayer := s.layerDimensions layer }
          else s) s)).layerDimensions n >
          (Network.layout (forUp n (fun layer (s : Network α) =>
          if s.layerDimensions layer > s.maxNodesInALayer then
            { s with maxNodesInALayer := s.layerDimensions layer }
          else s) s)).maxNodesInALayer := by
        show ¬ ((_ : Nat) : Int) > ((_ : Nat) : Int)
        exact_mod_cast h
      rw [if_neg h']
      simp only [if_neg h]

/-- On a state with at least one layer whose stride products fit an `int`, the planner leaves
the `int` globals that `calculateNumNodesAndWeights.inRange` leaves in the `Nat` fields; in
particular its strides fit the topology (`calculateNumNodesAndWeights.inRange_planned`). -/
theorem calculateNumNodesAndWeights_layout (s : Network α) (hL : 1 ≤ s.numLayers)
    (hfitL : (s.numLayers : Int) - 1 < 2 ^ 31)
    (hfitW : ((calculateNumNodesAndWeights.inRange s).maxNodesInALayer : Int) *
      ((calculateNumNodesAndWeights.inRange s).maxNodesInALayer : Int) < 2 ^ 31)
    (hfitT : ((calculateNumNodesAndWeights.inRange s).maxNodesInALayer : Int) *
      ((calculateNumNodesAndWeights.inRange s).maxNodesInALayer : Int) *
        ((s.numLayers : Int) - 1) < 2 ^ 31) :
    calculateNumNodesAndWeights s.layout = (calculateNumNodesAndWeights.inRange s).layout := by
  obtain ⟨hl, hd, -, hw, ht⟩ := calculateNumNodesAndWeights.inRange_spec s
  obtain ⟨-, -, -, -, -, -, hw', ht'⟩ := calculateNumNodesAndWeights_spec s.layout
  have hscan := calculateNumNodesAndWeights.scan_layout s s.numLayers
  have hloop : forUp s.layout.numLayers.toNat calculateNumNodesAndWeights.layerStep s.layout =
      (forUp s.numLayers (fun layer (s : Network α) =>
        if s.layerDimensions layer > s.maxNodesInALayer then
          { s with maxNodesInALayer := s.layerDimensions layer }
        else s) s).layout := by
    rw [← hscan]
    show forUp ((s.numLayers : Int)).toNat _ _ = _
    rw [Int.toNat_natCast]
  have hmax : (calculateNumNodesAndWeights s.layout).maxNodesInALayer =
      ((calculateNumNodesAndWeights.inRange s).maxNodesInALayer : Int) := by
    show (forUp s.layout.numLayers.toNat calculateNumNodesAndWeights.layerStep
      s.layout).maxNodesInALayer = _
    rw [hloop]
    rfl
  have hmw : (calculateNumNodesAndWeights s.layout).maxWeightsInALayer =
      ((calculateNumNodesAndWeights.inRange s).maxWeightsInALayer : Int) := by
    rw [hw', hmax, hw,
      wrapInt_eq _ (le_trans (by norm_num : (-(2 ^ 31) : Int) ≤ 0) (by positivity)) hfitW]
    push_cast
    rfl
  have hcast : ((s.numLayers - 1 : Nat) : Int) = (s.numLayers : Int) - 1 := by omega
  have hL1 : (0 : Int) ≤ (s.numLayers : Int) - 1 := by omega
  apply Layout.ext
  · show (forUp s.layout.numLayers.toNat calculateNumNodesAndWeights.layerStep
      s.layout).numLayers = _
    rw [hloop]
    rfl
  · show (forUp s.layout.numLayers.toNat calculateNumNodesAndWeights.layerStep
      s.layout).numOutputNodes = _
    rw [hloop]
    rfl
  · show (forUp s.layout.numLayers.toNat calculateNumNodesAndWeights.layerStep
      s.layout).layerDimensions = _
    rw [hloop]
    rfl
  · exact hmax
  · exact hmw
  · have hT : (calculateNumNodesAndWeights s.layout).totalWeights =
        ((calculateNumNodesAndWeights.inRange s).totalWeights : Int) := by
      rw [ht', hmw, ht, hw]
      show wrapInt (_ * wrapInt ((s.numLayers : Int) - 1)) = _
      rw [wrapInt_eq ((s.numLayers : Int) - 1) (by omega) hfitL]
      push_cast
      rw [hcast, wrapInt_eq _
        (le_trans (by norm_num : (-(2 ^ 31) : Int) ≤ 0) (mul_nonneg (by positivity) hL1)) hfitT]
    exact hT

end Topology

/-! ## Empty training set, determinism of the forward pass, the evaluation sweep -/

section Evaluation

variable {α : Type} [LinearOrderedField α]

/-- With rollback enabled, the reject branch leaves offset `i` either restored (below
`totalWeights`) or as the record loop left it. -/
theorem trainForAllTrainingSets.reject_weights (s : Network α)
    (hs : s.learningFactorScaler ≠ 1) (hr : s.enableWeightRollback = 'Y')
    (hloss : trainForAllTrainingSets.newError s > s.error)
    (hlf : s.learningFactor > s.minLearningFactor) (i : Nat) :
    (trainForAllTrainingSets s).weights i =
      if i < s.totalWeights then s.weights i
      else (trainForAllTrainingSets.records s).net.weights i := by
  by_cases hi : i < s.totalWeights
  · rw [if_pos hi]
    exact (trainForAllTrainingSets.reject_spec s hs hloss hlf).2.2.1 hr i hi
  · rw [if_neg hi]
    obtain ⟨N, E, T, P, Wt, hq⟩ := trainForAllTrainingSets.records_frame s
    rw [trainForAllTrainingSets_eq, hq]
    have hcond : trainForAllTrainingSets.newError s > s.error ∧
        s.learningFactor > s.minLearningFactor := ⟨hloss, hlf⟩
    have hsnap : s.enableWeightRollback = 'Y' ∧ s.learningFactorScaler ≠ 1 := ⟨hr, hs⟩
    by_cases hc : s.learningFactor / s.learningFactorScaler > s.maxLearningFactor
    · simp only [trainForAllTrainingSets.adapt, trainForAllTrainingSets.adjust,
        trainForAllTrainingSets.cap, trainForAllTrainingSets.restore,
        trainForAllTrainingSets.snapshot, Network.withArrays_learningFactorScaler,
        Network.withArrays_error, Network.withArrays_learningFactor,
        Network.withArrays_minLearningFactor, Network.withArrays_enableWeightRollback,
        Network.withArrays_maxLearningFactor, Network.withArrays_totalWeights,
        Network.withArrays_weights, if_pos hs, if_pos hcond, if_pos hr, if_pos hsnap, if_pos hc]
      rw [copyLoop_apply, if_neg hi]
    · simp only [trainForAllTrainingSets.adapt, trainForAllTrainingSets.adjust,
        trainForAllTrainingSets.cap, trainForAllTrainingSets.restore,
        trainForAllTrainingSets.snapshot, Network.withArrays_learningFactorScaler,
        Network.withArrays_error, Network.withArrays_learningFactor,
        Network.withArrays_minLearningFactor, Network.withArrays_enableWeightRollback,
        Network.withArrays_maxLearningFactor, Network.withArrays_totalWeights,
        Network.withArrays_weights, if_pos hs, if_pos hcond, if_pos hr, if_pos hsnap, if_neg hc]
      rw [copyLoop_apply, if_neg hi]

/-- Whatever branch the controller takes, offset `i` of the weights after a sweep holds either
the value before the sweep or the value the record loop left. -/
theorem trainForAllTrainingSets.weights_cases (s : Network α) (i : Nat) :
    (trainForAllTrainingSets s).weights i = s.weights i ∨
      (trainForAllTrainingSets s).weights i = (trainForAllTrainingSets.records s).net.weights i := by
  by_cases hs : s.learningFactorScaler = 1
  · right
    rw [(trainForAllTrainingSets.off_spec s hs).2.2]
  · by_cases h1 : trainForAllTrainingSets.newError s > s.error ∧
        s.learningFactor > s.minLearningFactor
    · by_cases hr : s.enableWeightRollback = 'Y'
      · rw [trainForAllTrainingSets.reject_weights s hs hr h1.1 h1.2 i]
        by_cases hi : i < s.totalWeights
        · left; rw [if_pos hi]
        · right; rw [if_neg hi]
      · right
        rw [(trainForAllTrainingSets.reject_spec s hs h1.1 h1.2).2.2.2 hr]
    · by_cases h2 : trainForAllTrainingSets.newError s < s.error
      · right
        rw [(trainForAllTrainingSets.accept_spec s hs h2).2.2]
      · right
        rw [(trainForAllTrainingSets.hold_spec s hs h1 h2).2.2]

theorem trainForAllTrainingSets.records_empty (s : Network α) (h : s.numTrainingSets = 0) :
    trainForAllTrainingSets.records s = { net := s, index := 0, errorSum := 0 } := by
  unfold trainForAllTrainingSets.records
  rw [h, forUp_zero]

/-- C11. Empty training set: with `numTrainingSets = 0` a sweep measures the loss `0` and
leaves every weight at its value before the sweep, whatever the scaler and the rollback flag. -/
theorem trainForAllTrainingSets_empty (s : Network α) (h : s.numTrainingSets = 0) :
    trainForAllTrainingSets.newError s = 0 ∧
      ∀ i, (trainForAllTrainingSets s).weights i = s.weights i := by
  have hr := trainForAllTrainingSets.records_empty s h
  refine ⟨?_, fun i => ?_⟩
  · unfold trainForAllTrainingSets.newError
    rw [hr]
    exact mul_zero _
  · rcases trainForAllTrainingSets.weights_cases s i with h1 | h1
    · exact h1
    · rw [h1, hr]

/-- Witness for C11: `emptyNet`, rollback and adaptation on. -/
theorem trainForAllTrainingSets_empty_witness :
    trainForAllTrainingSets.newError emptyNet = 0 ∧
      ∀ i, (trainForAllTrainingSets emptyNet).weights i = emptyNet.weights i :=
  trainForAllTrainingSets_empty emptyNet rfl

/-- Two forward passes on the same topology and functions, started from states that agree on
the input layer and on the valid weights, agree on the nodes and thetas of every valid slot. -/
theorem runNetwork_agree (s₁ s₂ : Network α)
    (hwidth : ∀ m, m < s₁.numLayers → s₁.layerDimensions m ≤ s₁.maxNodesInALayer)
    (hL : s₂.numLayers = s₁.numLayers) (hD : s₂.layerDimensions = s₁.layerDimensions)
    (hW : s₂.maxNodesInALayer = s₁.maxNodesInALayer)
    (hact : s₂.activationFunction = s₁.activationFunction)
    (hout : s₂.outputFunction = s₁.outputFunction)
    (hin : ∀ k, k < s₁.layerDimensions 0 → s₂.nodes k = s₁.nodes k)
    (hw : ∀ m k j, m < s₁.numLayers - 1 → k < s₁.layerDimensions m →
      j < s₁.layerDimensions (m + 1) →
      s₂.weights (m * s₁.maxNodesInALayer * s₁.maxNodesInALayer + k * s₁.maxNodesInALayer + j) =
        s₁.weights (m * s₁.maxNodesInALayer * s₁.maxNodesInALayer + k * s₁.maxNodesInALayer + j))
    (M : Nat) (hM : M < s₁.numLayers) (j : Nat) (hj : j < s₁.layerDimensions M) :
    (runNetwork s₂).nodes (M * s₁.maxNodesInALayer + j) =
        (runNetwork s₁).nodes (M * s₁.maxNodesInALayer + j) ∧
      (1 ≤ M → (runNetwork s₂).thetas (M * s₁.maxNodesInALayer + j) =
        (runNetwork s₁).thetas (M * s₁.maxNodesInALayer + j)) := by
  have inv₁ := runNetwork_inv s₁ hwidth
  have inv₂ := runNetwork_inv s₂ (by rw [hL, hD, hW]; exact hwidth)
  induction M generalizing j with
  | zero =>
    have hjW : j < s₁.maxNodesInALayer := lt_of_lt_of_le hj (hwidth 0 hM)
    refine ⟨?_, fun h => absurd h (by omega)⟩
    rw [Nat.zero_mul, Nat.zero_add, inv₁.input j hjW, inv₂.input j (by rw [hW]; exact hjW)]
    exact hin j hj
  | succ m ih =>
    have ht₁ := inv₁.theta m j (by omega) hj
    have ht₂ := inv₂.theta m j (by rw [hL]; omega) (by rw [hD]; exact hj)
    have hn₁ := inv₁.node m j (by omega) hj
    have hn₂ := inv₂.node m j (by rw [hL]; omega) (by rw [hD]; exact hj)
    rw [hW] at ht₂ hn₂
    have hth : (runNetwork s₂).thetas ((m + 1) * s₁.maxNodesInALayer + j) =
        (runNetwork s₁).thetas ((m + 1) * s₁.maxNodesInALayer + j) := by
      rw [ht₁, ht₂]
      unfold layerTheta
      rw [hD, hW, hact]
      refine Finset.sum_congr rfl fun k hk => ?_
      have hk' : k < s₁.layerDimensions m := Finset.mem_range.mp hk
      rw [hw m k j (by omega) hk' hj, (ih (by omega) k hk').1]
    refine ⟨?_, fun _ => hth⟩
    rw [hn₁, hn₂, hout, hth]

/-- C14. Forward pass determinism and independence from unused storage: for any activation and
output functions, two states with the same topology and strides that agree on the input-layer
nodes below `layerDimensions 0` and on `weight (m, k, j)` for every valid triple give, after
`runNetwork`, the same theta and the same node value at every index `j < layerDimensions m` of
every layer `m ≥ 1`, whatever else the two states hold (padding slots, older nodes and thetas,
psis, weights at other offsets). -/
theorem runNetwork_deterministic (s₁ s₂ : Network α) (hp : Planned s₁)
    (hL : s₂.numLayers = s₁.numLayers) (hD : s₂.layerDimensions = s₁.layerDimensions)
    (hW : s₂.maxNodesInALayer = s₁.maxNodesInALayer)
    (hact : s₂.activationFunction = s₁.activationFunction)
    (hout : s₂.outputFunction = s₁.outputFunction)
    (hin : ∀ k, k < s₁.layerDimensions 0 → s₂.nodes k = s₁.nodes k)
    (hw : ∀ m k j, m < s₁.numLayers - 1 → k < s₁.layerDimensions m →
      j < s₁.layerDimensions (m + 1) →
      s₂.weights (m * s₁.maxNodesInALayer * s₁.maxNodesInALayer + k * s₁.maxNodesInALayer + j) =
        s₁.weights (m * s₁.maxNodesInALayer * s₁.maxNodesInALayer + k * s₁.maxNodesInALayer + j))
    (m j : Nat) (hm1 : 1 ≤ m) (hm : m < s₁.numLayers) (hj : j < s₁.layerDimensions m) :
    (runNetwork s₂).thetas (m * s₁.maxNodesInALayer + j) =
        (runNetwork s₁).thetas (m * s₁.maxNodesInALayer + j) ∧
      (runNetwork s₂).nodes (m * s₁.maxNodesInALayer + j) =
        (runNetwork s₁).nodes (m * s₁.maxNodesInALayer + j) :=
  ⟨(runNetwork_agree s₁ s₂ hp.width hL hD hW hact hout hin hw m hm j hj).2 hm1,
    (runNetwork_agree s₁ s₂ hp.width hL hD hW hact hout hin hw m hm j hj).1⟩

/-- Witness for C14: `demoNet` and `scrambledDemoNet`, output node (`m = 2`, `j = 0`). -/
theorem runNetwork_deterministic_witness :
    (runNetwork scrambledDemoNet).thetas (2 * demoNet.maxNodesInALayer + 0) =
        (runNetwork demoNet).thetas (2 * demoNet.maxNodesInALayer + 0) ∧
      (runNetwork scrambledDemoNet).nodes (2 * demoNet.maxNodesInALayer + 0) =
        (runNetwork demoNet).nodes (2 * demoNet.maxNodesInALayer + 0) :=
  runNetwork_deterministic demoNet scrambledDemoNet demoNet_planned rfl rfl rfl rfl rfl
    (fun k hk => by
      have hk2 : k < 2 := hk
      show (if k < 2 then demoNet.nodes k else 5) = demoNet.nodes k
      rw [if_pos hk2])
    (fun _ _ _ _ _ _ => rfl) 2 0 (by decide) (by decide) (by decide)

theorem calculateError_eq (s : Network α) :
    calculateError s =
      s.errorFunction s.expectedOutputs
        (fun i => if i < s.numOutputNodes then
          s.nodes ((s.numLayers - 1) * s.maxNodesInALayer + i) else 0)
        s.numOutputNodes := by
  unfold calculateError
  simp only []
  congr 1
  funext i
  rw [copyLoop_apply]

theorem runForAllTrainingSets.recordStep_inv (s : Network α) (hp : Planned s)
    (hL : 1 ≤ s.numLayers) (hin : s.numInputNodes = s.layerDimensions 0)
    (hout : s.numOutputNodes = s.layerDimensions (s.numLayers - 1))
    (q : Sweep α) (t : Nat) (h : EvalInv s q t) :
    EvalInv s (runForAllTrainingSets.recordStep t q) (t + 1) := by
  obtain ⟨⟨N, E, T, hq, hE⟩, hidx, hsum⟩ := h
  obtain ⟨T', N', hf⟩ := runNetwork_frame (loadRecord q).net
  have hload := loadRecord_eq q
  have hnet : (loadRecord q).net =
      s.withArrays (loadedNodes q.net q.index) (loadedTargets q.net q.index) T s.psis s.weights := by
    rw [hload, hq]
    rfl
  -- the forward pass of the threaded state agrees with the one of the fresh state
  have hagree : ∀ i, i < s.numOutputNodes →
      (runNetwork (loadRecord q).net).nodes ((s.numLayers - 1) * s.maxNodesInALayer + i) =
        (runNetwork { s with nodes := loadedNodes s (recordOffset s t) }).nodes
          ((s.numLayers - 1) * s.maxNodesInALayer + i) := by
    intro i hi
    refine (runNetwork_agree { s with nodes := loadedNodes s (recordOffset s t) }
      (loadRecord q).net hp.width ?_ ?_ ?_ ?_ ?_ ?_ ?_ (s.numLayers - 1)
      (Nat.sub_lt (Nat.lt_of_lt_of_le Nat.zero_lt_one hL) Nat.zero_lt_one) i
      (by rw [← hout]; exact hi)).1
    · rw [hnet]; rfl
    · rw [hnet]; rfl
    · rw [hnet]; rfl
    · rw [hnet]; rfl
    · rw [hnet]; rfl
    · intro k hk
      have hk' : k < s.numInputNodes := by rw [hin]; exact hk
      rw [hnet]
      show loadedNodes q.net q.index k = loadedNodes s (recordOffset s t) k
      unfold loadedNodes
      rw [hq, hidx]
      simp only [Network.withArrays_numInputNodes, Network.withArrays_trainingSets, if_pos hk']
    · intro m k j _ _ _
      rw [hnet]
      rfl
  have hT : (loadedTargets q.net q.index) = loadedTargets s (recordOffset s t) := by
    funext i
    unfold loadedTargets
    rw [hq, hidx]
    simp only [Network.withArrays_numInputNodes, Network.withArrays_numOutputNodes,
      Network.withArrays_trainingSets, Network.withArrays_expectedOutputs]
    by_cases hi : i < s.numOutputNodes
    · rw [if_pos hi, if_pos hi]
    · rw [if_neg hi, if_neg hi]
      exact hE i (by omega)
  have herr : calculateError (runNetwork (loadRecord q).net) = recordError s t := by
    rw [calculateError_eq]
    unfold recordError
    have e1 : (runNetwork (loadRecord q).net).errorFunction = s.errorFunction := by
      rw [hf, hnet]; rfl
    have e2 : (runNetwork (loadRecord q).net).expectedOutputs =
        loadedTargets s (recordOffset s t) := by
      rw [hf, hnet, ← hT]; rfl
    have e3 : (runNetwork (loadRecord q).net).numOutputNodes = s.numOutputNodes := by
      rw [hf, hnet]; rfl
    have e4 : (runNetwork (loadRecord q).net).numLayers = s.numLayers := by
      rw [hf, hnet]; rfl
    have e5 : (runNetwork (loadRecord q).net).maxNodesInALayer = s.maxNodesInALayer := by
      rw [hf, hnet]; rfl
    rw [e1, e2, e3, e4, e5]
    congr 1
    funext i
    by_cases hi : i < s.numOutputNodes
    · rw [if_pos hi, if_pos hi, hagree i hi]
    · rw [if_neg hi, if_neg hi]
  refine ⟨⟨N', loadedTargets q.net q.index, T', ?_, ?_⟩, ?_, ?_⟩
  · show runNetwork (loadRecord q).net = _
    rw [hf, hnet]
    rfl
  · intro i hi
    unfold loadedTargets
    rw [hq]
    simp only [Network.withArrays_numOutputNodes, Network.withArrays_expectedOutputs]
    rw [if_neg (by omega)]
    exact hE i hi
  · show (loadRecord q).index = _
    rw [hload]
    show q.index + q.net.numInputNodes + q.net.numOutputNodes = _
    rw [hidx, hq]
    unfold recordOffset
    simp only [Network.withArrays_numInputNodes, Network.withArrays_numOutputNodes]
    ring
  · show (loadRecord q).errorSum +
        calculateError (runNetwork (loadRecord q).net) *
          calculateError (runNetwork (loadRecord q).net) = _
    rw [herr, hload, Finset.sum_range_succ]
    show q.errorSum + _ = _
    rw [hsum]

theorem runForAllTrainingSets.records_inv (s : Network α) (hp : Planned s)
    (hL : 1 ≤ s.numLayers) (hin : s.numInputNodes = s.layerDimensions 0)
    (hout : s.numOutputNodes = s.layerDimensions (s.numLayers - 1)) (t : Nat) :
    EvalInv s (forUp t runForAllTrainingSets.recordStep { net := s, index := 0, errorSum := 0 })
      t := by
  induction t with
  | zero =>
    refine ⟨⟨s.nodes, s.expectedOutputs, s.thetas, rfl, fun _ _ => rfl⟩, ?_, ?_⟩
    · show 0 = recordOffset s 0
      unfold recordOffset
      rw [Nat.zero_mul]
    · rw [forUp_zero, Finset.range_zero, Finset.sum_empty]
  | succ t ih =>
    rw [forUp_succ]
    exact runForAllTrainingSets.recordStep_inv s hp hL hin hout _ t ih

/-- C17. Evaluation sweep: on a network state as `parseConfig` sets it up (strides that fit the
topology, `numInputNodes` and `numOutputNodes` the widths of the first and the last layer),
`runForAllTrainingSets` leaves every weight, the learning factor and the training set
unchanged and sets `error` to `0.5` times the sum, over the records `t` in load order, of the
square of `recordError s t`: the error function applied to the target vector of record `t` and
to the output layer of a forward pass on the input vector of record `t`. -/
theorem runForAllTrainingSets_spec (s : Network α) (hp : Planned s)
    (hL : 1 ≤ s.numLayers) (hin : s.numInputNodes = s.layerDimensions 0)
    (hout : s.numOutputNodes = s.layerDimensions (s.numLayers - 1)) :
    (runForAllTrainingSets s).weights = s.weights ∧
      (runForAllTrainingSets s).learningFactor = s.learningFactor ∧
      (runForAllTrainingSets s).trainingSets = s.trainingSets ∧
      (runForAllTrainingSets s).numTrainingSets = s.numTrainingSets ∧
      (runForAllTrainingSets s).error =
        0.5 * ∑ t in Finset.range s.numTrainingSets, recordError s t ^ 2 := by
  obtain ⟨⟨N, E, T, hq, _⟩, _, hsum⟩ :=
    runForAllTrainingSets.records_inv s hp hL hin hout s.numTrainingSets
  unfold runForAllTrainingSets
  simp only []
  rw [hq, hsum]
  refine ⟨rfl, rfl, rfl, rfl, ?_⟩
  show _ * (0.5 : α) = _
  rw [mul_comm]
  congr 1
  refine Finset.sum_congr rfl fun t _ => ?_
  rw [sq]

/-- Witness for C17: `tinyNet` with one record. -/
theorem runForAllTrainingSets_spec_witness :
    (runForAllTrainingSets (tinyNet 0 (1 / 2) 2 (1 / 100) 10)).weights =
        (tinyNet 0 (1 / 2) 2 (1 / 100) 10).weights ∧
      (runForAllTrainingSets (tinyNet 0 (1 / 2) 2 (1 / 100) 10)).learningFactor =
        (tinyNet 0 (1 / 2) 2 (1 / 100) 10).learningFactor ∧
      (runForAllTrainingSets (tinyNet 0 (1 / 2) 2 (1 / 100) 10)).trainingSets =
        (tinyNet 0 (1 / 2) 2 (1 / 100) 10).trainingSets ∧
      (runForAllTrainingSets (tinyNet 0 (1 / 2) 2 (1 / 100) 10)).numTrainingSets =
        (tinyNet 0 (1 / 2) 2 (1 / 100) 10).numTrainingSets ∧
      (runForAllTrainingSets (tinyNet 0 (1 / 2) 2 (1 / 100) 10)).error =
        0.5 * ∑ t in Finset.range (tinyNet 0 (1 / 2) 2 (1 / 100) 10).numTrainingSets,
          recordError (tinyNet 0 (1 / 2) 2 (1 / 100) 10) t ^ 2 :=
  runForAllTrainingSets_spec (tinyNet 0 (1 / 2) 2 (1 / 100) 10)
    (calculateNumNodesAndWeights.inRange_planned _) (by decide) rfl rfl

set_option maxHeartbeats 2000000 in
/-- Running the definitions on `demoNet` and on `stalePsiNet`: the record's pass leaves the psi
slot of hidden node `0` (offset `2`) at `-3/20` on `demoNet` and at `17/20` on `stalePsiNet`,
and moves the weight from input `0` to hidden node `0` to `183/400` on `stalePsiNet`. -/
theorem stalePsiNet_record :
    (trainForAllTrainingSets.recordStep 0 demoSweep).net.psis 2 = -(3 / 20) ∧
      (trainForAllTrainingSets.recordStep 0
        { net := stalePsiNet, index := 0, errorSum := 0 }).net.psis 2 = 17 / 20 ∧
      (trainForAllTrainingSets.recordStep 0
        { net := stalePsiNet, index := 0, errorSum := 0 }).net.weights 0 = 183 / 400 := by
  refine ⟨?_, ?_, ?_⟩
  · simp [trainForAllTrainingSets.recordStep, trainForAllTrainingSets.backward,
      trainForAllTrainingSets.hiddenStep, trainForAllTrainingSets.outputStep,
      trainForAllTrainingSets.interiorLayerStep, trainForAllTrainingSets.interiorDestStep,
      trainForAllTrainingSets.interiorSourceStep, demoSweep, loadRecord, runNetwork,
      runNetwork.layerStep, runNetwork.destStep, runNetwork.sourceStep, demoNet,
      calculateNumNodesAndWeights.inRange, forUp, forDown, Function.update_apply, relu, reluDeriv,
      identity]
    norm_num
  · simp [trainForAllTrainingSets.recordStep, trainForAllTrainingSets.backward,
      trainForAllTrainingSets.hiddenStep, trainForAllTrainingSets.outputStep,
      trainForAllTrainingSets.interiorLayerStep, trainForAllTrainingSets.interiorDestStep,
      trainForAllTrainingSets.interiorSourceStep, loadRecord, runNetwork,
      runNetwork.layerStep, runNetwork.destStep, runNetwork.sourceStep, stalePsiNet, demoNet,
      calculateNumNodesAndWeights.inRange, forUp, forDown, Function.update_apply, relu, reluDeriv,
      identity]
    norm_num
  · simp [trainForAllTrainingSets.recordStep, trainForAllTrainingSets.backward,
      trainForAllTrainingSets.hiddenStep, trainForAllTrainingSets.outputStep,
      trainForAllTrainingSets.interiorLayerStep, trainForAllTrainingSets.interiorDestStep,
      trainForAllTrainingSets.interiorSourceStep, loadRecord, runNetwork,
      runNetwork.layerStep, runNetwork.destStep, runNetwork.sourceStep, stalePsiNet, demoNet,
      calculateNumNodesAndWeights.inRange, forUp, forDown, Function.update_apply, relu, reluDeriv,
      identity]
    norm_num

/-- C18 (failing input). The states `demoNet` and `stalePsiNet` (topology `[2, 2, 1]`, one hidden
layer) hold the same weights, learning factor, node block, target block and training record, and
differ only in the psi block (`0` everywhere against `1` everywhere).  One record's pass gives
different results: the weight from input `0` to hidden node `0` ends at `203/400` on `demoNet`
and at `183/400` on `stalePsiNet`, and the psi slot of hidden node `0` at `-3/20` against
`17/20`.  The hidden psi slot is accumulated on top of what it held before the pass. -/
theorem trainForAllTrainingSets.recordStep_stale_psi :
    stalePsiNet.weights = demoNet.weights ∧
      stalePsiNet.learningFactor = demoNet.learningFactor ∧
      stalePsiNet.nodes = demoNet.nodes ∧
      stalePsiNet.expectedOutputs = demoNet.expectedOutputs ∧
      stalePsiNet.trainingSets = demoNet.trainingSets ∧
      (trainForAllTrainingSets.recordStep 0 demoSweep).net.weights 0 = 203 / 400 ∧
      (trainForAllTrainingSets.recordStep 0
        { net := stalePsiNet, index := 0, errorSum := 0 }).net.weights 0 = 183 / 400 ∧
      (trainForAllTrainingSets.recordStep 0 demoSweep).net.psis 2 = -(3 / 20) ∧
      (trainForAllTrainingSets.recordStep 0
        { net := stalePsiNet, index := 0, errorSum := 0 }).net.psis 2 = 17 / 20 :=
  ⟨rfl, rfl, rfl, rfl, rfl, demoNet_first_record.2.2, stalePsiNet_record.2.2,
    stalePsiNet_record.1, stalePsiNet_record.2.1⟩

end Evaluation

/-! ## Sigmoid networks: the scenario, gradient descent and the gradient step -/

section Sigmoid

variable {α : Type} [LinearOrderedField α]

/-- The forward pass of the scenario network: both hidden nodes hold `h = sigmoid 0.5·0.1+0.5·0.9`
and the output node holds `sigmoid (0.5·h + 0.5·h)`. -/
theorem scenarioNet_forward (exp : α → α) :
    (runNetwork (scenarioNet exp)).nodes 4 =
      sigmoid exp (0.5 * sigmoid exp (0.5 * 0.1 + 0.5 * 0.9) +
        0.5 * sigmoid exp (0.5 * 0.1 + 0.5 * 0.9)) := by
  simp [runNetwork, runNetwork.layerStep, runNetwork.destStep, runNetwork.sourceStep,
    scenarioNet, calculateNumNodesAndWeights.inRange, forUp, Function.update_apply, identity]

/-- The two hidden nodes of the scenario network, at offsets `2` and `3` of `nodes`, after the
forward pass. -/
theorem scenarioNet_hidden (exp : α → α) :
    (runNetwork (scenarioNet exp)).nodes 2 = sigmoid exp (0.5 * 0.1 + 0.5 * 0.9) ∧
      (runNetwork (scenarioNet exp)).nodes 3 = sigmoid exp (0.5 * 0.1 + 0.5 * 0.9) := by
  constructor
  · simp [runNetwork, runNetwork.layerStep, runNetwork.destStep, runNetwork.sourceStep,
      scenarioNet, calculateNumNodesAndWeights.inRange, forUp, Function.update_apply, identity]
  · simp [runNetwork, runNetwork.layerStep, runNetwork.destStep, runNetwork.sourceStep,
      scenarioNet, calculateNumNodesAndWeights.inRange, forUp, Function.update_apply, identity]

/-- The output node of the scenario network sits at offset `4` of `nodes`. -/
theorem scenarioNet_output_offset (exp : α → α) :
    ((scenarioNet exp).numLayers - 1) * (scenarioNet exp).maxNodesInALayer + 0 = 4 := by
  rfl

theorem sigmoid_pos (x : ℝ) : 0 < sigmoid Real.exp x := by
  unfold sigmoid
  have := Real.exp_pos (-x)
  positivity

theorem sigmoid_lt_one (x : ℝ) : sigmoid Real.exp x < 1 := by
  unfold sigmoid
  have := Real.exp_pos (-x)
  rw [div_lt_one (by linarith)]
  linarith

theorem sigmoid_injective (a b : ℝ) (h : sigmoid Real.exp a = sigmoid Real.exp b) : a = b := by
  unfold sigmoid at h
  have ha := Real.exp_pos (-a)
  have hb := Real.exp_pos (-b)
  rw [div_eq_div_iff (by linarith) (by linarith)] at h
  have : Real.exp (-a) = Real.exp (-b) := by linarith
  have := Real.exp_injective this
  linarith

/-- C15 (as stated, refuted). After the forward pass of the scenario network the output node
does not hold `sigmoid (0.5 * sigmoid (0.5 * 0.1 + 0.5 * 0.9))`. -/
theorem scenarioNet_counterexample :
    (runNetwork (scenarioNet Real.exp)).nodes 4 ≠
      sigmoid Real.exp (0.5 * sigmoid Real.exp (0.5 * 0.1 + 0.5 * 0.9)) := by
  rw [scenarioNet_forward]
  intro h
  have h1 := sigmoid_injective _ _ h
  have h2 := sigmoid_pos (0.5 * 0.1 + 0.5 * 0.9)
  linarith

/-- C15 (amended). For the topology `[2, 2, 1]` with every weight `0.5`, input `[0.1, 0.9]`,
identity activation and sigmoid output over the reals, the output node after one forward pass
holds `sigmoid (0.5 * h + 0.5 * h)`, that is `sigmoid h`, with
`h = sigmoid (0.5 * 0.1 + 0.5 * 0.9)` the value of each of the two hidden nodes (offsets `2`
and `3` of `nodes`). -/
theorem scenarioNet_output :
    (runNetwork (scenarioNet Real.exp)).nodes 4 =
        sigmoid Real.exp (0.5 * sigmoid Real.exp (0.5 * 0.1 + 0.5 * 0.9) +
          0.5 * sigmoid Real.exp (0.5 * 0.1 + 0.5 * 0.9)) ∧
      (runNetwork (scenarioNet Real.exp)).nodes 4 =
        sigmoid Real.exp (sigmoid Real.exp (0.5 * 0.1 + 0.5 * 0.9)) ∧
      (runNetwork (scenarioNet Real.exp)).nodes 2 = sigmoid Real.exp (0.5 * 0.1 + 0.5 * 0.9) ∧
      (runNetwork (scenarioNet Real.exp)).nodes 3 = sigmoid Real.exp (0.5 * 0.1 + 0.5 * 0.9) := by
  refine ⟨scenarioNet_forward Real.exp, ?_, (scenarioNet_hidden Real.exp).1,
    (scenarioNet_hidden Real.exp).2⟩
  rw [scenarioNet_forward]
  congr 1
  ring

/-- Closed form of the forward pass of a record on a state whose first layer has
`numInputNodes` nodes: the input layer holds the record's input vector, every theta above it
is the weighted sum over the layer below and every node above it the output function of its
theta; the target block holds the record's target vector. -/
theorem trainForAllTrainingSets.forward_spec (p : Sweep α) (hp : Planned p.net)
    (hL : 1 ≤ p.net.numLayers) (hin : p.net.numInputNodes = p.net.layerDimensions 0) :
    ∃ T N, trainForAllTrainingSets.forward p =
        (p.net.withRecord N (loadedTargets p.net p.index)).withForward T N ∧
      (∀ k, k < p.net.layerDimensions 0 → N k = p.net.trainingSets (p.index + k)) ∧
      ∀ m j, m < p.net.numLayers - 1 → j < p.net.layerDimensions (m + 1) →
        T ((m + 1) * p.net.maxNodesInALayer + j) = layerTheta p.net N m j ∧
          N ((m + 1) * p.net.maxNodesInALayer + j) =
            p.net.outputFunction (T ((m + 1) * p.net.maxNodesInALayer + j)) := by
  have hinv := runNetwork_inv
    (p.net.withRecord (loadedNodes p.net p.index) (loadedTargets p.net p.index)) hp.width
  obtain ⟨T, N, hf⟩ := hinv.frame
  have hF : trainForAllTrainingSets.forward p =
      (p.net.withRecord N (loadedTargets p.net p.index)).withForward T N := by
    unfold trainForAllTrainingSets.forward
    rw [loadRecord_eq]
    exact hf
  refine ⟨T, N, hF, ?_, ?_⟩
  · intro k hk
    have h1 := hinv.input k (lt_of_lt_of_le hk (hp.width 0 (by omega)))
    rw [hf] at h1
    have h2 : N k = loadedNodes p.net p.index k := h1
    rw [h2]
    unfold loadedNodes
    rw [if_pos (by omega)]
  · intro m j hm hj
    have h1 := hinv.theta m j hm hj
    have h2 := hinv.node m j hm hj
    rw [hf] at h1 h2
    exact ⟨h1, h2⟩

/-- The error one record's pass hands to the sweep is the error function applied to the
record's target vector and to the output layer of the record's forward pass. -/
theorem trainForAllTrainingSets.recordStep_errorSum (t : Nat) (p : Sweep α) :
    (trainForAllTrainingSets.recordStep t p).errorSum =
      p.errorSum +
        p.net.errorFunction (trainForAllTrainingSets.forward p).expectedOutputs
            (fun i => if i < p.net.numOutputNodes then
              (trainForAllTrainingSets.forward p).nodes
                ((p.net.numLayers - 1) * p.net.maxNodesInALayer + i) else 0)
            p.net.numOutputNodes *
          p.net.errorFunction (trainForAllTrainingSets.forward p).expectedOutputs
            (fun i => if i < p.net.numOutputNodes then
              (trainForAllTrainingSets.forward p).nodes
                ((p.net.numLayers - 1) * p.net.maxNodesInALayer + i) else 0)
            p.net.numOutputNodes := by
  have h2 : (loadRecord p).errorSum = p.errorSum := by rw [loadRecord_eq]
  have h : (trainForAllTrainingSets.recordStep t p).errorSum =
      (loadRecord p).errorSum +
        calculateError (trainForAllTrainingSets.backward (trainForAllTrainingSets.forward p)) *
        calculateError (trainForAllTrainingSets.backward (trainForAllTrainingSets.forward p)) :=
    rfl
  rw [h, h2, calculateError_eq]
  obtain ⟨P, Wt, hb⟩ := trainForAllTrainingSets.backward_frame (trainForAllTrainingSets.forward p)
  obtain ⟨E, T, N, hf⟩ := trainForAllTrainingSets.forward_frame p
  rw [hb, hf]
  rfl

/-- With one training record, the record loop of a sweep is one record's pass from offset
`0`. -/
theorem trainForAllTrainingSets.records_single (s : Network α) (hT : s.numTrainingSets = 1) :
    trainForAllTrainingSets.records s =
      trainForAllTrainingSets.recordStep 0 { net := s, index := 0, errorSum := 0 } := by
  unfold trainForAllTrainingSets.records
  rw [hT]
  rfl

/-- The loss a sweep measures on a 2-layer network with one training record and the
`quadraticLoss` error function, in terms of the theta of output node `0`. -/
theorem trainForAllTrainingSets.newError_single (s : Network α) (hp : Planned s)
    (hL : s.numLayers = 2) (hin : s.numInputNodes = s.layerDimensions 0)
    (hout : s.numOutputNodes = s.layerDimensions 1) (hE : s.errorFunction = quadraticLoss)
    (hT : s.numTrainingSets = 1) :
    trainForAllTrainingSets.newError s =
      0.5 * ((0.5 * (s.numOutputNodes *
          ((s.trainingSets s.numInputNodes -
              s.outputFunction (layerTheta s s.trainingSets 0 0)) *
            (s.trainingSets s.numInputNodes -
              s.outputFunction (layerTheta s s.trainingSets 0 0))))) *
        (0.5 * (s.numOutputNodes *
          ((s.trainingSets s.numInputNodes -
              s.outputFunction (layerTheta s s.trainingSets 0 0)) *
            (s.trainingSets s.numInputNodes -
              s.outputFunction (layerTheta s s.trainingSets 0 0)))))) := by
  unfold trainForAllTrainingSets.newError
  rw [trainForAllTrainingSets.records_single s hT,
    trainForAllTrainingSets.recordStep_errorSum]
  obtain ⟨T, N, hF, hN, hTN⟩ := trainForAllTrainingSets.forward_spec
    { net := s, index := 0, errorSum := 0 } hp (by show 1 ≤ s.numLayers; omega) hin
  rw [hF]
  simp only [Network.withForward_expectedOutputs, Network.withForward_nodes,
    Network.withRecord_expectedOutputs]
  rw [hE, quadraticLoss_eq, zero_add]
  by_cases h0 : s.numOutputNodes = 0
  · rw [h0]
    simp
  · have hpos : 0 < s.numOutputNodes := Nat.pos_of_ne_zero h0
    have hj : 0 < s.layerDimensions (0 + 1) := by rw [← hout]; exact hpos
    obtain ⟨h1, h2⟩ := hTN 0 0 (by show 0 < s.numLayers - 1; omega) hj
    have hth : layerTheta s N 0 0 = layerTheta s s.trainingSets 0 0 := by
      apply layerTheta_congr
      intro k hk
      have := hN k hk
      simp only [zero_mul, zero_add] at this ⊢
      exact this
    have hnode : N ((s.numLayers - 1) * s.maxNodesInALayer + 0) =
        s.outputFunction (layerTheta s s.trainingSets 0 0) := by
      have e : (s.numLayers - 1) * s.maxNodesInALayer + 0 = (0 + 1) * s.maxNodesInALayer + 0 := by
        rw [hL]
      rw [e, h2, h1, hth]
    have htar : loadedTargets s 0 0 = s.trainingSets s.numInputNodes := by
      unfold loadedTargets
      rw [if_pos hpos]
      simp
    simp only [if_pos hpos]
    rw [hnode, htar]

/-- The weights a sweep leaves on a 2-layer network with one training record and adaptation
off: weight `(k, i)` has moved by `-learningFactor * input k * psi i`, where `psi i` is built
from the theta of output node `i` under the weights held before the sweep. -/
theorem trainForAllTrainingSets.weights_single (s : Network α) (hp : Planned s)
    (hL : s.numLayers = 2) (hin : s.numInputNodes = s.layerDimensions 0)
    (hout : s.numOutputNodes = s.layerDimensions 1)
    (hT : s.numTrainingSets = 1) (hs : s.learningFactorScaler = 1) (k i : Nat)
    (hk : k < s.layerDimensions 0) (hi : i < s.layerDimensions 1) :
    (trainForAllTrainingSets s).weights
        (0 * s.maxNodesInALayer * s.maxNodesInALayer + k * s.maxNodesInALayer + i) =
      s.weights (0 * s.maxNodesInALayer * s.maxNodesInALayer + k * s.maxNodesInALayer + i) -
        s.learningFactor * s.trainingSets k *
          ((s.outputFunction (layerTheta s s.trainingSets 0 i) -
              s.trainingSets (s.numInputNodes + i)) *
            s.outputDerivFunction (layerTheta s s.trainingSets 0 i)) := by
  rw [(trainForAllTrainingSets.off_spec s hs).2.2, trainForAllTrainingSets.records_single s hT,
    trainForAllTrainingSets.recordStep_net]
  obtain ⟨T, N, hF, hN, hTN⟩ := trainForAllTrainingSets.forward_spec
    { net := s, index := 0, errorSum := 0 } hp (by show 1 ≤ s.numLayers; omega) hin
  have hpF : Planned (trainForAllTrainingSets.forward { net := s, index := 0, errorSum := 0 }) := by
    rw [hF]
    exact (hp.withRecord _ _).withForward _ _
  have hw := trainForAllTrainingSets.backward_weights_output _ hpF
    (by rw [hF]; show 2 ≤ s.numLayers; omega) k i
    (by rw [hF]; show k < s.layerDimensions (s.numLayers - 2); rw [hL]; exact hk)
    (by rw [hF]; show i < s.layerDimensions (s.numLayers - 1); rw [hL]; exact hi)
  rw [hF] at hw ⊢
  simp only [Network.withForward_maxWeightsInALayer, Network.withForward_maxNodesInALayer,
    Network.withForward_numLayers, Network.withForward_weights,
    Network.withRecord_maxWeightsInALayer, Network.withRecord_maxNodesInALayer,
    Network.withRecord_numLayers, Network.withRecord_weights] at hw
  have hidx : s.maxWeightsInALayer * (s.numLayers - 2) + s.maxNodesInALayer * k + i =
      0 * s.maxNodesInALayer * s.maxNodesInALayer + k * s.maxNodesInALayer + i := by
    rw [hL, Nat.mul_comm s.maxNodesInALayer k]
    simp
  rw [hidx] at hw
  rw [hw]
  congr 1
  obtain ⟨h1, h2⟩ := hTN 0 i (by show 0 < s.numLayers - 1; omega) hi
  have hth : layerTheta s N 0 i = layerTheta s s.trainingSets 0 i := by
    apply layerTheta_congr
    intro k hk
    have := hN k hk
    simp only [zero_mul, zero_add] at this ⊢
    exact this
  have hNk : N (s.maxNodesInALayer * (s.numLayers - 2) + k) = s.trainingSets k := by
    have := hN k hk
    simp only [zero_add] at this
    rw [hL]
    simpa using this
  have hnode : N (s.maxNodesInALayer * (s.numLayers - 1) + i) =
      s.outputFunction (layerTheta s s.trainingSets 0 i) := by
    have e : s.maxNodesInALayer * (s.numLayers - 1) + i = (0 + 1) * s.maxNodesInALayer + i := by
      rw [hL]
      simp
    rw [e, h2, h1, hth]
  have hth2 : T (s.maxNodesInALayer * (s.numLayers - 1) + i) =
      layerTheta s s.trainingSets 0 i := by
    have e : s.maxNodesInALayer * (s.numLayers - 1) + i = (0 + 1) * s.maxNodesInALayer + i := by
      rw [hL]
      simp
    rw [e, h1, hth]
  have htar : loadedTargets s 0 i = s.trainingSets (s.numInputNodes + i) := by
    unfold loadedTargets
    rw [if_pos (by omega)]
    simp
  show outputDelta ((s.withRecord N (loadedTargets s 0)).withForward T N) k i = _
  unfold outputDelta psiOut
  simp only [Network.withForward_maxNodesInALayer, Network.withForward_numLayers,
    Network.withForward_nodes, Network.withForward_thetas, Network.withForward_learningFactor,
    Network.withForward_expectedOutputs, Network.withForward_outputDerivFunction,
    Network.withRecord_maxNodesInALayer, Network.withRecord_numLayers,
    Network.withRecord_learningFactor,
    Network.withRecord_expectedOutputs, Network.withRecord_outputDerivFunction]
  rw [hNk, hnode, hth2, htar]

/-- The theta of output node `i` after a sweep of a 2-layer network with one training record,
identity activation and adaptation off: one gradient step of size
`learningFactor * inputEnergy`. -/
theorem trainForAllTrainingSets.theta_single (s : Network α) (hp : Planned s)
    (hL : s.numLayers = 2) (hin : s.numInputNodes = s.layerDimensions 0)
    (hout : s.numOutputNodes = s.layerDimensions 1)
    (hT : s.numTrainingSets = 1) (hs : s.learningFactorScaler = 1)
    (hact : s.activationFunction = identity) (i : Nat) (hi : i < s.layerDimensions 1) :
    layerTheta (trainForAllTrainingSets s) s.trainingSets 0 i =
      layerTheta s s.trainingSets 0 i -
        s.learningFactor * inputEnergy s *
          ((s.outputFunction (layerTheta s s.trainingSets 0 i) -
              s.trainingSets (s.numInputNodes + i)) *
            s.outputDerivFunction (layerTheta s s.trainingSets 0 i)) := by
  have hw := fun k hk =>
    trainForAllTrainingSets.weights_single s hp hL hin hout hT hs k i hk hi
  generalize (s.outputFunction (layerTheta s s.trainingSets 0 i) -
              s.trainingSets (s.numInputNodes + i)) *
            s.outputDerivFunction (layerTheta s s.trainingSets 0 i) = ψ at hw ⊢
  have hc := trainForAllTrainingSets_sameConfig s
  unfold layerTheta inputEnergy
  rw [hc.layerDimensions, hc.maxNodesInALayer, hc.activationFunction, hact]
  simp only [identity]
  rw [Finset.mul_sum, Finset.sum_mul, ← Finset.sum_sub_distrib]
  apply Finset.sum_congr rfl
  intro k hk
  rw [hw k (Finset.mem_range.mp hk)]
  simp only [zero_mul, zero_add]
  ring

theorem SingleRecordSigmoid.sweep {exp : α → α} {s : Network α}
    (h : SingleRecordSigmoid exp s) : SingleRecordSigmoid exp (trainForAllTrainingSets s) := by
  have hc := trainForAllTrainingSets_sameConfig s
  refine ⟨⟨?_, ?_⟩, ?_, ?_, ?_, ?_, ?_, ?_, ?_, ?_, ?_⟩
  · intro m hm
    rw [hc.layerDimensions, hc.maxNodesInALayer]
    exact h.planned.width m (by rw [← hc.numLayers]; exact hm)
  · rw [hc.maxWeightsInALayer, hc.maxNodesInALayer]
    exact h.planned.block
  · rw [hc.numLayers]; exact h.numLayers
  · rw [hc.numInputNodes, hc.layerDimensions]; exact h.numInputNodes
  · rw [hc.numOutputNodes, hc.layerDimensions]; exact h.numOutputNodes
  · rw [hc.activationFunction]; exact h.activationFunction
  · rw [hc.outputFunction]; exact h.outputFunction
  · rw [hc.outputDerivFunction]; exact h.outputDerivFunction
  · rw [hc.errorFunction]; exact h.errorFunction
  · rw [hc.numTrainingSets]; exact h.numTrainingSets
  · rw [hc.learningFactorScaler]; exact h.learningFactorScaler

theorem inputEnergy_sweep (s : Network α) :
    inputEnergy (trainForAllTrainingSets s) = inputEnergy s := by
  have hc := trainForAllTrainingSets_sameConfig s
  unfold inputEnergy
  rw [hc.layerDimensions, hc.trainingSets]

theorem inputEnergy_nonneg (s : Network α) : 0 ≤ inputEnergy s :=
  Finset.sum_nonneg fun k _ => mul_self_nonneg (s.trainingSets k)

theorem sigmoid_mono (a b : ℝ) (h : a ≤ b) : sigmoid Real.exp a ≤ sigmoid Real.exp b := by
  unfold sigmoid
  have h1 : Real.exp (-b) ≤ Real.exp (-a) := Real.exp_le_exp.mpr (by linarith)
  have hb : 0 < 1 + Real.exp (-b) := by positivity
  exact one_div_le_one_div_of_le hb (by linarith)

/-- The real sigmoid is 1-Lipschitz. -/
theorem sigmoid_sub_le (a b : ℝ) (h : a ≤ b) :
    sigmoid Real.exp b - sigmoid Real.exp a ≤ b - a := by
  unfold sigmoid
  have ha : 0 < Real.exp (-a) := Real.exp_pos _
  have hb : 0 < Real.exp (-b) := Real.exp_pos _
  have hab : Real.exp (-b) = Real.exp (-a) * Real.exp (-(b - a)) := by
    rw [← Real.exp_add]
    congr 1
    ring
  have hle : 1 - (b - a) ≤ Real.exp (-(b - a)) := by
    have := Real.add_one_le_exp (-(b - a))
    linarith
  have hle1 : Real.exp (-(b - a)) ≤ 1 := Real.exp_le_one_iff.mpr (by linarith)
  have key : 1 / (1 + Real.exp (-b)) - 1 / (1 + Real.exp (-a)) =
      (Real.exp (-a) - Real.exp (-b)) / ((1 + Real.exp (-b)) * (1 + Real.exp (-a))) := by
    field_simp
  rw [key, div_le_iff₀ (by positivity)]
  have h1 : Real.exp (-a) - Real.exp (-b) ≤ Real.exp (-a) * (b - a) := by
    rw [hab]
    nlinarith
  have h2 : Real.exp (-a) * (b - a) ≤
      (b - a) * ((1 + Real.exp (-b)) * (1 + Real.exp (-a))) := by
    have hba : 0 ≤ b - a := by linarith
    nlinarith [mul_nonneg hba ha.le, mul_nonneg hba (mul_pos ha hb).le]
  linarith

theorem sigmoidDeriv_bounds (x : ℝ) :
    0 ≤ sigmoidDeriv Real.exp x ∧ sigmoidDeriv Real.exp x ≤ 1 := by
  have h0 := sigmoid_pos x
  have h1 := sigmoid_lt_one x
  unfold sigmoidDeriv
  constructor
  · show 0 ≤ sigmoid Real.exp x * (1 - sigmoid Real.exp x)
    nlinarith
  · show sigmoid Real.exp x * (1 - sigmoid Real.exp x) ≤ 1
    nlinarith

/-- One gradient step on the theta of a sigmoid node with step size `c ∈ [0, 1]` does not
increase the squared distance of the node's value to the target. -/
theorem sigmoid_step (θ e c : ℝ) (hc0 : 0 ≤ c) (hc1 : c ≤ 1) :
    (e - sigmoid Real.exp
        (θ - c * ((sigmoid Real.exp θ - e) * sigmoidDeriv Real.exp θ))) *
      (e - sigmoid Real.exp
        (θ - c * ((sigmoid Real.exp θ - e) * sigmoidDeriv Real.exp θ))) ≤
      (e - sigmoid Real.exp θ) * (e - sigmoid Real.exp θ) := by
  obtain ⟨hd0, hd1⟩ := sigmoidDeriv_bounds θ
  set d := sigmoid Real.exp θ - e with hd
  set g := sigmoidDeriv Real.exp θ with hg
  have hcg0 : 0 ≤ c * g := mul_nonneg hc0 hd0
  have hcg1 : c * g ≤ 1 := by nlinarith
  have hstep : c * (d * g) = (c * g) * d := by ring
  rw [hstep]
  rcases le_total 0 d with hpos | hneg
  · have hle : θ - c * g * d ≤ θ := by nlinarith
    have hm := sigmoid_mono _ _ hle
    have hl := sigmoid_sub_le _ _ hle
    have hl' : sigmoid Real.exp θ - sigmoid Real.exp (θ - c * g * d) ≤ d := by nlinarith
    nlinarith
  · have hle : θ ≤ θ - c * g * d := by nlinarith
    have hm := sigmoid_mono _ _ hle
    have hl := sigmoid_sub_le _ _ hle
    have hl' : sigmoid Real.exp (θ - c * g * d) - sigmoid Real.exp θ ≤ -d := by nlinarith
    nlinarith

/-- One sweep in the setting of the monotonicity check, with
`learningFactor * inputEnergy ∈ [0, 1]`: the next sweep measures no greater a loss. -/
theorem trainForAllTrainingSets.newError_sweep_le (s : Network ℝ)
    (h : SingleRecordSigmoid Real.exp s) (h0 : 0 ≤ s.learningFactor * inputEnergy s)
    (h1 : s.learningFactor * inputEnergy s ≤ 1) :
    trainForAllTrainingSets.newError (trainForAllTrainingSets s) ≤
      trainForAllTrainingSets.newError s := by
  have h' := h.sweep
  have hc := trainForAllTrainingSets_sameConfig s
  rw [trainForAllTrainingSets.newError_single _ h'.planned h'.numLayers h'.numInputNodes
      h'.numOutputNodes h'.errorFunction h'.numTrainingSets,
    trainForAllTrainingSets.newError_single _ h.planned h.numLayers h.numInputNodes
      h.numOutputNodes h.errorFunction h.numTrainingSets]
  rw [hc.numOutputNodes, hc.trainingSets, hc.numInputNodes, hc.outputFunction]
  by_cases hz : s.numOutputNodes = 0
  · rw [hz]
    simp
  · have hi : 0 < s.layerDimensions 1 := by
      rw [← h.numOutputNodes]
      exact Nat.pos_of_ne_zero hz
    have hth := trainForAllTrainingSets.theta_single s h.planned h.numLayers h.numInputNodes
      h.numOutputNodes h.numTrainingSets h.learningFactorScaler h.activationFunction 0 hi
    rw [hth, h.outputFunction, h.outputDerivFunction]
    have hst := sigmoid_step (layerTheta s s.trainingSets 0 0)
      (s.trainingSets (s.numInputNodes + 0)) (s.learningFactor * inputEnergy s) h0 h1
    rw [Nat.add_zero] at hst ⊢
    have hn : (0 : ℝ) ≤ (s.numOutputNodes : ℝ) := Nat.cast_nonneg _
    have ha := mul_self_nonneg (s.trainingSets s.numInputNodes -
      sigmoid Real.exp (layerTheta s s.trainingSets 0 0 -
        s.learningFactor * inputEnergy s *
          ((sigmoid Real.exp (layerTheta s s.trainingSets 0 0) -
            s.trainingSets s.numInputNodes) *
            sigmoidDeriv Real.exp (layerTheta s s.trainingSets 0 0))))
    have hx : 0.5 * ((s.numOutputNodes : ℝ) * ((s.trainingSets s.numInputNodes -
      sigmoid Real.exp (layerTheta s s.trainingSets 0 0 -
        s.learningFactor * inputEnergy s *
          ((sigmoid Real.exp (layerTheta s s.trainingSets 0 0) -
            s.trainingSets s.numInputNodes) *
            sigmoidDeriv Real.exp (layerTheta s s.trainingSets 0 0)))) *
      (s.trainingSets s.numInputNodes -
      sigmoid Real.exp (layerTheta s s.trainingSets 0 0 -
        s.learningFactor * inputEnergy s *
          ((sigmoid Real.exp (layerTheta s s.trainingSets 0 0) -
            s.trainingSets s.numInputNodes) *
            sigmoidDeriv Real.exp (layerTheta s s.trainingSets 0 0)))))) ≤
        0.5 * ((s.numOutputNodes : ℝ) * ((s.trainingSets s.numInputNodes -
          sigmoid Real.exp (layerTheta s s.trainingSets 0 0)) *
          (s.trainingSets s.numInputNodes -
          sigmoid Real.exp (layerTheta s s.trainingSets 0 0)))) :=
      mul_le_mul_of_nonneg_left (mul_le_mul_of_nonneg_left hst hn) (by norm_num)
    have hx0 : 0 ≤ 0.5 * ((s.numOutputNodes : ℝ) * ((s.trainingSets s.numInputNodes -
      sigmoid Real.exp (layerTheta s s.trainingSets 0 0 -
        s.learningFactor * inputEnergy s *
          ((sigmoid Real.exp (layerTheta s s.trainingSets 0 0) -
            s.trainingSets s.numInputNodes) *
            sigmoidDeriv Real.exp (layerTheta s s.trainingSets 0 0)))) *
      (s.trainingSets s.numInputNodes -
      sigmoid Real.exp (layerTheta s s.trainingSets 0 0 -
        s.learningFactor * inputEnergy s *
          ((sigmoid Real.exp (layerTheta s s.trainingSets 0 0) -
            s.trainingSets s.numInputNodes) *
            sigmoidDeriv Real.exp (layerTheta s s.trainingSets 0 0)))))) :=
      mul_nonneg (by norm_num) (mul_nonneg hn ha)
    exact mul_le_mul_of_nonneg_left (mul_le_mul hx hx hx0 (le_trans hx0 hx)) (by norm_num)

/-- Along the iterates of the sweep the measured loss never rises, in the setting of the
monotonicity check with `learningFactor * inputEnergy ∈ [0, 1]`. -/
theorem trainForAllTrainingSets.newError_iterate_le (n : Nat) (s : Network ℝ)
    (h : SingleRecordSigmoid Real.exp s) (h0 : 0 ≤ s.learningFactor * inputEnergy s)
    (h1 : s.learningFactor * inputEnergy s ≤ 1) :
    trainForAllTrainingSets.newError (trainForAllTrainingSets^[n + 1] s) ≤
      trainForAllTrainingSets.newError (trainForAllTrainingSets^[n] s) := by
  induction n generalizing s with
  | zero => exact trainForAllTrainingSets.newError_sweep_le s h h0 h1
  | succ n ih =>
    rw [Function.iterate_succ_apply, Function.iterate_succ_apply trainForAllTrainingSets n s]
    have hlf := (trainForAllTrainingSets.off_spec s h.learningFactorScaler).2.1
    apply ih (trainForAllTrainingSets s) h.sweep
    · rw [hlf, inputEnergy_sweep]
      exact h0
    · rw [hlf, inputEnergy_sweep]
      exact h1

/-- C16. Gradient-descent monotonicity: for every 2-layer network as `parseConfig` sets it up
(strides fitting the topology, `numInputNodes` and `numOutputNodes` the widths of the two
layers) with identity activation, `sigmoid` output and `sigmoidDeriv` over the reals, the
`quadraticLoss` error function, one training record and `scaler = 1`, whatever the weights, there
is a bound `B > 0` such that for every learning factor `lr` in `(0, B]` held from the start,
the loss measured by sweep `n + 1` is at most the loss measured by sweep `n`, for every `n`. -/
theorem trainForAllTrainingSets_monotone (s : Network ℝ) (hp : Planned s)
    (hL : s.numLayers = 2) (hin : s.numInputNodes = s.layerDimensions 0)
    (hout : s.numOutputNodes = s.layerDimensions 1)
    (hact : s.activationFunction = identity) (hO : s.outputFunction = sigmoid Real.exp)
    (hD : s.outputDerivFunction = sigmoidDeriv Real.exp) (hE : s.errorFunction = quadraticLoss)
    (hT : s.numTrainingSets = 1) (hs : s.learningFactorScaler = 1) :
    ∃ B : ℝ, 0 < B ∧ ∀ lr : ℝ, 0 < lr → lr ≤ B → ∀ n : Nat,
      trainForAllTrainingSets.newError
          (trainForAllTrainingSets^[n + 1] { s with learningFactor := lr }) ≤
        trainForAllTrainingSets.newError
          (trainForAllTrainingSets^[n] { s with learningFactor := lr }) := by
  have hX := inputEnergy_nonneg s
  refine ⟨1 / (1 + inputEnergy s), by positivity, fun lr hlr0 hlr1 n => ?_⟩
  have hset : SingleRecordSigmoid Real.exp { s with learningFactor := lr } :=
    ⟨⟨hp.width, hp.block⟩, hL, hin, hout, hact, hO, hD, hE, hT, hs⟩
  have h0 : 0 ≤ lr * inputEnergy s := mul_nonneg hlr0.le hX
  have h1 : lr * inputEnergy s ≤ 1 / (1 + inputEnergy s) * inputEnergy s :=
    mul_le_mul_of_nonneg_right hlr1 hX
  have h2 : 1 / (1 + inputEnergy s) * inputEnergy s ≤ 1 := by
    rw [one_div, inv_mul_le_iff₀ (by positivity)]
    linarith
  exact trainForAllTrainingSets.newError_iterate_le n { s with learningFactor := lr } hset
    h0 (le_trans h1 h2)

/-- Witness for C16: the `[2, 1]` network `descentNet` over the reals. -/
theorem trainForAllTrainingSets_monotone_witness :
    ∃ B : ℝ, 0 < B ∧ ∀ lr : ℝ, 0 < lr → lr ≤ B → ∀ n : Nat,
      trainForAllTrainingSets.newError
          (trainForAllTrainingSets^[n + 1] { descentNet Real.exp with learningFactor := lr }) ≤
        trainForAllTrainingSets.newError
          (trainForAllTrainingSets^[n] { descentNet Real.exp with learningFactor := lr }) :=
  trainForAllTrainingSets_monotone (descentNet Real.exp)
    (calculateNumNodesAndWeights.inRange_planned _) rfl rfl rfl rfl rfl rfl rfl rfl rfl

/-- Closed form of the first computed layer of `runNetwork` with identity activation. -/
theorem runNetwork_layer_one (q : Network α) (hp : Planned q) (hL : 2 ≤ q.numLayers)
    (hact : q.activationFunction = identity) (j : Nat) (hj : j < q.layerDimensions 1) :
    (runNetwork q).thetas (1 * q.maxNodesInALayer + j) =
        layerSum q.maxNodesInALayer (q.layerDimensions 0) q.weights q.nodes 0 j ∧
      (runNetwork q).nodes (1 * q.maxNodesInALayer + j) =
        q.outputFunction
          (layerSum q.maxNodesInALayer (q.layerDimensions 0) q.weights q.nodes 0 j) := by
  have hinv := runNetwork_inv q hp.width
  have h1 := hinv.theta 0 j (by omega) hj
  have h2 := hinv.node 0 j (by omega) hj
  have hth : (runNetwork q).thetas (1 * q.maxNodesInALayer + j) =
      layerSum q.maxNodesInALayer (q.layerDimensions 0) q.weights q.nodes 0 j := by
    rw [show 1 * q.maxNodesInALayer + j = (0 + 1) * q.maxNodesInALayer + j by rfl, h1]
    unfold layerTheta layerSum
    apply Finset.sum_congr rfl
    intro k hk
    have hk' := Finset.mem_range.mp hk
    rw [hact, hinv.input (0 * q.maxNodesInALayer + k)
      (by have := hp.width 0 (by omega); omega)]
    simp [identity]
  refine ⟨hth, ?_⟩
  rw [← hth]
  exact h2

/-- Closed form of the second computed layer of `runNetwork` with identity activation. -/
theorem runNetwork_layer_two (q : Network α) (hp : Planned q) (hL : 3 ≤ q.numLayers)
    (hact : q.activationFunction = identity) (i : Nat) (hi : i < q.layerDimensions 2) :
    (runNetwork q).thetas (2 * q.maxNodesInALayer + i) =
        layerSum q.maxNodesInALayer (q.layerDimensions 1) q.weights
          (fun j => q.outputFunction
            (layerSum q.maxNodesInALayer (q.layerDimensions 0) q.weights q.nodes 0 j)) 1 i ∧
      (runNetwork q).nodes (2 * q.maxNodesInALayer + i) =
        q.outputFunction (layerSum q.maxNodesInALayer (q.layerDimensions 1) q.weights
          (fun j => q.outputFunction
            (layerSum q.maxNodesInALayer (q.layerDimensions 0) q.weights q.nodes 0 j)) 1 i) := by
  have hinv := runNetwork_inv q hp.width
  have h1 := hinv.theta 1 i (by omega) hi
  have h2 := hinv.node 1 i (by omega) hi
  have hth : (runNetwork q).thetas (2 * q.maxNodesInALayer + i) =
      layerSum q.maxNodesInALayer (q.layerDimensions 1) q.weights
          (fun j => q.outputFunction
            (layerSum q.maxNodesInALayer (q.layerDimensions 0) q.weights q.nodes 0 j)) 1 i := by
    rw [show 2 * q.maxNodesInALayer + i = (1 + 1) * q.maxNodesInALayer + i by rfl, h1]
    unfold layerTheta
    rw [layerSum]
    apply Finset.sum_congr rfl
    intro k hk
    have hk' := Finset.mem_range.mp hk
    rw [hact, (runNetwork_layer_one q hp (by omega) hact k hk').2]
    simp [identity]
  refine ⟨hth, ?_⟩
  rw [← hth]
  exact h2

/-- The loss of a 2-layer network with identity activation as a function of the weights. -/
theorem recordLoss_two (s : Network α) (hp : Planned s) (hL : s.numLayers = 2)
    (hact : s.activationFunction = identity) (index : Nat) (w : Nat → α) :
    recordLoss s index w =
      0.5 * ∑ i in Finset.range (s.layerDimensions 1),
        (s.outputFunction (layerSum s.maxNodesInALayer (s.layerDimensions 0) w
            (loadedNodes s index) 0 i) - loadedTargets s index i) ^ 2 := by
  unfold recordLoss
  rw [show s.numLayers - 1 = 1 by omega]
  congr 1
  apply Finset.sum_congr rfl
  intro i hi
  have h : (runNetwork { s with nodes := loadedNodes s index, weights := w }).nodes
        (1 * s.maxNodesInALayer + i) =
      s.outputFunction (layerSum s.maxNodesInALayer (s.layerDimensions 0) w
            (loadedNodes s index) 0 i) :=
    (runNetwork_layer_one { s with nodes := loadedNodes s index, weights := w }
      ⟨hp.width, hp.block⟩ (by show 2 ≤ s.numLayers; omega) hact i (Finset.mem_range.mp hi)).2
  rw [h]

/-- The loss of a 3-layer network with identity activation as a function of the weights. -/
theorem recordLoss_three (s : Network α) (hp : Planned s) (hL : s.numLayers = 3)
    (hact : s.activationFunction = identity) (index : Nat) (w : Nat → α) :
    recordLoss s index w =
      0.5 * ∑ i in Finset.range (s.layerDimensions 2),
        (s.outputFunction (layerSum s.maxNodesInALayer (s.layerDimensions 1) w
            (fun j => s.outputFunction (layerSum s.maxNodesInALayer (s.layerDimensions 0) w
              (loadedNodes s index) 0 j)) 1 i) - loadedTargets s index i) ^ 2 := by
  unfold recordLoss
  rw [show s.numLayers - 1 = 2 by omega]
  congr 1
  apply Finset.sum_congr rfl
  intro i hi
  have h : (runNetwork { s with nodes := loadedNodes s index, weights := w }).nodes
        (2 * s.maxNodesInALayer + i) =
      s.outputFunction (layerSum s.maxNodesInALayer (s.layerDimensions 1) w
            (fun j => s.outputFunction (layerSum s.maxNodesInALayer (s.layerDimensions 0) w
              (loadedNodes s index) 0 j)) 1 i) :=
    (runNetwork_layer_two { s with nodes := loadedNodes s index, weights := w }
      ⟨hp.width, hp.block⟩ (by show 3 ≤ s.numLayers; omega) hact i (Finset.mem_range.mp hi)).2
  rw [h]

/-- The derivative of the real sigmoid is `sigmoidDeriv`. -/
theorem hasDerivAt_sigmoid (x : ℝ) :
    HasDerivAt (sigmoid Real.exp) (sigmoidDeriv Real.exp x) x := by
  have h1 : HasDerivAt (fun y : ℝ => 1 + Real.exp (-y)) (Real.exp (-x) * (-1)) x :=
    ((hasDerivAt_neg x).exp).const_add 1
  have hne : (1 : ℝ) + Real.exp (-x) ≠ 0 := by positivity
  have h2 := h1.inv hne
  have hfun : sigmoid Real.exp = fun y : ℝ => (1 + Real.exp (-y))⁻¹ := by
    funext y
    unfold sigmoid
    rw [one_div]
  rw [hfun]
  convert h2 using 1
  unfold sigmoidDeriv sigmoid
  field_simp
  ring

/-- A weight block with one entry replaced by `v`, read at offset `a`, as a function of `v`. -/
theorem hasDerivAt_update (w : Nat → ℝ) (idx a : Nat) (v : ℝ) :
    HasDerivAt (fun u => Function.update w idx u a) (if a = idx then 1 else 0) v := by
  by_cases h : a = idx
  · subst h
    simp only [Function.update_same, if_true]
    exact hasDerivAt_id v
  · simp only [Function.update_noteq h, if_neg h]
    exact hasDerivAt_const v _

/-- Derivative of a weighted sum in one weight, the layer below depending on it too. -/
theorem hasDerivAt_layerSum (W d : Nat) (w : Nat → ℝ) (idx : Nat) (below : ℝ → Nat → ℝ)
    (below' : Nat → ℝ) (m j : Nat) (v : ℝ)
    (hb : ∀ k, k < d → HasDerivAt (fun u => below u k) (below' k) v) :
    HasDerivAt (fun u => layerSum W d (Function.update w idx u) (below u) m j)
      (∑ k in Finset.range d,
        ((if m * W * W + k * W + j = idx then 1 else 0) * below v k +
          Function.update w idx v (m * W * W + k * W + j) * below' k)) v := by
  unfold layerSum
  apply HasDerivAt.sum
  intro k hk
  exact (hasDerivAt_update w idx _ v).mul (hb k (Finset.mem_range.mp hk))

/-- Derivative of a half-sum-of-squares loss. -/
theorem hasDerivAt_halfSquares (n : Nat) (o : ℝ → Nat → ℝ) (o' t : Nat → ℝ) (v : ℝ)
    (h : ∀ i, i < n → HasDerivAt (fun u => o u i) (o' i) v) :
    HasDerivAt (fun u => 0.5 * ∑ i in Finset.range n, (o u i - t i) ^ 2)
      (∑ i in Finset.range n, (o v i - t i) * o' i) v := by
  have h1 : HasDerivAt (fun u => ∑ i in Finset.range n, (o u i - t i) ^ 2)
      (∑ i in Finset.range n, 2 * (o v i - t i) * o' i) v := by
    apply HasDerivAt.sum
    intro i hi
    have := ((h i (Finset.mem_range.mp hi)).sub_const (t i)).pow 2
    simpa using this
  have h2 := h1.const_mul (0.5 : ℝ)
  convert h2 using 1
  rw [Finset.mul_sum]
  apply Finset.sum_congr rfl
  intro i _
  ring

/-- A weight offset determines its connectivity layer, source and destination. -/
theorem offset_eq_iff (W m k j m' k' j' : Nat) (hk : k < W) (hj : j < W) (hk' : k' < W)
    (hj' : j' < W) :
    m * W * W + k * W + j = W * W * m' + W * k' + j' ↔ m = m' ∧ k = k' ∧ j = j' := by
  constructor
  · intro h
    have e1 : m * W * W + k * W + j = W * (W * m + k) + j := by ring
    have e2 : W * W * m' + W * k' + j' = W * (W * m' + k') + j' := by ring
    rw [e1, e2] at h
    obtain ⟨h1, h2⟩ := row_inj W _ _ j j' hj hj' h
    obtain ⟨h3, h4⟩ := row_inj W m m' k k' hk hk' h1
    exact ⟨h3, h4, h2⟩
  · rintro ⟨rfl, rfl, rfl⟩
    ring

theorem sum_indicator_add (n a : Nat) (ha : a < n) (c : Nat → Prop) [DecidablePred c]
    (hc : ∀ k, k < n → (c k ↔ k = a)) (x y : Nat → α) :
    (∑ k in Finset.range n, ((if c k then 1 else 0) * x k + y k)) =
      x a + ∑ k in Finset.range n, y k := by
  rw [Finset.sum_add_distrib]
  congr 1
  have h := sum_ite_single n a ha x c hc
  rw [← h]
  apply Finset.sum_congr rfl
  intro k _
  by_cases hck : c k
  · rw [if_pos hck, if_pos hck, one_mul]
  · rw [if_neg hck, if_neg hck, zero_mul]

theorem sum_indicator_none (n : Nat) (c : Nat → Prop) [DecidablePred c]
    (hc : ∀ k, k < n → ¬ c k) (x y : Nat → α) :
    (∑ k in Finset.range n, ((if c k then 1 else 0) * x k + y k)) =
      ∑ k in Finset.range n, y k := by
  apply Finset.sum_congr rfl
  intro k hk
  rw [if_neg (hc k (Finset.mem_range.mp hk)), zero_mul, zero_add]

/-- The forward pass of a record is `runNetwork` on the state with the record loaded. -/
theorem trainForAllTrainingSets.forward_eq (p : Sweep α) :
    trainForAllTrainingSets.forward p =
      runNetwork (p.net.withRecord (loadedNodes p.net p.index)
        (loadedTargets p.net p.index)) := by
  unfold trainForAllTrainingSets.forward
  rw [loadRecord_eq]

/-- Gradient of the loss of a 2-layer network in weight `(0, k, j)`. -/
theorem hasDerivAt_recordLoss_two (s : Network ℝ) (hp : Planned s) (hL : s.numLayers = 2)
    (hact : s.activationFunction = identity) (hO : s.outputFunction = sigmoid Real.exp)
    (index k j : Nat) (hk : k < s.layerDimensions 0) (hj : j < s.layerDimensions 1) :
    HasDerivAt
      (fun v => recordLoss s index
        (Function.update s.weights (s.maxWeightsInALayer * 0 + s.maxNodesInALayer * k + j) v))
      (loadedNodes s index k *
        ((sigmoid Real.exp (layerSum s.maxNodesInALayer (s.layerDimensions 0) s.weights
              (loadedNodes s index) 0 j) - loadedTargets s index j) *
          sigmoidDeriv Real.exp (layerSum s.maxNodesInALayer (s.layerDimensions 0) s.weights
              (loadedNodes s index) 0 j)))
      (s.weights (s.maxWeightsInALayer * 0 + s.maxNodesInALayer * k + j)) := by
  have hfun : (fun v => recordLoss s index
        (Function.update s.weights (s.maxWeightsInALayer * 0 + s.maxNodesInALayer * k + j) v)) =
      fun v => 0.5 * ∑ i in Finset.range (s.layerDimensions 1),
        (sigmoid Real.exp (layerSum s.maxNodesInALayer (s.layerDimensions 0)
          (Function.update s.weights
            (s.maxWeightsInALayer * 0 + s.maxNodesInALayer * k + j) v)
            (loadedNodes s index) 0 i) - loadedTargets s index i) ^ 2 := by
    funext v
    rw [recordLoss_two s hp hL hact, hO]
  rw [hfun]
  have hW0 := hp.width 0 (by omega)
  have hW1 := hp.width 1 (by omega)
  have hd := hasDerivAt_halfSquares (s.layerDimensions 1)
    (fun v i => sigmoid Real.exp (layerSum s.maxNodesInALayer (s.layerDimensions 0)
          (Function.update s.weights
            (s.maxWeightsInALayer * 0 + s.maxNodesInALayer * k + j) v)
            (loadedNodes s index) 0 i)) _ (loadedTargets s index)
    (s.weights (s.maxWeightsInALayer * 0 + s.maxNodesInALayer * k + j))
    (fun i _ => (hasDerivAt_sigmoid _).comp _
      (hasDerivAt_layerSum s.maxNodesInALayer (s.layerDimensions 0) s.weights
        (s.maxWeightsInALayer * 0 + s.maxNodesInALayer * k + j) (fun _ => loadedNodes s index)
        (fun _ => 0) 0 i _ (fun k' _ => hasDerivAt_const _ _)))
  simp only [Function.update_eq_self] at hd
  convert hd using 1
  rw [Finset.sum_eq_single j]
  · rw [sum_indicator_add (s.layerDimensions 0) k hk _
      (fun k' hk' => by
        rw [hp.block, offset_eq_iff s.maxNodesInALayer 0 k' j 0 k j (by omega) (by omega)
          (by omega) (by omega)]
        constructor
        · exact fun h => h.2.1
        · exact fun h => ⟨rfl, h, rfl⟩)]
    simp only [mul_zero, Finset.sum_const_zero, add_zero]
    ring
  · intro i hi hne
    have hi' := Finset.mem_range.mp hi
    rw [sum_indicator_none (s.layerDimensions 0) _
      (fun k' hk' => by
        rw [hp.block, offset_eq_iff s.maxNodesInALayer 0 k' i 0 k j (by omega) (by omega)
          (by omega) (by omega)]
        exact fun h => hne h.2.2)]
    simp
  · intro h
    exact absurd (Finset.mem_range.mpr hj) h

/-- The weight `(0, k, j)` of a 2-layer network after one record's pass. -/
theorem trainForAllTrainingSets.recordStep_weights_two (t : Nat) (p : Sweep α)
    (hp : Planned p.net) (hL : p.net.numLayers = 2)
    (hact : p.net.activationFunction = identity) (k j : Nat)
    (hk : k < p.net.layerDimensions 0) (hj : j < p.net.layerDimensions 1) :
    (trainForAllTrainingSets.recordStep t p).net.weights
        (p.net.maxWeightsInALayer * 0 + p.net.maxNodesInALayer * k + j) =
      p.net.weights (p.net.maxWeightsInALayer * 0 + p.net.maxNodesInALayer * k + j) -
        p.net.learningFactor * (loadedNodes p.net p.index k *
          ((p.net.outputFunction (layerSum p.net.maxNodesInALayer (p.net.layerDimensions 0)
                p.net.weights (loadedNodes p.net p.index) 0 j) -
              loadedTargets p.net p.index j) *
            p.net.outputDerivFunction (layerSum p.net.maxNodesInALayer
              (p.net.layerDimensions 0) p.net.weights (loadedNodes p.net p.index) 0 j))) := by
  rw [trainForAllTrainingSets.recordStep_net, trainForAllTrainingSets.forward_eq]
  have hpq : Planned (p.net.withRecord (loadedNodes p.net p.index)
      (loadedTargets p.net p.index)) := hp.withRecord _ _
  have l1 := runNetwork_layer_one _ hpq (by show 2 ≤ p.net.numLayers; omega) hact j hj
  have hin := (runNetwork_inv _ hpq.width).input k
    (lt_of_lt_of_le hk (hp.width 0 (by omega)))
  obtain ⟨T, N, hF⟩ := runNetwork_frame (p.net.withRecord (loadedNodes p.net p.index)
      (loadedTargets p.net p.index))
  rw [hF] at l1 hin ⊢
  simp only [Network.withForward_nodes, Network.withForward_thetas,
    Network.withRecord_maxNodesInALayer, Network.withRecord_layerDimensions,
    Network.withRecord_weights, Network.withRecord_nodes,
    Network.withRecord_outputFunction] at l1 hin
  have hw := trainForAllTrainingSets.backward_weights_output _ (hpq.withForward T N)
    (by show 2 ≤ p.net.numLayers; omega) k j
    (by show k < p.net.layerDimensions (p.net.numLayers - 2); rw [hL]; exact hk)
    (by show j < p.net.layerDimensions (p.net.numLayers - 1); rw [hL]; exact hj)
  unfold outputDelta psiOut at hw
  simp only [Network.withForward_maxWeightsInALayer, Network.withForward_maxNodesInALayer,
    Network.withForward_numLayers, Network.withForward_weights,
    Network.withForward_nodes, Network.withForward_thetas, Network.withForward_learningFactor,
    Network.withForward_expectedOutputs, Network.withForward_outputDerivFunction,
    Network.withRecord_maxWeightsInALayer, Network.withRecord_maxNodesInALayer,
    Network.withRecord_numLayers, Network.withRecord_weights,
    Network.withRecord_learningFactor,
    Network.withRecord_expectedOutputs, Network.withRecord_outputDerivFunction] at hw
  rw [show p.net.numLayers - 2 = 0 by omega, show p.net.numLayers - 1 = 1 by omega] at hw
  rw [hw]
  have e1 : p.net.maxNodesInALayer * 1 + j = 1 * p.net.maxNodesInALayer + j := by omega
  have e0 : p.net.maxNodesInALayer * 0 + k = k := by omega
  rw [e1, e0, l1.1, l1.2, hin]
  ring

/-- Gradient of the loss of a 3-layer network in the weight at offset `off`, by the chain
rule through both computed layers. -/
theorem hasDerivAt_recordLoss_three (s : Network ℝ) (hp : Planned s) (hL : s.numLayers = 3)
    (hact : s.activationFunction = identity) (hO : s.outputFunction = sigmoid Real.exp)
    (index off : Nat) :
    HasDerivAt (fun v => recordLoss s index (Function.update s.weights off v))
      (∑ i in Finset.range (s.layerDimensions 2),
        (sigmoid Real.exp (layerSum s.maxNodesInALayer (s.layerDimensions 1) s.weights
            (fun j => sigmoid Real.exp (layerSum s.maxNodesInALayer (s.layerDimensions 0)
              s.weights (loadedNodes s index) 0 j)) 1 i) - loadedTargets s index i) *
          (sigmoidDeriv Real.exp (layerSum s.maxNodesInALayer (s.layerDimensions 1) s.weights
            (fun j => sigmoid Real.exp (layerSum s.maxNodesInALayer (s.layerDimensions 0)
              s.weights (loadedNodes s index) 0 j)) 1 i) *
            ∑ j in Finset.range (s.layerDimensions 1),
              ((if 1 * s.maxNodesInALayer * s.maxNodesInALayer + j * s.maxNodesInALayer + i = off
                  then 1 else 0) *
                sigmoid Real.exp (layerSum s.maxNodesInALayer (s.layerDimensions 0)
                  s.weights (loadedNodes s index) 0 j) +
              s.weights (1 * s.maxNodesInALayer * s.maxNodesInALayer +
                  j * s.maxNodesInALayer + i) *
                (sigmoidDeriv Real.exp (layerSum s.maxNodesInALayer (s.layerDimensions 0)
                    s.weights (loadedNodes s index) 0 j) *
                  ∑ k in Finset.range (s.layerDimensions 0),
                    ((if 0 * s.maxNodesInALayer * s.maxNodesInALayer +
                        k * s.maxNodesInALayer + j = off then 1 else 0) *
                      loadedNodes s index k +
                    s.weights (0 * s.maxNodesInALayer * s.maxNodesInALayer +
                        k * s.maxNodesInALayer + j) * 0)))))
      (s.weights off) := by
  have hfun : (fun v => recordLoss s index (Function.update s.weights off v)) =
      fun v => 0.5 * ∑ i in Finset.range (s.layerDimensions 2),
        (sigmoid Real.exp (layerSum s.maxNodesInALayer (s.layerDimensions 1)
            (Function.update s.weights off v)
            (fun j => sigmoid Real.exp (layerSum s.maxNodesInALayer (s.layerDimensions 0)
              (Function.update s.weights off v) (loadedNodes s index) 0 j)) 1 i) -
          loadedTargets s index i) ^ 2 := by
    funext v
    rw [recordLoss_three s hp hL hact, hO]
  rw [hfun]
  have hb : ∀ j, j < s.layerDimensions 1 →
      HasDerivAt (fun u => sigmoid Real.exp (layerSum s.maxNodesInALayer (s.layerDimensions 0)
          (Function.update s.weights off u) (loadedNodes s index) 0 j)) _ (s.weights off) :=
    fun j _ => (hasDerivAt_sigmoid _).comp _
      (hasDerivAt_layerSum s.maxNodesInALayer (s.layerDimensions 0) s.weights off
        (fun _ => loadedNodes s index) (fun _ => 0) 0 j _ (fun k' _ => hasDerivAt_const _ _))
  have hd := hasDerivAt_halfSquares (s.layerDimensions 2)
    (fun v i => sigmoid Real.exp (layerSum s.maxNodesInALayer (s.layerDimensions 1)
            (Function.update s.weights off v)
            (fun j => sigmoid Real.exp (layerSum s.maxNodesInALayer (s.layerDimensions 0)
              (Function.update s.weights off v) (loadedNodes s index) 0 j)) 1 i))
    _ (loadedTargets s index) (s.weights off)
    (fun i _ => (hasDerivAt_sigmoid _).comp _
      (hasDerivAt_layerSum s.maxNodesInALayer (s.layerDimensions 1) s.weights off
        (fun u j => sigmoid Real.exp (layerSum s.maxNodesInALayer (s.layerDimensions 0)
          (Function.update s.weights off u) (loadedNodes s index) 0 j)) _ 1 i _ hb))
  simp only [Function.update_eq_self] at hd
  exact hd

/-- Gradient of the loss of a 3-layer network in the output-adjacent weight `(1, j, i)`. -/
theorem hasDerivAt_recordLoss_three_output (s : Network ℝ) (hp : Planned s)
    (hL : s.numLayers = 3) (hact : s.activationFunction = identity)
    (hO : s.outputFunction = sigmoid Real.exp) (index j i : Nat)
    (hj : j < s.layerDimensions 1) (hi : i < s.layerDimensions 2) :
    HasDerivAt
      (fun v => recordLoss s index
        (Function.update s.weights (s.maxWeightsInALayer * 1 + s.maxNodesInALayer * j + i) v))
      (sigmoid Real.exp (layerSum s.maxNodesInALayer (s.layerDimensions 0)
            s.weights (loadedNodes s index) 0 j) *
        ((sigmoid Real.exp (layerSum s.maxNodesInALayer (s.layerDimensions 1) s.weights
            (fun j => sigmoid Real.exp (layerSum s.maxNodesInALayer (s.layerDimensions 0)
              s.weights (loadedNodes s index) 0 j)) 1 i) - loadedTargets s index i) *
          sigmoidDeriv Real.exp (layerSum s.maxNodesInALayer (s.layerDimensions 1) s.weights
            (fun j => sigmoid Real.exp (layerSum s.maxNodesInALayer (s.layerDimensions 0)
              s.weights (loadedNodes s index) 0 j)) 1 i)))
      (s.weights (s.maxWeightsInALayer * 1 + s.maxNodesInALayer * j + i)) := by
  have hW0 := hp.width 0 (by omega)
  have hW1 := hp.width 1 (by omega)
  have hW2 := hp.width 2 (by omega)
  refine (hasDerivAt_recordLoss_three s hp hL hact hO index _).congr_deriv ?_
  have hinner : ∀ j', j' < s.layerDimensions 1 →
      (∑ k in Finset.range (s.layerDimensions 0),
        ((if 0 * s.maxNodesInALayer * s.maxNodesInALayer + k * s.maxNodesInALayer + j' =
              s.maxWeightsInALayer * 1 + s.maxNodesInALayer * j + i then (1 : ℝ) else 0) *
            loadedNodes s index k +
          s.weights (0 * s.maxNodesInALayer * s.maxNodesInALayer +
            k * s.maxNodesInALayer + j') * 0)) = 0 := by
    intro j' hj'
    rw [sum_indicator_none (s.layerDimensions 0) _
      (fun k hk => by
        rw [hp.block, offset_eq_iff s.maxNodesInALayer 0 k j' 1 j i (by omega) (by omega)
          (by omega) (by omega)]
        exact fun h => absurd h.1 (by decide))]
    simp
  rw [Finset.sum_eq_single i]
  · rw [sum_indicator_add (s.layerDimensions 1) j hj _
      (fun j' hj' => by
        rw [hp.block, offset_eq_iff s.maxNodesInALayer 1 j' i 1 j i (by omega) (by omega)
          (by omega) (by omega)]
        constructor
        · exact fun h => h.2.1
        · exact fun h => ⟨rfl, h, rfl⟩)]
    rw [Finset.sum_eq_zero (fun j' hj' => by
      rw [hinner j' (Finset.mem_range.mp hj')]
      ring)]
    ring
  · intro i' hi' hne
    have hi'' := Finset.mem_range.mp hi'
    rw [sum_indicator_none (s.layerDimensions 1) _
      (fun j' hj' => by
        rw [hp.block, offset_eq_iff s.maxNodesInALayer 1 j' i' 1 j i (by omega) (by omega)
          (by omega) (by omega)]
        exact fun h => hne h.2.2)]
    rw [Finset.sum_eq_zero (fun j' hj' => by
      rw [hinner j' (Finset.mem_range.mp hj')]
      ring)]
    ring
  · intro h
    exact absurd (Finset.mem_range.mpr hi) h

/-- Gradient of the loss of a 3-layer network in the weight `(0, k, j)` into the hidden
layer. -/
theorem hasDerivAt_recordLoss_three_hidden (s : Network ℝ) (hp : Planned s)
    (hL : s.numLayers = 3) (hact : s.activationFunction = identity)
    (hO : s.outputFunction = sigmoid Real.exp) (index k j : Nat)
    (hk : k < s.layerDimensions 0) (hj : j < s.layerDimensions 1) :
    HasDerivAt
      (fun v => recordLoss s index
        (Function.update s.weights (s.maxWeightsInALayer * 0 + s.maxNodesInALayer * k + j) v))
      (loadedNodes s index k *
        ((∑ i in Finset.range (s.layerDimensions 2),
            ((sigmoid Real.exp (layerSum s.maxNodesInALayer (s.layerDimensions 1) s.weights
                (fun j => sigmoid Real.exp (layerSum s.maxNodesInALayer (s.layerDimensions 0)
                  s.weights (loadedNodes s index) 0 j)) 1 i) - loadedTargets s index i) *
              sigmoidDeriv Real.exp (layerSum s.maxNodesInALayer (s.layerDimensions 1)
                s.weights
                (fun j => sigmoid Real.exp (layerSum s.maxNodesInALayer (s.layerDimensions 0)
                  s.weights (loadedNodes s index) 0 j)) 1 i)) *
              s.weights (s.maxWeightsInALayer * 1 + s.maxNodesInALayer * j + i)) *
          sigmoidDeriv Real.exp (layerSum s.maxNodesInALayer (s.layerDimensions 0)
            s.weights (loadedNodes s index) 0 j)))
      (s.weights (s.maxWeightsInALayer * 0 + s.maxNodesInALayer * k + j)) := by
  have hW0 := hp.width 0 (by omega)
  have hW1 := hp.width 1 (by omega)
  have hW2 := hp.width 2 (by omega)
  refine (hasDerivAt_recordLoss_three s hp hL hact hO index _).congr_deriv ?_
  have hinner : ∀ j', j' < s.layerDimensions 1 →
      (∑ k' in Finset.range (s.layerDimensions 0),
        ((if 0 * s.maxNodesInALayer * s.maxNodesInALayer + k' * s.maxNodesInALayer + j' =
              s.maxWeightsInALayer * 0 + s.maxNodesInALayer * k + j then (1 : ℝ) else 0) *
            loadedNodes s index k' +
          s.weights (0 * s.maxNodesInALayer * s.maxNodesInALayer +
            k' * s.maxNodesInALayer + j') * 0)) =
        if j' = j then loadedNodes s index k else 0 := by
    intro j' hj'
    by_cases hjj : j' = j
    · rw [if_pos hjj, sum_indicator_add (s.layerDimensions 0) k hk _
        (fun k' hk' => by
          rw [hp.block, offset_eq_iff s.maxNodesInALayer 0 k' j' 0 k j (by omega) (by omega)
            (by omega) (by omega)]
          constructor
          · exact fun h => h.2.1
          · exact fun h => ⟨rfl, h, hjj⟩)]
      simp
    · rw [if_neg hjj, sum_indicator_none (s.layerDimensions 0) _
        (fun k' hk' => by
          rw [hp.block, offset_eq_iff s.maxNodesInALayer 0 k' j' 0 k j (by omega) (by omega)
            (by omega) (by omega)]
          exact fun h => hjj h.2.2)]
      simp
  have hidx : ∀ i, 1 * s.maxNodesInALayer * s.maxNodesInALayer + j * s.maxNodesInALayer + i =
      s.maxWeightsInALayer * 1 + s.maxNodesInALayer * j + i := by
    intro i
    rw [hp.block]
    ring
  rw [Finset.sum_mul, Finset.mul_sum]
  apply Finset.sum_congr rfl
  intro i hi
  have hi' := Finset.mem_range.mp hi
  rw [sum_indicator_none (s.layerDimensions 1) _
    (fun j' hj' => by
      rw [hp.block, offset_eq_iff s.maxNodesInALayer 1 j' i 0 k j (by omega) (by omega)
        (by omega) (by omega)]
      exact fun h => absurd h.1 (by decide))]
  rw [Finset.sum_eq_single j]
  · rw [hinner j hj, if_pos rfl, hidx i]
    ring
  · intro j' hj' hne
    rw [hinner j' (Finset.mem_range.mp hj'), if_neg hne]
    ring
  · intro h
    exact absurd (Finset.mem_range.mpr hj) h

/-- The output-adjacent weight `(1, j, i)` of a 3-layer network after one record's pass. -/
theorem trainForAllTrainingSets.recordStep_weights_three_output (t : Nat) (p : Sweep α)
    (hp : Planned p.net) (hL : p.net.numLayers = 3)
    (hact : p.net.activationFunction = identity) (j i : Nat)
    (hj : j < p.net.layerDimensions 1) (hi : i < p.net.layerDimensions 2) :
    (trainForAllTrainingSets.recordStep t p).net.weights
        (p.net.maxWeightsInALayer * 1 + p.net.maxNodesInALayer * j + i) =
      p.net.weights (p.net.maxWeightsInALayer * 1 + p.net.maxNodesInALayer * j + i) -
        p.net.learningFactor *
          (p.net.outputFunction (layerSum p.net.maxNodesInALayer (p.net.layerDimensions 0)
              p.net.weights (loadedNodes p.net p.index) 0 j) *
            ((p.net.outputFunction (layerSum p.net.maxNodesInALayer (p.net.layerDimensions 1)
                p.net.weights
                (fun j => p.net.outputFunction (layerSum p.net.maxNodesInALayer
                  (p.net.layerDimensions 0) p.net.weights (loadedNodes p.net p.index) 0 j))
                1 i) - loadedTargets p.net p.index i) *
              p.net.outputDerivFunction (layerSum p.net.maxNodesInALayer
                (p.net.layerDimensions 1) p.net.weights
                (fun j => p.net.outputFunction (layerSum p.net.maxNodesInALayer
                  (p.net.layerDimensions 0) p.net.weights (loadedNodes p.net p.index) 0 j))
                1 i))) := by
  rw [trainForAllTrainingSets.recordStep_net, trainForAllTrainingSets.forward_eq]
  have hpq : Planned (p.net.withRecord (loadedNodes p.net p.index)
      (loadedTargets p.net p.index)) := hp.withRecord _ _
  have l1 := runNetwork_layer_one _ hpq (by show 2 ≤ p.net.numLayers; omega) hact j hj
  have l2 := runNetwork_layer_two _ hpq (by show 3 ≤ p.net.numLayers; omega) hact i hi
  obtain ⟨T, N, hF⟩ := runNetwork_frame (p.net.withRecord (loadedNodes p.net p.index)
      (loadedTargets p.net p.index))
  rw [hF] at l1 l2 ⊢
  simp only [Network.withForward_nodes, Network.withForward_thetas,
    Network.withRecord_maxNodesInALayer, Network.withRecord_layerDimensions,
    Network.withRecord_weights, Network.withRecord_nodes,
    Network.withRecord_outputFunction] at l1 l2
  have hw := trainForAllTrainingSets.backward_weights_output _ (hpq.withForward T N)
    (by show 2 ≤ p.net.numLayers; omega) j i
    (by show j < p.net.layerDimensions (p.net.numLayers - 2); rw [hL]; exact hj)
    (by show i < p.net.layerDimensions (p.net.numLayers - 1); rw [hL]; exact hi)
  unfold outputDelta psiOut at hw
  simp only [Network.withForward_maxWeightsInALayer, Network.withForward_maxNodesInALayer,
    Network.withForward_numLayers, Network.withForward_weights,
    Network.withForward_nodes, Network.withForward_thetas, Network.withForward_learningFactor,
    Network.withForward_expectedOutputs, Network.withForward_outputDerivFunction,
    Network.withRecord_maxWeightsInALayer, Network.withRecord_maxNodesInALayer,
    Network.withRecord_numLayers, Network.withRecord_weights,
    Network.withRecord_learningFactor,
    Network.withRecord_expectedOutputs, Network.withRecord_outputDerivFunction] at hw
  rw [show p.net.numLayers - 2 = 1 by omega, show p.net.numLayers - 1 = 2 by omega] at hw
  rw [hw]
  have e1 : p.net.maxNodesInALayer * 1 + j = 1 * p.net.maxNodesInALayer + j := by omega
  have e2 : p.net.maxNodesInALayer * 2 + i = 2 * p.net.maxNodesInALayer + i := by omega
  rw [e1, e2, l1.2, l2.1, l2.2]
  ring

/-- The weight `(0, k, j)` into the hidden layer of a 3-layer network after one record's
pass; the psi slot of hidden node `j` enters with what it held before the pass. -/
theorem trainForAllTrainingSets.recordStep_weights_three_hidden (t : Nat) (p : Sweep α)
    (hp : Planned p.net) (hL : p.net.numLayers = 3)
    (hact : p.net.activationFunction = identity) (k j : Nat)
    (hk : k < p.net.layerDimensions 0) (hj : j < p.net.layerDimensions 1) :
    (trainForAllTrainingSets.recordStep t p).net.weights
        (p.net.maxWeightsInALayer * 0 + p.net.maxNodesInALayer * k + j) =
      p.net.weights (p.net.maxWeightsInALayer * 0 + p.net.maxNodesInALayer * k + j) -
        p.net.learningFactor *
          (loadedNodes p.net p.index k *
            ((p.net.psis (p.net.maxNodesInALayer * 1 + j) +
              ∑ i in Finset.range (p.net.layerDimensions 2),
                ((p.net.outputFunction (layerSum p.net.maxNodesInALayer
                    (p.net.layerDimensions 1) p.net.weights
                    (fun j => p.net.outputFunction (layerSum p.net.maxNodesInALayer
                      (p.net.layerDimensions 0) p.net.weights (loadedNodes p.net p.index) 0 j))
                    1 i) - loadedTargets p.net p.index i) *
                  p.net.outputDerivFunction (layerSum p.net.maxNodesInALayer
                    (p.net.layerDimensions 1) p.net.weights
                    (fun j => p.net.outputFunction (layerSum p.net.maxNodesInALayer
                      (p.net.layerDimensions 0) p.net.weights (loadedNodes p.net p.index) 0 j))
                    1 i)) *
                  p.net.weights (p.net.maxWeightsInALayer * 1 + p.net.maxNodesInALayer * j + i)) *
              p.net.outputDerivFunction (layerSum p.net.maxNodesInALayer
                (p.net.layerDimensions 0) p.net.weights (loadedNodes p.net p.index) 0 j))) := by
  rw [trainForAllTrainingSets.recordStep_net, trainForAllTrainingSets.forward_eq]
  have hpq : Planned (p.net.withRecord (loadedNodes p.net p.index)
      (loadedTargets p.net p.index)) := hp.withRecord _ _
  have l1 := runNetwork_layer_one _ hpq (by show 2 ≤ p.net.numLayers; omega) hact j hj
  have l2 := fun i hi =>
    runNetwork_layer_two _ hpq (by show 3 ≤ p.net.numLayers; omega) hact i hi
  have hin := (runNetwork_inv _ hpq.width).input k
    (lt_of_lt_of_le hk (hp.width 0 (by omega)))
  obtain ⟨T, N, hF⟩ := runNetwork_frame (p.net.withRecord (loadedNodes p.net p.index)
      (loadedTargets p.net p.index))
  rw [hF] at l1 hin ⊢
  simp only [hF] at l2
  simp only [Network.withForward_nodes, Network.withForward_thetas,
    Network.withRecord_maxNodesInALayer, Network.withRecord_layerDimensions,
    Network.withRecord_weights, Network.withRecord_nodes,
    Network.withRecord_outputFunction] at l1 l2 hin
  have hw := trainForAllTrainingSets.backward_weights_interior _ (hpq.withForward T N)
    (by show 2 ≤ p.net.numLayers; omega) 0 k j
    (by show 0 < p.net.numLayers - 2; omega) hk hj
  have hh := outputPhasePsis_hidden
    ((p.net.withRecord (loadedNodes p.net p.index)
      (loadedTargets p.net p.index)).withForward T N) j
    (by show j < p.net.layerDimensions (p.net.numLayers - 2); rw [hL]; exact hj)
  unfold hiddenPsi psiOut at hh
  simp only [Network.withForward_maxWeightsInALayer, Network.withForward_maxNodesInALayer,
    Network.withForward_numLayers, Network.withForward_weights, Network.withForward_psis,
    Network.withForward_nodes, Network.withForward_thetas, Network.withForward_learningFactor,
    Network.withForward_expectedOutputs, Network.withForward_outputDerivFunction,
    Network.withForward_layerDimensions,
    Network.withRecord_maxWeightsInALayer, Network.withRecord_maxNodesInALayer,
    Network.withRecord_numLayers, Network.withRecord_weights, Network.withRecord_psis,
    Network.withRecord_learningFactor, Network.withRecord_layerDimensions,
    Network.withRecord_expectedOutputs, Network.withRecord_outputDerivFunction] at hw hh
  rw [show p.net.numLayers - 2 = 1 by omega, show p.net.numLayers - 1 = 2 by omega] at hh
  rw [show 0 + 1 = 1 by rfl] at hw
  rw [hw, hh]
  have e1 : p.net.maxNodesInALayer * 1 + j = 1 * p.net.maxNodesInALayer + j := by omega
  have e0 : p.net.maxNodesInALayer * 0 + k = k := by omega
  have hsum : (∑ i in Finset.range (p.net.layerDimensions 2),
      (N (p.net.maxNodesInALayer * 2 + i) - loadedTargets p.net p.index i) *
          p.net.outputDerivFunction (T (p.net.maxNodesInALayer * 2 + i)) *
        p.net.weights (p.net.maxWeightsInALayer * 1 + p.net.maxNodesInALayer * j + i)) =
      ∑ i in Finset.range (p.net.layerDimensions 2),
                ((p.net.outputFunction (layerSum p.net.maxNodesInALayer
                    (p.net.layerDimensions 1) p.net.weights
                    (fun j => p.net.outputFunction (layerSum p.net.maxNodesInALayer
                      (p.net.layerDimensions 0) p.net.weights (loadedNodes p.net p.index) 0 j))
                    1 i) - loadedTargets p.net p.index i) *
                  p.net.outputDerivFunction (layerSum p.net.maxNodesInALayer
                    (p.net.layerDimensions 1) p.net.weights
                    (fun j => p.net.outputFunction (layerSum p.net.maxNodesInALayer
                      (p.net.layerDimensions 0) p.net.weights (loadedNodes p.net p.index) 0 j))
                    1 i)) *
                  p.net.weights
                    (p.net.maxWeightsInALayer * 1 + p.net.maxNodesInALayer * j + i) := by
    apply Finset.sum_congr rfl
    intro i hi
    have e2 : p.net.maxNodesInALayer * 2 + i = 2 * p.net.maxNodesInALayer + i := by omega
    rw [e2, (l2 i (Finset.mem_range.mp hi)).1, (l2 i (Finset.mem_range.mp hi)).2]
  rw [hsum, e0, hin]
  rw [e1, l1.1]
  ring

/-- C20. Backpropagation computes the exact gradient step: for every network over the reals
with zero or one hidden layer (`numLayers` is `2` or `3`) whose strides fit its topology, with
identity activation, `sigmoid` output and `sigmoidDeriv`, and with the psi slots of the hidden
layer holding `0` before the pass, one record's pass of the record loop of
`trainForAllTrainingSets` takes every valid weight `(m, k, j)` to its value before the pass
minus `learningFactor` times the derivative of the loss in that weight, where the loss is
`recordLoss`, the half-sum-of-squares `0.5 * Σ_i (output_i - target_i)²` of the forward pass
`runNetwork` on the record as a function of the weight block, and the derivative (which exists)
is taken at the weights held before the pass. -/
theorem trainForAllTrainingSets.recordStep_gradient (t : Nat) (p : Sweep ℝ)
    (hp : Planned p.net) (hL : p.net.numLayers = 2 ∨ p.net.numLayers = 3)
    (hact : p.net.activationFunction = identity)
    (hO : p.net.outputFunction = sigmoid Real.exp)
    (hD : p.net.outputDerivFunction = sigmoidDeriv Real.exp)
    (hpsi : p.net.numLayers = 3 → ∀ j, j < p.net.layerDimensions 1 →
      p.net.psis (p.net.maxNodesInALayer * 1 + j) = 0)
    (m k j : Nat) (hm : m + 1 < p.net.numLayers) (hk : k < p.net.layerDimensions m)
    (hj : j < p.net.layerDimensions (m + 1)) :
    DifferentiableAt ℝ
        (fun v => recordLoss p.net p.index (Function.update p.net.weights
          (p.net.maxWeightsInALayer * m + p.net.maxNodesInALayer * k + j) v))
        (p.net.weights (p.net.maxWeightsInALayer * m + p.net.maxNodesInALayer * k + j)) ∧
      (trainForAllTrainingSets.recordStep t p).net.weights
          (p.net.maxWeightsInALayer * m + p.net.maxNodesInALayer * k + j) =
        p.net.weights (p.net.maxWeightsInALayer * m + p.net.maxNodesInALayer * k + j) -
          p.net.learningFactor *
            deriv (fun v => recordLoss p.net p.index (Function.update p.net.weights
                (p.net.maxWeightsInALayer * m + p.net.maxNodesInALayer * k + j) v))
              (p.net.weights (p.net.maxWeightsInALayer * m + p.net.maxNodesInALayer * k + j)) := by
  rcases hL with hL | hL
  · obtain rfl : m = 0 := by omega
    have hd := hasDerivAt_recordLoss_two p.net hp hL hact hO p.index k j hk hj
    refine ⟨hd.differentiableAt, ?_⟩
    rw [hd.deriv, trainForAllTrainingSets.recordStep_weights_two t p hp hL hact k j hk hj,
      hO, hD]
  · rcases Nat.eq_zero_or_pos m with h0 | hpos
    · subst h0
      have hd := hasDerivAt_recordLoss_three_hidden p.net hp hL hact hO p.index k j hk hj
      refine ⟨hd.differentiableAt, ?_⟩
      rw [hd.deriv,
        trainForAllTrainingSets.recordStep_weights_three_hidden t p hp hL hact k j hk hj,
        hO, hD, hpsi hL j hj, zero_add]
    · obtain rfl : m = 1 := by omega
      have hd := hasDerivAt_recordLoss_three_output p.net hp hL hact hO p.index k j hk hj
      refine ⟨hd.differentiableAt, ?_⟩
      rw [hd.deriv,
        trainForAllTrainingSets.recordStep_weights_three_output t p hp hL hact k j hk hj,
        hO, hD]

/-- Witness for C20: the first record of the `[2, 2, 1]` network `scenarioNet` over the
reals, weight `(m, k, j) = (0, 0, 1)`. -/
theorem trainForAllTrainingSets.recordStep_gradient_witness :
    DifferentiableAt ℝ
        (fun v => recordLoss (scenarioNet Real.exp) 0
          (Function.update (scenarioNet Real.exp).weights
            ((scenarioNet Real.exp).maxWeightsInALayer * 0 +
              (scenarioNet Real.exp).maxNodesInALayer * 0 + 1) v))
        ((scenarioNet Real.exp).weights ((scenarioNet Real.exp).maxWeightsInALayer * 0 +
              (scenarioNet Real.exp).maxNodesInALayer * 0 + 1)) ∧
      (trainForAllTrainingSets.recordStep 0
          { net := scenarioNet Real.exp, index := 0, errorSum := 0 }).net.weights
          ((scenarioNet Real.exp).maxWeightsInALayer * 0 +
              (scenarioNet Real.exp).maxNodesInALayer * 0 + 1) =
        (scenarioNet Real.exp).weights ((scenarioNet Real.exp).maxWeightsInALayer * 0 +
              (scenarioNet Real.exp).maxNodesInALayer * 0 + 1) -
          (scenarioNet Real.exp).learningFactor *
            deriv (fun v => recordLoss (scenarioNet Real.exp) 0
                (Function.update (scenarioNet Real.exp).weights
                  ((scenarioNet Real.exp).maxWeightsInALayer * 0 +
                    (scenarioNet Real.exp).maxNodesInALayer * 0 + 1) v))
              ((scenarioNet Real.exp).weights ((scenarioNet Real.exp).maxWeightsInALayer * 0 +
                (scenarioNet Real.exp).maxNodesInALayer * 0 + 1)) :=
  trainForAllTrainingSets.recordStep_gradient 0
    { net := scenarioNet Real.exp, index := 0, errorSum := 0 }
    (calculateNumNodesAndWeights.inRange_planned _) (Or.inr rfl) rfl rfl rfl (fun _ _ _ => rfl)
    0 0 1 (by decide) (by decide) (by decide)

/-- The strides of the concrete networks are the ones `calculateNumNodesAndWeights` computes
on the `int` globals from zeroed strides. -/
theorem concrete_layouts (e lf sc mn mx : ℚ) (exp : α → α) :
    (calculateNumNodesAndWeights (blankLayout 3 [2, 2, 1])).maxNodesInALayer =
        demoNet.layout.maxNodesInALayer ∧
      (calculateNumNodesAndWeights (blankLayout 3 [2, 2, 1])).maxWeightsInALayer =
        demoNet.layout.maxWeightsInALayer ∧
      (calculateNumNodesAndWeights (blankLayout 3 [2, 2, 1])).totalWeights =
        demoNet.layout.totalWeights ∧
      (calculateNumNodesAndWeights (blankLayout 2 [1, 1])).maxNodesInALayer =
        (tinyNet e lf sc mn mx).layout.maxNodesInALayer ∧
      (calculateNumNodesAndWeights (blankLayout 2 [1, 1])).maxWeightsInALayer =
        (tinyNet e lf sc mn mx).layout.maxWeightsInALayer ∧
      (calculateNumNodesAndWeights (blankLayout 2 [1, 1])).totalWeights =
        (tinyNet e lf sc mn mx).layout.totalWeights ∧
      (calculateNumNodesAndWeights (blankLayout 3 [2, 2, 1])).maxNodesInALayer =
        (scenarioNet exp).layout.maxNodesInALayer ∧
      (calculateNumNodesAndWeights (blankLayout 3 [2, 2, 1])).maxWeightsInALayer =
        (scenarioNet exp).layout.maxWeightsInALayer ∧
      (calculateNumNodesAndWeights (blankLayout 3 [2, 2, 1])).totalWeights =
        (scenarioNet exp).layout.totalWeights ∧
      (calculateNumNodesAndWeights (blankLayout 2 [2, 1])).maxNodesInALayer =
        (descentNet exp).layout.maxNodesInALayer ∧
      (calculateNumNodesAndWeights (blankLayout 2 [2, 1])).maxWeightsInALayer =
        (descentNet exp).layout.maxWeightsInALayer ∧
      (calculateNumNodesAndWeights (blankLayout 2 [2, 1])).totalWeights =
        (descentNet exp).layout.totalWeights := by
  have a1 : (calculateNumNodesAndWeights (blankLayout 3 [2, 2, 1])).maxNodesInALayer = 2 := by
    decide
  have a2 : (calculateNumNodesAndWeights (blankLayout 3 [2, 2, 1])).maxWeightsInALayer = 4 := by
    decide
  have a3 : (calculateNumNodesAndWeights (blankLayout 3 [2, 2, 1])).totalWeights = 8 := by
    decide
  have b1 : (calculateNumNodesAndWeights (blankLayout 2 [1, 1])).maxNodesInALayer = 1 := by
    decide
  have b2 : (calculateNumNodesAndWeights (blankLayout 2 [1, 1])).maxWeightsInALayer = 1 := by
    decide
  have b3 : (calculateNumNodesAndWeights (blankLayout 2 [1, 1])).totalWeights = 1 := by
    decide
  have c1 : (calculateNumNodesAndWeights (blankLayout 2 [2, 1])).maxNodesInALayer = 2 := by
    decide
  have c2 : (calculateNumNodesAndWeights (blankLayout 2 [2, 1])).maxWeightsInALayer = 4 := by
    decide
  have c3 : (calculateNumNodesAndWeights (blankLayout 2 [2, 1])).totalWeights = 4 := by
    decide
  rw [a1, a2, a3, b1, b2, b3, c1, c2, c3]
  exact ⟨rfl, rfl, rfl, rfl, rfl, rfl, rfl, rfl, rfl, rfl, rfl, rfl⟩

end Sigmoid

/-! ## The accepted loss under adaptation -/

section AcceptedLoss

variable {α : Type} [LinearOrderedField α]

/-- The record loop of a sweep does not assign `learningFactor` or `error`. -/
theorem trainForAllTrainingSets.records_scalars (s : Network α) :
    (trainForAllTrainingSets.records s).net.learningFactor = s.learningFactor ∧
      (trainForAllTrainingSets.records s).net.error = s.error := by
  obtain ⟨N, E, T, P, Wt, hq⟩ := trainForAllTrainingSets.records_frame s
  rw [hq]
  exact ⟨rfl, rfl⟩

/-- C21 (as stated, refuted). On `tinyNet` with `scaler = 2`, accepted loss `0`, learning
factor `1/2`, `min = 1` and `max = 1/4`, the sweep measures the loss `1/128 > 0` while
`learningFactor ≤ min`, so neither branch of the controller is taken; the cap still runs and the
learning factor, which the record loop left at `1/2`, ends at `1/4`. -/
theorem trainForAllTrainingSets_accepted_loss_counterexample :
    (tinyNet 0 (1 / 2) 2 1 (1 / 4)).learningFactorScaler ≠ 1 ∧
      trainForAllTrainingSets.newError (tinyNet 0 (1 / 2) 2 1 (1 / 4)) >
        (tinyNet 0 (1 / 2) 2 1 (1 / 4)).error ∧
      (tinyNet 0 (1 / 2) 2 1 (1 / 4)).learningFactor ≤
        (tinyNet 0 (1 / 2) 2 1 (1 / 4)).minLearningFactor ∧
      (trainForAllTrainingSets.records (tinyNet 0 (1 / 2) 2 1 (1 / 4))).net.learningFactor =
        1 / 2 ∧
      (trainForAllTrainingSets (tinyNet 0 (1 / 2) 2 1 (1 / 4))).learningFactor = 1 / 4 ∧
      (trainForAllTrainingSets (tinyNet 0 (1 / 2) 2 1 (1 / 4))).learningFactor ≠
        (tinyNet 0 (1 / 2) 2 1 (1 / 4)).learningFactor := by
  have hs : (tinyNet 0 (1 / 2) 2 1 (1 / 4)).learningFactorScaler ≠ 1 := by
    show (2 : ℚ) ≠ 1
    norm_num
  have hloss : trainForAllTrainingSets.newError (tinyNet 0 (1 / 2) 2 1 (1 / 4)) >
      (tinyNet 0 (1 / 2) 2 1 (1 / 4)).error := by
    rw [tinyNet_newError]
    show (1 / 128 : ℚ) > 0
    norm_num
  have hlf : (tinyNet 0 (1 / 2) 2 1 (1 / 4)).learningFactor ≤
      (tinyNet 0 (1 / 2) 2 1 (1 / 4)).minLearningFactor := by
    show (1 / 2 : ℚ) ≤ 1
    norm_num
  have h := trainForAllTrainingSets.hold_spec (tinyNet 0 (1 / 2) 2 1 (1 / 4)) hs
    (fun h => absurd h.2 (not_lt_of_ge hlf)) (not_lt_of_gt hloss)
  have hafter : (trainForAllTrainingSets (tinyNet 0 (1 / 2) 2 1 (1 / 4))).learningFactor =
      1 / 4 := by
    rw [h.2.1]
    show min (1 / 2 : ℚ) (1 / 4) = 1 / 4
    norm_num
  refine ⟨hs, hloss, hlf, ?_, hafter, ?_⟩
  · rw [(trainForAllTrainingSets.records_scalars _).1]
    rfl
  · rw [hafter]
    show (1 / 4 : ℚ) ≠ 1 / 2
    norm_num

/-- C21 (amended). Accepted loss never rises under adaptation: for every state with
`scaler ≠ 1`, after one sweep the accepted loss `error` is the minimum of the accepted loss
before the sweep and the loss the sweep measured.  In particular, when the measured loss is
above the accepted loss while `learningFactor ≤ min`, the accepted loss keeps its value before
the sweep, strictly below the loss just measured, the weights are those the record loop left
(nothing is rolled back), and the learning factor is only capped: it becomes
`min learningFactor max`, which is the learning factor itself whenever
`learningFactor ≤ max`. -/
theorem trainForAllTrainingSets_accepted_loss (s : Network α)
    (hs : s.learningFactorScaler ≠ 1) :
    (trainForAllTrainingSets s).error = min s.error (trainForAllTrainingSets.newError s) ∧
      (trainForAllTrainingSets.newError s > s.error →
        s.learningFactor ≤ s.minLearningFactor →
          (trainForAllTrainingSets s).error = s.error ∧
            (trainForAllTrainingSets s).error < trainForAllTrainingSets.newError s ∧
            (trainForAllTrainingSets s).weights =
              (trainForAllTrainingSets.records s).net.weights ∧
            (trainForAllTrainingSets s).learningFactor =
              min s.learningFactor s.maxLearningFactor ∧
            (s.learningFactor ≤ s.maxLearningFactor →
              (trainForAllTrainingSets s).learningFactor = s.learningFactor)) := by
  constructor
  · by_cases h1 : trainForAllTrainingSets.newError s > s.error ∧
        s.learningFactor > s.minLearningFactor
    · rw [(trainForAllTrainingSets.reject_spec s hs h1.1 h1.2).2.1,
        min_eq_left (le_of_lt h1.1)]
    · by_cases h2 : trainForAllTrainingSets.newError s < s.error
      · rw [(trainForAllTrainingSets.accept_spec s hs h2).1, min_eq_right (le_of_lt h2)]
      · rw [(trainForAllTrainingSets.hold_spec s hs h1 h2).1, min_eq_left (not_lt.mp h2)]
  · intro hloss hlf
    obtain ⟨he, hl, hw⟩ := trainForAllTrainingSets.hold_spec s hs
      (fun h => absurd h.2 (not_lt_of_ge hlf)) (not_lt_of_gt hloss)
    refine ⟨he, ?_, hw, hl, fun hmax => ?_⟩
    · rw [he]
      exact hloss
    · rw [hl, min_eq_left hmax]

/-- Witness for C21: `tinyNet` with `scaler = 2`, accepted loss `0`, learning factor `1/2`,
`min = 1` and `max = 10`; the sweep measures `1/128`. -/
theorem trainForAllTrainingSets_accepted_loss_witness :
    (trainForAllTrainingSets (tinyNet 0 (1 / 2) 2 1 10)).error =
        min (tinyNet 0 (1 / 2) 2 1 10).error
          (trainForAllTrainingSets.newError (tinyNet 0 (1 / 2) 2 1 10)) ∧
      (trainForAllTrainingSets.newError (tinyNet 0 (1 / 2) 2 1 10) >
          (tinyNet 0 (1 / 2) 2 1 10).error →
        (tinyNet 0 (1 / 2) 2 1 10).learningFactor ≤
            (tinyNet 0 (1 / 2) 2 1 10).minLearningFactor →
          (trainForAllTrainingSets (tinyNet 0 (1 / 2) 2 1 10)).error =
              (tinyNet 0 (1 / 2) 2 1 10).error ∧
            (trainForAllTrainingSets (tinyNet 0 (1 / 2) 2 1 10)).error <
              trainForAllTrainingSets.newError (tinyNet 0 (1 / 2) 2 1 10) ∧
            (trainForAllTrainingSets (tinyNet 0 (1 / 2) 2 1 10)).weights =
              (trainForAllTrainingSets.records (tinyNet 0 (1 / 2) 2 1 10)).net.weights ∧
            (trainForAllTrainingSets (tinyNet 0 (1 / 2) 2 1 10)).learningFactor =
              min (tinyNet 0 (1 / 2) 2 1 10).learningFactor
                (tinyNet 0 (1 / 2) 2 1 10).maxLearningFactor ∧
            ((tinyNet 0 (1 / 2) 2 1 10).learningFactor ≤
                (tinyNet 0 (1 / 2) 2 1 10).maxLearningFactor →
              (trainForAllTrainingSets (tinyNet 0 (1 / 2) 2 1 10)).learningFactor =
                (tinyNet 0 (1 / 2) 2 1 10).learningFactor)) :=
  trainForAllTrainingSets_accepted_loss (tinyNet 0 (1 / 2) 2 1 10)
    (by show (2 : ℚ) ≠ 1; norm_num)

end AcceptedLoss

end SimpleNeuralNet
